import Mathlib

/-!
# BUTTON detector layout and PMT placement

A shallow embedding of `ButtonDetectorFactory::DefineDetector`
(src/src/ButtonDetectorFactory.cc) and of the placement loop of
`GeoPMTFactoryBase::ConstructPMTs` (src/src/GeoPMTFactoryBase.cc).

Conventions of the embedding:

* a C++ `double` is a real number (`ℝ`): rounding error, infinities and NaN are
  not represented, so `sqrt`, `cos`, `sin`, `ceil` are the functions of analysis
  and the definitions using them cannot be executable; three places where the
  double arithmetic decides a whole number are modelled more closely:
  - the quotient handed to `ceil` (lines 59-60, 64-65) is evaluated in binary64
    arithmetic, because a quotient that is a whole number in exact arithmetic
    may be rounded above it: `fl` rounds a real number to the nearest double,
    and `pmt_radius64`, `surface_area64`, ..., `quotient_pmts`, `quotient_vetos`
    follow lines 27-65 with `fl` after every operation and the double `M_PI`;
  - the counts of lines 59-101 are given a second time over `Dbl`, doubles with
    their zeros, infinities and NaN (`required_pmtsD`, `pmt_spaceD`, `colsD`, ...),
    which says what the program does when a required count is 0 or negative; the
    two descriptions agree whenever the quotient is positive
    (`special_values_regular`);
  - the distance compared by the nearest-sample scan overflows to `+inf`
    (`Vec3.magD`);
* `size_t` values are natural numbers (a `std::vector` of `2^64` entries cannot
  be allocated, so sums and products of sizes do not wrap); the one place where
  the source subtracts from a `size_t` (`num_pmts - 1`) is modelled with its
  wrap-around;
* `int` values are integers;
* the seven `PMTINFO` vectors are functions from the index to the entry, all
  entries `0` at allocation, and an assignment `v[idx] = e` is
  `Function.update`;
* a `for` loop over `0 .. n-1` is a left fold over `List.range n`.
-/

namespace BUTTON

/-! ## Base parameters and derived lengths (ButtonDetectorFactory.cc, lines 13-73) -/

/-- The scalar base parameters `DefineDetector` reads from the parameter store. -/
structure Params where
  photocathode_coverage : ℝ
  veto_coverage : ℝ
  rho_edge : List ℝ
  black_sheet_offset : ℝ
  black_sheet_thickness : ℝ
  steel_thickness : ℝ
  veto_thickness_r : ℝ
  detector_size_d : ℝ
  veto_thickness_z : ℝ
  detector_size_z : ℝ

/-- C `round` on a double: the nearest integer, halfway cases away from zero. -/
noncomputable def cround (x : ℝ) : ℤ :=
  if 0 ≤ x then ⌊x + 1 / 2⌋ else ⌈x - 1 / 2⌉

/-- Line 15: `const double veto_offset = 700`. -/
def veto_offset : ℝ := 700

/-- Lines 27-31: the running maximum over `rho_edge`, started at `rho_edge[0]`
(reading entry 0 of an empty vector is undefined in the source; the embedding
starts from 0 there). -/
noncomputable def photocathode_radius (p : Params) : ℝ :=
  (p.rho_edge.drop 1).foldl (fun r e => if r < e then e else r) (p.rho_edge.headD 0)

/-- Lines 32-33. -/
noncomputable def photocathode_area (p : Params) : ℝ :=
  Real.pi * photocathode_radius p * photocathode_radius p

/-- Lines 48-49. -/
noncomputable def cable_radius (p : Params) : ℝ :=
  p.detector_size_d / 2 - p.veto_thickness_r + 4 * p.steel_thickness

/-- Lines 50-51. -/
noncomputable def pmt_radius (p : Params) : ℝ :=
  p.detector_size_d / 2 - p.veto_thickness_r - 4 * p.steel_thickness

/-- Line 52. -/
noncomputable def veto_radius (p : Params) : ℝ := pmt_radius p + veto_offset

/-- Line 54. -/
noncomputable def topbot_offset (p : Params) : ℝ :=
  p.detector_size_z / 2 - p.veto_thickness_z

/-- Line 55. -/
noncomputable def topbot_veto_offset (p : Params) : ℝ := topbot_offset p + veto_offset

/-- Lines 57-58: two end caps plus the cylindrical side. -/
noncomputable def surface_area (p : Params) : ℝ :=
  2 * Real.pi * pmt_radius p * pmt_radius p +
    2 * topbot_offset p * 2 * Real.pi * pmt_radius p

/-! ### The quotients handed to `ceil`, in binary64 arithmetic (lines 27-65) -/

/-- The double `M_PI`, `0x400921FB54442D18`. -/
noncomputable def M_PI : ℝ := 884279719003555 / 2 ^ 48

/-- The nearest integer, a tie going to the even one. -/
noncomputable def roundHalfEven (m : ℝ) : ℤ :=
  if m - ⌊m⌋ < 1 / 2 then ⌊m⌋
  else if 1 / 2 < m - ⌊m⌋ then ⌊m⌋ + 1
  else if ⌊m⌋ % 2 = 0 then ⌊m⌋ else ⌊m⌋ + 1

/-- The unit in the last place of the doubles between `2^e` and `2^(e+1)`, where
`2^e <= |x| < 2^(e+1)`: it is `2^(e-52)`. -/
noncomputable def ulp (x : ℝ) : ℝ := 2 ^ (Int.log 2 |x| - 52)

/-- The rounding of double arithmetic: the double nearest to `x`, a tie going to the
double with the even significand. The exponent range is not bounded: overflow to an
infinity and the subnormal numbers are not represented. An operation on doubles gives
`fl` of its exact result, and a decimal parameter is stored as `fl` of its value. -/
noncomputable def fl (x : ℝ) : ℝ :=
  if x = 0 then 0 else (if x < 0 then -1 else 1) * (roundHalfEven (|x| / ulp x) : ℝ) * ulp x

/-- Lines 27-31 in doubles: the running maximum over the stored entries. -/
noncomputable def photocathode_radius64 (p : Params) : ℝ :=
  ((p.rho_edge.map fl).drop 1).foldl (fun r e => if r < e then e else r)
    ((p.rho_edge.map fl).headD 0)

/-- Lines 32-33 in doubles: `M_PI * photocathode_radius * photocathode_radius`. -/
noncomputable def photocathode_area64 (p : Params) : ℝ :=
  fl (fl (M_PI * photocathode_radius64 p) * photocathode_radius64 p)

/-- Lines 50-51 in doubles:
`detector_size_d / 2.0 - veto_thickness_r - 4.0 * steel_thickness`. -/
noncomputable def pmt_radius64 (p : Params) : ℝ :=
  fl (fl (fl (fl p.detector_size_d / 2) - fl p.veto_thickness_r) -
    fl (4 * fl p.steel_thickness))

/-- Line 52 in doubles. -/
noncomputable def veto_radius64 (p : Params) : ℝ := fl (pmt_radius64 p + veto_offset)

/-- Line 54 in doubles: `detector_size_z / 2.0 - veto_thickness_z`. -/
noncomputable def topbot_offset64 (p : Params) : ℝ :=
  fl (fl (fl p.detector_size_z / 2) - fl p.veto_thickness_z)

/-- Line 55 in doubles. -/
noncomputable def topbot_veto_offset64 (p : Params) : ℝ := fl (topbot_offset64 p + veto_offset)

/-- Lines 57-58 in doubles: `2.0 * M_PI * pmt_radius * pmt_radius +
2.0 * topbot_offset * 2.0 * M_PI * pmt_radius`, the products from left to right. -/
noncomputable def surface_area64 (p : Params) : ℝ :=
  fl (fl (fl (fl (2 * M_PI) * pmt_radius64 p) * pmt_radius64 p) +
    fl (fl (fl (fl (2 * topbot_offset64 p) * 2) * M_PI) * pmt_radius64 p))

/-- Lines 61-63 in doubles. -/
noncomputable def veto_surface_area64 (p : Params) : ℝ :=
  fl (fl (fl (fl (2 * M_PI) * veto_radius64 p) * veto_radius64 p) +
    fl (fl (fl (fl (2 * topbot_veto_offset64 p) * 2) * M_PI) * veto_radius64 p))

/-- Line 60: the value of `photocathode_coverage * surface_area / photocathode_area`
that is handed to `ceil`, in doubles. -/
noncomputable def quotient_pmts (p : Params) : ℝ :=
  fl (fl (fl p.photocathode_coverage * surface_area64 p) / photocathode_area64 p)

/-- Line 65: the value of `veto_coverage * veto_surface_area / photocathode_area` that
is handed to `ceil`, in doubles. -/
noncomputable def quotient_vetos (p : Params) : ℝ :=
  fl (fl (fl p.veto_coverage * veto_surface_area64 p) / photocathode_area64 p)

/-- Lines 59-60: `ceil(photocathode_coverage * surface_area / photocathode_area)`. -/
noncomputable def required_pmts (p : Params) : ℝ :=
  (⌈quotient_pmts p⌉ : ℤ)

/-- Lines 61-63. -/
noncomputable def veto_surface_area (p : Params) : ℝ :=
  2 * Real.pi * veto_radius p * veto_radius p +
    2 * topbot_veto_offset p * 2 * Real.pi * veto_radius p

/-- Lines 64-65: `ceil(veto_coverage * veto_surface_area / photocathode_area)`. -/
noncomputable def required_vetos (p : Params) : ℝ :=
  (⌈quotient_vetos p⌉ : ℤ)

/-- Line 67. Over the reals `x / 0 = 0` and the square root of a negative number is 0:
for a count of 0 or below the value of the program is that of `pmt_spaceD`. -/
noncomputable def pmt_space (p : Params) : ℝ :=
  Real.sqrt (surface_area p / required_pmts p)

/-- Line 68; for a count of 0 or below see `veto_spaceD`. -/
noncomputable def veto_space (p : Params) : ℝ :=
  Real.sqrt (veto_surface_area p / required_vetos p)

/-- Line 70: `const size_t cols = round(2.0 * M_PI * pmt_radius / pmt_space)`. The
conversion of a negative double to `size_t` is undefined in the source; the embedding
takes 0 there (here and for `rows`, `veto_cols`, `veto_rows`). -/
noncomputable def cols (p : Params) : ℕ :=
  (cround (2 * Real.pi * pmt_radius p / pmt_space p)).toNat

/-- Line 71. -/
noncomputable def rows (p : Params) : ℕ :=
  (cround (2 * topbot_offset p / pmt_space p)).toNat

/-- Line 72. -/
noncomputable def veto_cols (p : Params) : ℕ :=
  (cround (2 * Real.pi * veto_radius p / veto_space p)).toNat

/-- Line 73. -/
noncomputable def veto_rows (p : Params) : ℕ :=
  (cround (2 * topbot_veto_offset p / veto_space p)).toNat

/-- Line 87: `const int rdim = round(pmt_radius / pmt_space)`. -/
noncomputable def rdim (p : Params) : ℤ := cround (pmt_radius p / pmt_space p)

/-! ## End-cap lattice scan (lines 84-102) -/

/-- The offsets visited by `for (int i = -rdim; i <= rdim; i++)`, in order. -/
def scanRange (rdim : ℤ) : List ℤ :=
  (List.range (2 * rdim + 1).toNat).map (fun (a : ℕ) => -rdim + (a : ℤ))

/-- The pairs `(i, j)` visited by the nested loops of lines 88-89, `i` outer and
`j` inner. -/
def lattice (rdim : ℤ) : List (ℤ × ℤ) :=
  (scanRange rdim).flatMap (fun i => (scanRange rdim).map (fun j => (i, j)))

/-- Line 90: the test guarding `topbot.push_back`. -/
def topbotTest (p : Params) (ij : ℤ × ℤ) : Prop :=
  pmt_space p * Real.sqrt ((ij.1 * ij.1 + ij.2 * ij.2 : ℤ)) ≤
    pmt_radius p - pmt_space p / 2

/-- Lines 93-94: the test guarding `topbot_veto.push_back`; the right-hand side
is the one of the sensor array (the source comments `pmt_* is not a mistake`). -/
def topbotVetoTest (p : Params) (ij : ℤ × ℤ) : Prop :=
  veto_space p * Real.sqrt ((ij.1 * ij.1 + ij.2 * ij.2 : ℤ)) ≤
    pmt_radius p - pmt_space p / 2

noncomputable instance topbotTest_decidable (p : Params) : DecidablePred (topbotTest p) :=
  fun _ => Classical.propDecidable _

noncomputable instance topbotVetoTest_decidable (p : Params) : DecidablePred (topbotVetoTest p) :=
  fun _ => Classical.propDecidable _

/-- One pass of the loop body of lines 90-96 on the pair of vectors
`(topbot, topbot_veto)`. -/
noncomputable def scanStep (p : Params) (st : List (ℤ × ℤ) × List (ℤ × ℤ)) (ij : ℤ × ℤ) :
    List (ℤ × ℤ) × List (ℤ × ℤ) :=
  (if pmt_space p * Real.sqrt ((ij.1 * ij.1 + ij.2 * ij.2 : ℤ)) ≤
        pmt_radius p - pmt_space p / 2 then st.1 ++ [ij] else st.1,
   if veto_space p * Real.sqrt ((ij.1 * ij.1 + ij.2 * ij.2 : ℤ)) ≤
        pmt_radius p - pmt_space p / 2 then st.2 ++ [ij] else st.2)

/-- Lines 85-98: both vectors after the scan. -/
noncomputable def scanLattice (p : Params) : List (ℤ × ℤ) × List (ℤ × ℤ) :=
  (lattice (rdim p)).foldl (scanStep p) ([], [])

/-- The vector `topbot` after the scan. -/
noncomputable def topbot (p : Params) : List (ℤ × ℤ) := (scanLattice p).1

/-- The vector `topbot_veto` after the scan. -/
noncomputable def topbot_veto (p : Params) : List (ℤ × ℤ) := (scanLattice p).2

/-- Line 100. -/
noncomputable def num_pmts (p : Params) : ℕ := cols p * rows p + 2 * (topbot p).length

/-- Line 101. -/
noncomputable def num_vetos (p : Params) : ℕ :=
  veto_cols p * veto_rows p + 2 * (topbot_veto p).length

/-- Line 102. -/
noncomputable def total_pmts (p : Params) : ℕ := num_pmts p + num_vetos p

/-! ## The counts with the special values of double arithmetic (lines 59-101)

Over the reals `area / 0` is `0` and `sqrt` of a negative number is `0`, so the
definitions above say nothing true about a run in which a required count is zero or
negative. The definitions of this section follow the same lines of the source over
`Dbl`, with the rules of IEEE 754 for the zeros, the infinities and NaN. -/

/-- A double with the special values of IEEE arithmetic: a finite value (`fin 0` is
the positive zero), the negative zero, the two infinities and NaN. The operations
below give the exact finite result; where the embedding rounds, in the quotients
handed to `ceil`, `Dbl.fl` is applied to it. -/
inductive Dbl where
  | fin (x : ℝ)
  | negZero
  | posInf
  | negInf
  | nan

/-- The sign bit. -/
noncomputable def Dbl.sign : Dbl → Bool
  | .fin x => decide (x < 0)
  | .negZero => true
  | .posInf => false
  | .negInf => true
  | .nan => false

/-- The value of a finite double (both zeros have the value 0). -/
def Dbl.val : Dbl → ℝ
  | .fin x => x
  | _ => 0

/-- The double is NaN. -/
def Dbl.isNaN : Dbl → Bool
  | .nan => true
  | _ => false

/-- The double is one of the two infinities. -/
def Dbl.isInf : Dbl → Bool
  | .posInf => true
  | .negInf => true
  | _ => false

/-- The double is one of the two zeros. -/
noncomputable def Dbl.isZero : Dbl → Bool
  | .fin x => decide (x = 0)
  | .negZero => true
  | _ => false

/-- The finite result of value `v` of an operation whose result has the sign bit `s`:
the sign bit is kept apart only for a zero. -/
noncomputable def Dbl.signed (s : Bool) (v : ℝ) : Dbl :=
  if v = 0 ∧ s = true then .negZero else .fin v

/-- The infinity with the sign bit `s`. -/
def Dbl.infinity (s : Bool) : Dbl :=
  if s = true then .negInf else .posInf

/-- The product `a * b`: NaN for a NaN operand and for `inf * 0`; the sign bit of
the result is the exclusive or of the sign bits. -/
noncomputable def Dbl.mul (a b : Dbl) : Dbl :=
  if (a.isNaN || b.isNaN) = true then .nan
  else if ((a.isInf && b.isZero) || (a.isZero && b.isInf)) = true then .nan
  else if (a.isInf || b.isInf) = true then Dbl.infinity (a.sign != b.sign)
  else Dbl.signed (a.sign != b.sign) (a.val * b.val)

/-- The quotient `a / b`: NaN for a NaN operand, for `inf / inf` and for `0 / 0`; an
infinity for an infinity or a non-zero number divided by a zero; a zero for a finite
number divided by an infinity; the sign bit of the result is the exclusive or of the
sign bits. -/
noncomputable def Dbl.div (a b : Dbl) : Dbl :=
  if (a.isNaN || b.isNaN) = true then .nan
  else if ((a.isInf && b.isInf) || (a.isZero && b.isZero)) = true then .nan
  else if (a.isInf || b.isZero) = true then Dbl.infinity (a.sign != b.sign)
  else if b.isInf = true then Dbl.signed (a.sign != b.sign) 0
  else Dbl.signed (a.sign != b.sign) (a.val / b.val)

/-- The difference `a - b`: NaN for a NaN operand and for the difference of two
infinities of the same sign; a zero difference is the negative zero only for
`(-0) - (+0)`. -/
noncomputable def Dbl.sub (a b : Dbl) : Dbl :=
  if (a.isNaN || b.isNaN) = true then .nan
  else if (a.isInf && b.isInf) = true then (if a.sign = b.sign then .nan else a)
  else if a.isInf = true then a
  else if b.isInf = true then Dbl.infinity (!b.sign)
  else Dbl.signed (a.isZero && a.sign && !b.sign) (a.val - b.val)

/-- The square root: NaN for a negative number and for `-inf`, `-0` for `-0`, `+inf`
for `+inf`. -/
noncomputable def Dbl.sqrt : Dbl → Dbl
  | .fin x => if x < 0 then .nan else .fin (Real.sqrt x)
  | .negZero => .negZero
  | .posInf => .posInf
  | .negInf => .nan
  | .nan => .nan

/-- C `ceil`: the sign bit is kept (`ceil(-0.5)` is `-0`), the special values are
returned unchanged. -/
noncomputable def Dbl.ceil : Dbl → Dbl
  | .fin x => Dbl.signed (decide (x < 0)) ((⌈x⌉ : ℤ) : ℝ)
  | a => a

/-- C `round`: the sign bit is kept, the special values are returned unchanged. -/
noncomputable def Dbl.round : Dbl → Dbl
  | .fin x => Dbl.signed (decide (x < 0)) ((cround x : ℤ) : ℝ)
  | a => a

/-- The rounding of a result: a finite value is rounded by `fl`, the special values
are not changed. -/
noncomputable def Dbl.fl : Dbl → Dbl
  | .fin x => .fin (BUTTON.fl x)
  | a => a

/-- The comparison `a <= b`: false when an operand is NaN. -/
def Dbl.le : Dbl → Dbl → Prop
  | .nan, _ => False
  | _, .nan => False
  | .negInf, _ => True
  | _, .posInf => True
  | .posInf, _ => False
  | _, .negInf => False
  | a, b => a.val ≤ b.val

/-- The comparison `a < b`: false when an operand is NaN. -/
def Dbl.lt : Dbl → Dbl → Prop
  | .nan, _ => False
  | _, .nan => False
  | .posInf, _ => False
  | _, .negInf => False
  | .negInf, _ => True
  | _, .posInf => True
  | a, b => a.val < b.val

noncomputable instance Dbl.le_decidable (a b : Dbl) : Decidable (Dbl.le a b) :=
  Classical.propDecidable _

noncomputable instance Dbl.lt_decidable (a b : Dbl) : Decidable (Dbl.lt a b) :=
  Classical.propDecidable _

/-- The conversion of a double to `size_t`: the value without its fractional part.
It is undefined in the source (here: `none`) for NaN, for an infinity and for a value
of -1 or below; the upper end of the range of `size_t` is not represented. -/
noncomputable def Dbl.toSize : Dbl → Option ℕ
  | .fin x => if -1 < x then some ⌊x⌋₊ else none
  | .negZero => some 0
  | _ => none

/-- The conversion of a double to `int`: the value without its fractional part,
undefined (`none`) for NaN and the infinities; the range of `int` is not
represented. -/
noncomputable def Dbl.toInt : Dbl → Option ℤ
  | .fin x => some (if 0 ≤ x then ⌊x⌋ else ⌈x⌉)
  | .negZero => some 0
  | _ => none

/-- Lines 59-60, with the product and the quotient rounded as in `quotient_pmts`. -/
noncomputable def required_pmtsD (p : Params) : Dbl :=
  Dbl.ceil (Dbl.fl (Dbl.div
    (Dbl.fl (Dbl.mul (.fin (fl p.photocathode_coverage)) (.fin (surface_area64 p))))
    (.fin (photocathode_area64 p))))

/-- Lines 64-65, with the product and the quotient rounded as in `quotient_vetos`. -/
noncomputable def required_vetosD (p : Params) : Dbl :=
  Dbl.ceil (Dbl.fl (Dbl.div
    (Dbl.fl (Dbl.mul (.fin (fl p.veto_coverage)) (.fin (veto_surface_area64 p))))
    (.fin (photocathode_area64 p))))

/-- Line 67; the area is the real number `surface_area`, as in `pmt_space`. -/
noncomputable def pmt_spaceD (p : Params) : Dbl :=
  Dbl.sqrt (Dbl.div (.fin (surface_area p)) (required_pmtsD p))

/-- Line 68; the area is the real number `veto_surface_area`, as in `veto_space`. -/
noncomputable def veto_spaceD (p : Params) : Dbl :=
  Dbl.sqrt (Dbl.div (.fin (veto_surface_area p)) (required_vetosD p))

/-- Line 70. -/
noncomputable def colsD (p : Params) : Option ℕ :=
  Dbl.toSize (Dbl.round (Dbl.div (.fin (2 * Real.pi * pmt_radius p)) (pmt_spaceD p)))

/-- Line 71. -/
noncomputable def rowsD (p : Params) : Option ℕ :=
  Dbl.toSize (Dbl.round (Dbl.div (.fin (2 * topbot_offset p)) (pmt_spaceD p)))

/-- Line 72. -/
noncomputable def veto_colsD (p : Params) : Option ℕ :=
  Dbl.toSize (Dbl.round (Dbl.div (.fin (2 * Real.pi * veto_radius p)) (veto_spaceD p)))

/-- Line 73. -/
noncomputable def veto_rowsD (p : Params) : Option ℕ :=
  Dbl.toSize (Dbl.round (Dbl.div (.fin (2 * topbot_veto_offset p)) (veto_spaceD p)))

/-- Line 87. -/
noncomputable def rdimD (p : Params) : Option ℤ :=
  Dbl.toInt (Dbl.round (Dbl.div (.fin (pmt_radius p)) (pmt_spaceD p)))

/-- Line 90: the test guarding `topbot.push_back`. -/
noncomputable def topbotTestD (p : Params) (ij : ℤ × ℤ) : Prop :=
  Dbl.le (Dbl.mul (pmt_spaceD p) (.fin (Real.sqrt ((ij.1 * ij.1 + ij.2 * ij.2 : ℤ)))))
    (Dbl.sub (.fin (pmt_radius p)) (Dbl.div (pmt_spaceD p) (.fin 2)))

/-- Lines 93-94: the test guarding `topbot_veto.push_back`. -/
noncomputable def topbotVetoTestD (p : Params) (ij : ℤ × ℤ) : Prop :=
  Dbl.le (Dbl.mul (veto_spaceD p) (.fin (Real.sqrt ((ij.1 * ij.1 + ij.2 * ij.2 : ℤ)))))
    (Dbl.sub (.fin (pmt_radius p)) (Dbl.div (pmt_spaceD p) (.fin 2)))

noncomputable instance topbotTestD_decidable (p : Params) : DecidablePred (topbotTestD p) :=
  fun _ => Classical.propDecidable _

noncomputable instance topbotVetoTestD_decidable (p : Params) :
    DecidablePred (topbotVetoTestD p) :=
  fun _ => Classical.propDecidable _

/-- Lines 85-98: the vector `topbot` after the scan, the visited pairs that pass the
test of line 90 in the order of the scan; undefined when `rdim` is. -/
noncomputable def topbotD (p : Params) : Option (List (ℤ × ℤ)) :=
  (rdimD p).map (fun r => (lattice r).filter (fun ij => topbotTestD p ij))

/-- Lines 85-98: the vector `topbot_veto` after the scan. -/
noncomputable def topbot_vetoD (p : Params) : Option (List (ℤ × ℤ)) :=
  (rdimD p).map (fun r => (lattice r).filter (fun ij => topbotVetoTestD p ij))

/-- Line 100. -/
noncomputable def num_pmtsD (p : Params) : Option ℕ :=
  match colsD p, rowsD p, topbotD p with
  | some c, some r, some t => some (c * r + 2 * t.length)
  | _, _, _ => none

/-- Line 101. -/
noncomputable def num_vetosD (p : Params) : Option ℕ :=
  match veto_colsD p, veto_rowsD p, topbot_vetoD p with
  | some c, some r, some t => some (c * r + 2 * t.length)
  | _, _, _ => none

/-! ## The PMTINFO vectors (lines 114-204) -/

/-- The seven vectors `x, y, z, dir_x, dir_y, dir_z, type`. -/
structure PMTInfo where
  x : ℕ → ℝ
  y : ℕ → ℝ
  z : ℕ → ℝ
  dir_x : ℕ → ℝ
  dir_y : ℕ → ℝ
  dir_z : ℕ → ℝ
  type : ℕ → ℤ

/-- Lines 114-116: `std::vector<double> x(total_pmts), ...` and
`std::vector<int> type(total_pmts)`, every entry value-initialised to zero. -/
def PMTInfo.alloc : PMTInfo :=
  { x := fun _ => 0, y := fun _ => 0, z := fun _ => 0,
    dir_x := fun _ => 0, dir_y := fun _ => 0, dir_z := fun _ => 0,
    type := fun _ => 0 }

/-- The assignment `x[idx] = v`. -/
def PMTInfo.setX (t : PMTInfo) (idx : ℕ) (v : ℝ) : PMTInfo :=
  { t with x := Function.update t.x idx v }

/-- The assignment `y[idx] = v`. -/
def PMTInfo.setY (t : PMTInfo) (idx : ℕ) (v : ℝ) : PMTInfo :=
  { t with y := Function.update t.y idx v }

/-- The assignment `z[idx] = v`. -/
def PMTInfo.setZ (t : PMTInfo) (idx : ℕ) (v : ℝ) : PMTInfo :=
  { t with z := Function.update t.z idx v }

/-- The assignment `dir_x[idx] = v`. -/
def PMTInfo.setDirX (t : PMTInfo) (idx : ℕ) (v : ℝ) : PMTInfo :=
  { t with dir_x := Function.update t.dir_x idx v }

/-- The assignment `dir_y[idx] = v`. -/
def PMTInfo.setDirY (t : PMTInfo) (idx : ℕ) (v : ℝ) : PMTInfo :=
  { t with dir_y := Function.update t.dir_y idx v }

/-- The assignment `dir_z[idx] = v`. -/
def PMTInfo.setDirZ (t : PMTInfo) (idx : ℕ) (v : ℝ) : PMTInfo :=
  { t with dir_z := Function.update t.dir_z idx v }

/-- The assignment `type[idx] = v`. -/
def PMTInfo.setType (t : PMTInfo) (idx : ℕ) (v : ℤ) : PMTInfo :=
  { t with type := Function.update t.type idx v }

/-- One table row: the entries of the seven vectors at one index. -/
structure Entry where
  x : ℝ
  y : ℝ
  z : ℝ
  dir_x : ℝ
  dir_y : ℝ
  dir_z : ℝ
  type : ℤ

/-- The row of the table at index `k`. -/
def PMTInfo.entry (t : PMTInfo) (k : ℕ) : Entry :=
  { x := t.x k, y := t.y k, z := t.z k,
    dir_x := t.dir_x k, dir_y := t.dir_y k, dir_z := t.dir_z k, type := t.type k }

/-- A loop `for (size_t i = 0; i < n; i++) body(i)` acting on a state. -/
def loop {σ : Type} (n : ℕ) (body : ℕ → σ → σ) (s : σ) : σ :=
  (List.range n).foldl (fun s i => body i s) s

/-- Lines 121-133: the body of the side-wall loops of the inner array. -/
noncomputable def innerSideBody (p : Params) (col row : ℕ) (t : PMTInfo) : PMTInfo :=
  let idx := row + col * rows p
  let phi := 2 * Real.pi * ((col : ℝ) + 0.5) / (cols p : ℝ)
  ((((((t.setX idx (pmt_radius p * Real.cos phi)).setY idx (pmt_radius p * Real.sin phi)).setZ idx
    ((row : ℝ) * 2 * topbot_offset p / (rows p : ℝ) + pmt_space p / 2 - topbot_offset p)).setDirX idx
    (-Real.cos phi)).setDirY idx (-Real.sin phi)).setDirZ idx 0).setType idx 1

/-- Lines 119-135. -/
noncomputable def innerSideLoop (p : Params) (t : PMTInfo) : PMTInfo :=
  loop (cols p) (fun col t => loop (rows p) (fun row t => innerSideBody p col row t) t) t

/-- Lines 139-159: the body of the end-cap loop of the inner array. The chained
assignment `dir_x[idx] = dir_y[idx] = 0.0` stores into `dir_y[idx]` first; line
156 reads `dir_x[idx + 1] = dir_y[idx] = 0.0`. -/
noncomputable def innerCapBody (p : Params) (i : ℕ) (t : PMTInfo) : PMTInfo :=
  let idx := rows p * cols p + i * 2
  let tb := (topbot p).getD i (0, 0)
  ((((((((((((((t.setX idx (pmt_space p * (tb.1 : ℝ))).setY idx (pmt_space p * (tb.2 : ℝ))).setZ idx
    (topbot_offset p)).setDirY idx 0).setDirX idx 0).setDirZ idx (-1)).setType idx 1).setX (idx + 1)
    (pmt_space p * (tb.1 : ℝ))).setY (idx + 1) (pmt_space p * (tb.2 : ℝ))).setZ (idx + 1)
    (-topbot_offset p)).setDirY idx 0).setDirX (idx + 1) 0).setDirZ (idx + 1) 1).setType (idx + 1) 1)

/-- Lines 138-160. -/
noncomputable def innerCapLoop (p : Params) (t : PMTInfo) : PMTInfo :=
  loop (topbot p).length (innerCapBody p) t

/-- Lines 165-177: the body of the side-wall loops of the veto array. -/
noncomputable def vetoSideBody (p : Params) (col row : ℕ) (t : PMTInfo) : PMTInfo :=
  let idx := num_pmts p + row + col * veto_rows p
  let phi := 2 * Real.pi * (col : ℝ) / (veto_cols p : ℝ)
  ((((((t.setX idx (veto_radius p * Real.cos phi)).setY idx (veto_radius p * Real.sin phi)).setZ idx
    ((row : ℝ) * 2 * topbot_offset p / (veto_rows p : ℝ) + veto_space p / 2 - topbot_offset p)).setDirX
    idx (Real.cos phi)).setDirY idx (Real.sin phi)).setDirZ idx 0).setType idx 2

/-- Lines 163-179. -/
noncomputable def vetoSideLoop (p : Params) (t : PMTInfo) : PMTInfo :=
  loop (veto_cols p) (fun col t => loop (veto_rows p) (fun row t => vetoSideBody p col row t) t) t

/-- Lines 183-203: the body of the end-cap loop of the veto array. -/
noncomputable def vetoCapBody (p : Params) (i : ℕ) (t : PMTInfo) : PMTInfo :=
  let idx := num_pmts p + veto_rows p * veto_cols p + i * 2
  let tb := (topbot_veto p).getD i (0, 0)
  ((((((((((((((t.setX idx (veto_space p * (tb.1 : ℝ))).setY idx (veto_space p * (tb.2 : ℝ))).setZ idx
    (topbot_veto_offset p)).setDirY idx 0).setDirX idx 0).setDirZ idx 1).setType idx 2).setX (idx + 1)
    (veto_space p * (tb.1 : ℝ))).setY (idx + 1) (veto_space p * (tb.2 : ℝ))).setZ (idx + 1)
    (-topbot_veto_offset p)).setDirY idx 0).setDirX (idx + 1) 0).setDirZ (idx + 1) (-1)).setType
    (idx + 1) 2)

/-- Lines 182-204. -/
noncomputable def vetoCapLoop (p : Params) (t : PMTInfo) : PMTInfo :=
  loop (topbot_veto p).length (vetoCapBody p) t

/-- Lines 114-204 and 437-443: the vectors written to `PMTINFO`. -/
noncomputable def pmtinfoTable (p : Params) : PMTInfo :=
  vetoCapLoop p (vetoSideLoop p (innerCapLoop p (innerSideLoop p PMTInfo.alloc)))

/-! ## Index ranges written back (lines 449-461) -/

/-- The `size_t` value of `n - 1`: it wraps to `2^64 - 1` at `n = 0`. -/
def sizePred (n : ℕ) : ℕ := if n = 0 then 2 ^ 64 - 1 else n - 1

/-- Line 460: `db->Set("GEO", "inner_pmts", "start_idx", 0)`. -/
def inner_start_idx (_p : Params) : ℕ := 0

/-- Line 461: `db->Set("GEO", "inner_pmts", "end_idx", num_pmts - 1)`. -/
noncomputable def inner_end_idx (p : Params) : ℕ := sizePred (num_pmts p)

/-- Line 452: `db->Set("GEO", "veto_pmts", "start_idx", num_pmts)`. -/
noncomputable def veto_start_idx (p : Params) : ℕ := num_pmts p

/-- Line 453: `db->Set("GEO", "veto_pmts", "end_idx", total_pmts - 1)`. -/
noncomputable def veto_end_idx (p : Params) : ℕ := sizePred (total_pmts p)

/-- The layout scenario of the specification: coverage 0.4, sensor radius 1000,
half height 1000, photocathode radius 100 (unit area 10000 pi). -/
noncomputable def scenario : Params :=
  { photocathode_coverage := 0.4, veto_coverage := 0.4, rho_edge := [100],
    black_sheet_offset := 300, black_sheet_thickness := 10, steel_thickness := 0,
    veto_thickness_r := 0, detector_size_d := 2000, veto_thickness_z := 0,
    detector_size_z := 2000 }

/-- The scenario with the sign of the sensor coverage fraction reversed. -/
noncomputable def negativeCoverage : Params :=
  { scenario with photocathode_coverage := -0.4 }

/-- The scenario with the sensor coverage fraction 0: no sensors are asked for. -/
noncomputable def zeroCoverage : Params :=
  { scenario with photocathode_coverage := 0 }

/-- The scenario with the sensor coverage fraction 0.001: the quotient is 0.6, so
that one unit is required. -/
noncomputable def lowCoverage : Params :=
  { scenario with photocathode_coverage := 0.001 }

/-- An input whose exact quotient is a whole number: coverage 1, sensor radius 100,
half height 200, photocathode radius 50, so that `c * A / u` is
`100000 pi / (2500 pi) = 40`. -/
noncomputable def wholeQuotient : Params :=
  { photocathode_coverage := 1, veto_coverage := 1, rho_edge := [50],
    black_sheet_offset := 300, black_sheet_thickness := 10, steel_thickness := 0,
    veto_thickness_r := 0, detector_size_d := 200, veto_thickness_z := 0,
    detector_size_z := 400 }

/-! ## Nearest field sample (GeoPMTFactoryBase.cc, lines 891-976) -/

/-- A `G4ThreeVector`. -/
structure Vec3 where
  x : ℝ
  y : ℝ
  z : ℝ

/-- The difference `a - b` of two vectors. -/
def Vec3.sub (a b : Vec3) : Vec3 := { x := a.x - b.x, y := a.y - b.y, z := a.z - b.z }

/-- The Euclidean length `mag()`. -/
noncomputable def Vec3.mag (a : Vec3) : ℝ := Real.sqrt (a.x * a.x + a.y * a.y + a.z * a.z)

/-- The squared length `mag2()`. -/
def Vec3.mag2 (a : Vec3) : ℝ := a.x * a.x + a.y * a.y + a.z * a.z

/-- The constant `DBL_MAX`, the largest finite double: `(2^53 - 1) * 2^971`. -/
def DBL_MAX : ℝ := (2 ^ 53 - 1) * 2 ^ 971

/-- The least magnitude that the double arithmetic rounds to an infinity:
`2^1024 - 2^970`, half a unit in the last place above `DBL_MAX`. -/
def overflowBound : ℝ := 2 ^ 1024 - 2 ^ 970

/-- The length `mag()` as the double arithmetic delivers it (CLHEP: the square root
of `mag2()`, the sum `dx*dx + dy*dy + dz*dz`), the rounding of a finite result aside:
it is `+inf` once the sum of the squares reaches `overflowBound`, long before the
length itself comes near `DBL_MAX`. -/
noncomputable def Vec3.magD (a : Vec3) : Dbl :=
  if a.mag2 < overflowBound then .fin a.mag else .posInf

/-- Lines 897-900: one pass of the scan on the pair `(MinDist, imin)`; the test
`MinDist > (pmtpos - Bpos[i]).mag()` is the comparison of two doubles, false for a
length of `+inf`. -/
noncomputable def nearestStep (pmtpos : Vec3) (Bpos : List Vec3) (i : ℕ) (st : ℝ × ℤ) : ℝ × ℤ :=
  if Dbl.lt (pmtpos.sub (Bpos.getD i ⟨0, 0, 0⟩)).magD (.fin st.1) then
    ((pmtpos.sub (Bpos.getD i ⟨0, 0, 0⟩)).magD.val, (i : ℤ))
  else st

/-- Lines 894-901: `(MinDist, imin)` after the scan, started at `(DBL_MAX, -1)`. -/
noncomputable def nearestScan (pmtpos : Vec3) (Bpos : List Vec3) : ℝ × ℤ :=
  loop Bpos.length (nearestStep pmtpos Bpos) (DBL_MAX, -1)

/-- Lines 955-975: what is pushed to `BEfficiencyCorrection` for one unit from the
two response deltas; nothing is pushed for an unknown model string. -/
noncomputable def efficiencyEntry (CorrBEpsiInput : Bool) (BEffiModel : String) (dx dy : ℝ) :
    Option ℝ :=
  if BEffiModel = "multiplicative" then
    (if CorrBEpsiInput = true ∧ dx * dy > 1 then some 1 else some (dx * dy))
  else if BEffiModel = "additive" then
    (if CorrBEpsiInput = true ∧ dx + dy - 1 > 1 then some 1 else some (dx + dy - 1))
  else none

/-- Lines 894-976 for one unit: no entry when `imin < 0`. The two curve lookups
`Bepsix[sheetno].GetValue(..)`, `Bepsiy[sheetno].GetValue(..)` (Geant4 classes, with
the dynode axis and the sheet drawn at random) enter as the function `deltas` of the
selected sample index. -/
noncomputable def unitCorrection (CorrBEpsiInput : Bool) (BEffiModel : String)
    (deltas : ℕ → ℝ × ℝ) (pmtpos : Vec3) (Bpos : List Vec3) : Option ℝ :=
  if (nearestScan pmtpos Bpos).2 < 0 then none
  else efficiencyEntry CorrBEpsiInput BEffiModel (deltas (nearestScan pmtpos Bpos).2.toNat).1
    (deltas (nearestScan pmtpos Bpos).2.toNat).2

/-! ## Units of one array and their table index -/

/-- A unit of one array: a side-wall cell, or the top or the bottom unit of the
pair of the `i`-th retained lattice point. -/
inductive Slot where
  | side (col row : ℕ)
  | top (i : ℕ)
  | bottom (i : ℕ)

/-- The slots the loops go through, for `cols` columns, `rows` rows and `n`
retained lattice points. -/
def Slot.valid (rows cols n : ℕ) : Slot → Prop
  | Slot.side col row => col < cols ∧ row < rows
  | Slot.top i => i < n
  | Slot.bottom i => i < n

/-- The index expressions of lines 121, 139 (inner array, `base = 0`) and of lines
165, 183 (veto array, `base = num_pmts`). -/
def Slot.index (base rows cols : ℕ) : Slot → ℕ
  | Slot.side col row => base + row + col * rows
  | Slot.top i => base + rows * cols + i * 2
  | Slot.bottom i => base + rows * cols + i * 2 + 1

/-- The values the inner-array loop bodies assign for one unit (lines 124-133 for
a side-wall cell, 142-149 for a top unit, 152-159 for a bottom unit). No statement
assigns `dir_y` of a bottom unit: it keeps the `0` of the allocation. -/
noncomputable def innerUnit (p : Params) : Slot → Entry
  | Slot.side col row =>
    { x := pmt_radius p * Real.cos (2 * Real.pi * ((col : ℝ) + 0.5) / (cols p : ℝ)),
      y := pmt_radius p * Real.sin (2 * Real.pi * ((col : ℝ) + 0.5) / (cols p : ℝ)),
      z := (row : ℝ) * 2 * topbot_offset p / (rows p : ℝ) + pmt_space p / 2 - topbot_offset p,
      dir_x := -Real.cos (2 * Real.pi * ((col : ℝ) + 0.5) / (cols p : ℝ)),
      dir_y := -Real.sin (2 * Real.pi * ((col : ℝ) + 0.5) / (cols p : ℝ)),
      dir_z := 0, type := 1 }
  | Slot.top i =>
    { x := pmt_space p * (((topbot p).getD i (0, 0)).1 : ℝ),
      y := pmt_space p * (((topbot p).getD i (0, 0)).2 : ℝ),
      z := topbot_offset p, dir_x := 0, dir_y := 0, dir_z := -1, type := 1 }
  | Slot.bottom i =>
    { x := pmt_space p * (((topbot p).getD i (0, 0)).1 : ℝ),
      y := pmt_space p * (((topbot p).getD i (0, 0)).2 : ℝ),
      z := -topbot_offset p, dir_x := 0, dir_y := 0, dir_z := 1, type := 1 }

/-- The values the veto-array loop bodies assign for one unit (lines 168-177 for a
side-wall cell, 186-193 for a top unit, 196-203 for a bottom unit). -/
noncomputable def vetoUnit (p : Params) : Slot → Entry
  | Slot.side col row =>
    { x := veto_radius p * Real.cos (2 * Real.pi * (col : ℝ) / (veto_cols p : ℝ)),
      y := veto_radius p * Real.sin (2 * Real.pi * (col : ℝ) / (veto_cols p : ℝ)),
      z := (row : ℝ) * 2 * topbot_offset p / (veto_rows p : ℝ) + veto_space p / 2 -
        topbot_offset p,
      dir_x := Real.cos (2 * Real.pi * (col : ℝ) / (veto_cols p : ℝ)),
      dir_y := Real.sin (2 * Real.pi * (col : ℝ) / (veto_cols p : ℝ)),
      dir_z := 0, type := 2 }
  | Slot.top i =>
    { x := veto_space p * (((topbot_veto p).getD i (0, 0)).1 : ℝ),
      y := veto_space p * (((topbot_veto p).getD i (0, 0)).2 : ℝ),
      z := topbot_veto_offset p, dir_x := 0, dir_y := 0, dir_z := 1, type := 2 }
  | Slot.bottom i =>
    { x := veto_space p * (((topbot_veto p).getD i (0, 0)).1 : ℝ),
      y := veto_space p * (((topbot_veto p).getD i (0, 0)).2 : ℝ),
      z := -topbot_veto_offset p, dir_x := 0, dir_y := 0, dir_z := -1, type := 2 }

/-! ## Efficiency correction from the two response deltas (lines 688-701, 955-975) -/

/-- Lines 691-699: `CorrBEpsiInput` is `true` unless the key
`no_b_efficiency_table_correction` is present and non-zero (`none` is an absent key). -/
def CorrBEpsiInput (nocorr : Option ℤ) : Bool :=
  if nocorr.getD 0 ≠ 0 then false else true

/-- Lines 955-969: the value `BeffiComp` computed from the two curve values, before
the clamp; nothing is computed for an unknown model string. -/
def BeffiComp (BEffiModel : String) (dx dy : ℝ) : Option ℝ :=
  if BEffiModel = "multiplicative" then some (dx * dy)
  else if BEffiModel = "additive" then some (dx + dy - 1)
  else none

/-! ## Placement of the units of one array (lines 53-89, 547-589, 839-887, 979-982) -/

/-- The sum of two vectors. -/
def Vec3.add (a b : Vec3) : Vec3 := { x := a.x + b.x, y := a.y + b.y, z := a.z + b.z }

/-- The opposite vector. -/
def Vec3.neg (a : Vec3) : Vec3 := { x := -a.x, y := -a.y, z := -a.z }

/-- The vector scaled by `k` (`operator*=`). -/
def Vec3.smul (a : Vec3) (k : ℝ) : Vec3 := { x := a.x * k, y := a.y * k, z := a.z * k }

/-- The CLHEP method `Hep3Vector::unit()`: the vector times `1 / sqrt(mag2())` when
`mag2() > 0`, the vector itself otherwise. -/
noncomputable def Vec3.unit (a : Vec3) : Vec3 :=
  if a.mag2 > 0 then a.smul (1 / Real.sqrt a.mag2) else a

/-- The CLHEP method `Hep3Vector::setMag(ma)`: a vector of length 0 is left as it is
(with a message), any other vector is scaled by `ma / mag()`. -/
noncomputable def Vec3.setMag (a : Vec3) (ma : ℝ) : Vec3 :=
  if a.mag = 0 then a else a.smul (ma / a.mag)

/-- The keys of the GEO table of one array that the placement reads; `none` is an
absent key (`DBNotFoundError`). -/
structure GeoTable where
  start_idx : Option ℤ
  end_idx : Option ℤ
  flip : Option ℤ
  orientation : Option String
  orient_point : Option (List ℝ)
  rescale_radius : Option ℝ
  use_parent_coordinates : Option ℤ

/-- The position table handed to the placement: `pmt_x, pmt_y, pmt_z`, the direction
arrays of the position table and the type array (after its default). -/
structure PosArrays where
  pmt_x : List ℝ
  pmt_y : List ℝ
  pmt_z : List ℝ
  dir_x : List ℝ
  dir_y : List ℝ
  dir_z : List ℝ
  pmt_type : List ℤ

/-- The local variables of `ConstructPMTs` that steer the placement loop. -/
structure PlaceOptions where
  start_idx : ℤ
  end_idx : ℤ
  flip : ℤ
  orient_manual : Bool
  orient_point : Vec3
  rescale_radius : Bool
  new_radius : ℝ
  parent_coord : Bool

/-- Lines 548-559: `orient_manual`; absent key: `false`; a string other than
`manual` and `point` ends the run (`Log::Die`), here `none`. -/
def readOrientation (orientation : Option String) : Option Bool :=
  match orientation with
  | none => some false
  | some s => if s = "manual" then some true else if s = "point" then some false else none

/-- Lines 566-581: in point mode `orient_point` must be present with exactly three
values (otherwise the run ends, here `none`); in manual mode it is not read and the
vector keeps its default `(0, 0, 0)`. -/
def readOrientPoint (orient_manual : Bool) (orient_point : Option (List ℝ)) : Option Vec3 :=
  if orient_manual = true then some ⟨0, 0, 0⟩
  else
    match orient_point with
    | some [a, b, c] => some ⟨a, b, c⟩
    | _ => none

/-- Lines 53-65, 84-89, 547-589, 839-843: the options read from the table; `npos` is
`pmt_x.size()`. -/
def readOptions (table : GeoTable) (npos : ℕ) : Option PlaceOptions :=
  match readOrientation table.orientation with
  | none => none
  | some orient_manual =>
    match readOrientPoint orient_manual table.orient_point with
    | none => none
    | some orient_point =>
      some
        { start_idx := table.start_idx.getD 0,
          end_idx := table.end_idx.getD ((npos : ℤ) - 1),
          flip := table.flip.getD 0,
          orient_manual := orient_manual,
          orient_point := orient_point,
          rescale_radius := table.rescale_radius.isSome,
          new_radius := table.rescale_radius.getD 1,
          parent_coord := decide (table.use_parent_coordinates.getD 0 ≠ 0) }

/-- Lines 867-871: the global position of a unit stored at `p`; `offset` is the
accumulated frame translation of the parent chain (lines 847-854). -/
noncomputable def placePos (o : PlaceOptions) (offset p : Vec3) : Vec3 :=
  let pmtpos := if o.parent_coord = false then p.add offset else p
  if o.rescale_radius = true then pmtpos.setMag o.new_radius else pmtpos

/-- Lines 874-881: the direction of a unit at global position `pmtpos` whose stored
direction is `d`. -/
noncomputable def placeDir (o : PlaceOptions) (pmtpos d : Vec3) : Vec3 :=
  let pmtdir := if o.orient_manual = true then d else o.orient_point.sub pmtpos
  if o.flip = 1 then pmtdir.unit.neg else pmtdir.unit

/-- The C function `atan2(y, x)`: the angle in `(-pi, pi]` of the point `(x, y)`,
`0` at the origin. -/
noncomputable def atan2 (y x : ℝ) : ℝ := Complex.arg ⟨x, y⟩

/-- Line 980. -/
noncomputable def angle_y (pmtdir : Vec3) : ℝ := (-1) * atan2 pmtdir.x pmtdir.z

/-- Lines 981-982. -/
noncomputable def angle_x (pmtdir : Vec3) : ℝ :=
  atan2 pmtdir.y (Real.sqrt (pmtdir.x * pmtdir.x + pmtdir.z * pmtdir.z))

/-- One entry of the static `pmtinfo`, as stored by `AddPMT` (lines 885-887). -/
structure PMTRecord where
  pos : Vec3
  dir : Vec3
  type : ℤ

/-- One placed physical volume (lines 992-993): copy number `id`, built from entry
`idx` of the position arrays. -/
structure Placed where
  id : ℤ
  idx : ℤ
  pos : Vec3
  dir : Vec3
  angle_y : ℝ
  angle_x : ℝ

/-- The state the placement loop acts on: the static `pmtinfo` (its length is
`GetPMTCount()`) and the volumes placed so far. -/
structure PlaceState where
  pmtinfo : List PMTRecord
  placed : List Placed

/-- Lines 859-993, pass number `k` of the loop: `idx = start_idx + k` and
`id = id0 + k`, where `id0` is `pmtinfo.GetPMTCount()` read when the loop starts. -/
noncomputable def placeBody (o : PlaceOptions) (offset : Vec3) (a : PosArrays) (id0 : ℤ) (k : ℕ)
    (st : PlaceState) : PlaceState :=
  let idx := o.start_idx + (k : ℤ)
  let id := id0 + (k : ℤ)
  let pmtpos := placePos o offset
    ⟨a.pmt_x.getD idx.toNat 0, a.pmt_y.getD idx.toNat 0, a.pmt_z.getD idx.toNat 0⟩
  let pmtdir := placeDir o pmtpos
    ⟨a.dir_x.getD idx.toNat 0, a.dir_y.getD idx.toNat 0, a.dir_z.getD idx.toNat 0⟩
  { pmtinfo := st.pmtinfo ++ [⟨pmtpos, pmtdir, a.pmt_type.getD idx.toNat 0⟩],
    placed := st.placed ++ [⟨id, idx, pmtpos, pmtdir, angle_y pmtdir, angle_x pmtdir⟩] }

/-- The volume placed by pass number `k` of the loop: the one `placeBody` appends. -/
noncomputable def placedUnit (o : PlaceOptions) (offset : Vec3) (a : PosArrays) (id0 : ℤ)
    (k : ℕ) : Placed :=
  (placeBody o offset a id0 k ⟨[], []⟩).placed.getD 0 ⟨0, 0, ⟨0, 0, 0⟩, ⟨0, 0, 0⟩, 0, 0⟩

/-- Lines 859-860: `for (int idx = start_idx, id = pmtinfo.GetPMTCount();
idx <= end_idx; idx++, id++)`. -/
noncomputable def placeLoop (o : PlaceOptions) (offset : Vec3) (a : PosArrays) (st : PlaceState) :
    PlaceState :=
  loop (o.end_idx - o.start_idx + 1).toNat (placeBody o offset a (st.pmtinfo.length : ℤ)) st

/-- The placement table of the pose scenario: `orientation = manual`, `flip = 0`,
no `rescale_radius`, `use_parent_coordinates = 1`. -/
def manualTable : GeoTable :=
  { start_idx := none, end_idx := none, flip := some 0, orientation := some "manual",
    orient_point := none, rescale_radius := none, use_parent_coordinates := some 1 }

/-- The options read from `manualTable`. -/
def manualOptions : PlaceOptions :=
  { start_idx := 0, end_idx := 0, flip := 0, orient_manual := true, orient_point := ⟨0, 0, 0⟩,
    rescale_radius := false, new_radius := 1, parent_coord := true }

/-! ## Calibration sheet and curve arguments (lines 906, 941-959) -/

/-- Lines 945-954: the sheet index for one unit; `size` is `Bepsix.size()`, the number
of loaded sheets, and `chooser` the uniform draw `G4UniformRand()`. -/
noncomputable def sheetno (size : ℕ) (chooser : ℝ) : ℤ :=
  if size > 1 then
    (if chooser < 1 / 3 then 0 else if chooser < 2 / 3 then 1 else 2)
  else 0

/-- The scalar product of two vectors (`operator*`). -/
def Vec3.dot (a b : Vec3) : ℝ := a.x * b.x + a.y * b.y + a.z * b.z

/-- The vector product `a.cross(b)`. -/
def Vec3.cross (a b : Vec3) : Vec3 :=
  { x := a.y * b.z - b.y * a.z, y := a.z * b.x - b.z * a.x, z := a.x * b.y - b.x * a.y }

/-- The CLHEP method `Hep3Vector::project(v2)`: `v2 * (dot(v2) / v2.mag2())`; against
a zero reference vector (after a message) the projection on the z axis. -/
noncomputable def Vec3.project (a v2 : Vec3) : Vec3 :=
  if v2.mag2 = 0 then ⟨0, 0, a.z⟩ else v2.smul (a.dot v2 / v2.mag2)

/-- The CLHEP method `Hep3Vector::perpPart(v2)`: the vector minus its projection. -/
noncomputable def Vec3.perpPart (a v2 : Vec3) : Vec3 := a.sub (a.project v2)

/-- Lines 906, 941, 957-959: the two arguments handed to the curve lookups
`Bepsix[sheetno].GetValue` and `Bepsiy[sheetno].GetValue`, for the field `B` of the
selected sample, the placed direction `pmtdir` and the dynode axis `dynorient` as it
is before line 941 normalises it. -/
noncomputable def lookupArgs (B pmtdir dynorient : Vec3) : ℝ × ℝ :=
  ((B.perpPart pmtdir).dot dynorient.unit,
   (B.perpPart pmtdir).dot (pmtdir.cross dynorient.unit).unit)

/-! ## Bottom-cap standoff frames (ButtonDetectorFactory.cc, lines 336-434) -/

/-- The arrays `size` and `position` of one frame in the parameter store. -/
structure Frame where
  size : List ℝ
  position : List ℝ

/-- Lines 357-366 (and the same lines for frames 1 to 4): the frame written back. -/
noncomputable def adjustFrame (p : Params) (f : Frame) : Frame :=
  if f.size.getD 2 0 ≠ p.detector_size_z / 2 - (topbot_offset p + 200 + 2.5) then
    { size := f.size.set 2 ((p.detector_size_z / 2 - (topbot_offset p + 200 + 2.5)) / 2),
      position := f.position.set 2
        (-(p.detector_size_z / 2 + (topbot_offset p + 200 + 2.5)) / 2) }
  else f

/-- The five frames `Bottom_cap_standoff_frame_0` to `Bottom_cap_standoff_frame_4`. -/
structure Frames where
  frame_0 : Frame
  frame_1 : Frame
  frame_2 : Frame
  frame_3 : Frame
  frame_4 : Frame

/-- Lines 338-434: the five frames written back. -/
noncomputable def adjustFrames (p : Params) (fs : Frames) : Frames :=
  { frame_0 := adjustFrame p fs.frame_0, frame_1 := adjustFrame p fs.frame_1,
    frame_2 := adjustFrame p fs.frame_2, frame_3 := adjustFrame p fs.frame_3,
    frame_4 := adjustFrame p fs.frame_4 }

/-- Base parameters with a veto thickness above the frame clearance: the scenario
with `detector_size_z = 4000` and `veto_thickness_z = 402.5`. -/
noncomputable def frameParams : Params :=
  { scenario with detector_size_z := 4000, veto_thickness_z := 402.5 }

/-! ## Loading the ambient field file (GeoPMTFactoryBase.cc, lines 747-758) -/

/-- One data line of the field file: the six numbers `x y z bx by bz`. -/
structure FieldLine where
  x : ℝ
  y : ℝ
  z : ℝ
  bx : ℝ
  byy : ℝ
  bz : ℝ

/-- Lines 752-758, on the data lines still unread after the header; `cur` holds the
variables `xr, yr, zr, bxr, byr, bzr` and `acc` the vectors `(Bpos, Bf)` so far. While
a data line is left, the extraction reads it and stops in front of its newline with
the stream still good, and both vectors get their entry. When only the last newline
is left the stream is still good, so the body runs once more: the extraction reaches
the end of the stream and fails, the six variables keep their values, both
`push_back` run all the same, and the loop ends on the stream state. -/
def loadLoop : List FieldLine → FieldLine → List Vec3 × List Vec3 → List Vec3 × List Vec3
  | [], cur, acc => (acc.1 ++ [⟨cur.x, cur.y, cur.z⟩], acc.2 ++ [⟨cur.bx, cur.byy, cur.bz⟩])
  | l :: ls, _, acc =>
    loadLoop ls l (acc.1 ++ [⟨l.x, l.y, l.z⟩], acc.2 ++ [⟨l.bx, l.byy, l.bz⟩])

/-- Lines 747-758: the vectors `(Bpos, Bf)` loaded from a file with the given data
lines, every line ended by a newline; `init` is what the six uninitialised variables
hold before the first extraction. -/
def loadField (init : FieldLine) (lines : List FieldLine) : List Vec3 × List Vec3 :=
  loadLoop lines init ([], [])

/-- A placement table in point mode: `orientation = point`, target point
`(0, 0, 0)`, `rescale_radius = 5`, no other key. -/
def pointTable : GeoTable :=
  { start_idx := none, end_idx := none, flip := none, orientation := some "point",
    orient_point := some [0, 0, 0], rescale_radius := some 5,
    use_parent_coordinates := none }

/-- The options read from `pointTable` for a position table of one entry. -/
def pointOptions : PlaceOptions :=
  { start_idx := 0, end_idx := 0, flip := 0, orient_manual := false, orient_point := ⟨0, 0, 0⟩,
    rescale_radius := true, new_radius := 5, parent_coord := false }

/-! ## Loops over the table: frame and content lemmas -/

theorem loop_zero {σ : Type} (body : ℕ → σ → σ) (s : σ) : loop 0 body s = s := rfl

theorem loop_succ {σ : Type} (n : ℕ) (body : ℕ → σ → σ) (s : σ) :
    loop (n + 1) body s = body n (loop n body s) := by
  simp [loop, List.range_succ, List.foldl_append]

/-- A loop whose bodies only look at the row they rewrite keeps that property. -/
theorem loop_local (body : ℕ → PMTInfo → PMTInfo)
    (hlocal : ∀ i s s2 k, s.entry k = s2.entry k → (body i s).entry k = (body i s2).entry k)
    (n : ℕ) (s s2 : PMTInfo) (k : ℕ) (h : s.entry k = s2.entry k) :
    (loop n body s).entry k = (loop n body s2).entry k := by
  induction n with
  | zero => simpa [loop_zero] using h
  | succ n ih => rw [loop_succ, loop_succ]; exact hlocal n _ _ k ih

/-- Rows outside the blocks of the first `n` iterations are left as they were. -/
theorem loop_frame (blk : ℕ → ℕ → Prop) (body : ℕ → PMTInfo → PMTInfo)
    (htouch : ∀ i s k, ¬ blk i k → (body i s).entry k = s.entry k)
    (n : ℕ) (t : PMTInfo) (k : ℕ) (h : ∀ i, i < n → ¬ blk i k) :
    (loop n body t).entry k = t.entry k := by
  induction n with
  | zero => rfl
  | succ n ih =>
    rw [loop_succ, htouch n _ k (h n (Nat.lt_succ_self n))]
    exact ih (fun i hi => h i (Nat.lt_succ_of_lt hi))

/-- A row in the block of iteration `i` holds, after the loop, what iteration `i`
alone would have put there. -/
theorem loop_content (blk : ℕ → ℕ → Prop) (body : ℕ → PMTInfo → PMTInfo)
    (htouch : ∀ i s k, ¬ blk i k → (body i s).entry k = s.entry k)
    (hlocal : ∀ i s s2 k, s.entry k = s2.entry k → (body i s).entry k = (body i s2).entry k)
    (hdisj : ∀ i j k, blk i k → blk j k → i = j)
    (n : ℕ) (t : PMTInfo) (i k : ℕ) (hi : i < n) (hk : blk i k) :
    (loop n body t).entry k = (body i t).entry k := by
  induction n with
  | zero => omega
  | succ n ih =>
    rw [loop_succ]
    by_cases hin : i = n
    · subst hin
      apply hlocal
      apply loop_frame blk body htouch
      intro j hj hjk
      have := hdisj _ _ _ hjk hk
      omega
    · have hne : ¬ blk n k := fun hnk => hin (hdisj _ _ _ hk hnk)
      rw [htouch n _ k hne]
      exact ih (by omega)

/-! ### The four loop bodies -/

theorem innerSideBody_touch (p : Params) (col row : ℕ) (s : PMTInfo) (k : ℕ)
    (hk : k ≠ row + col * rows p) : (innerSideBody p col row s).entry k = s.entry k := by
  simp [innerSideBody, PMTInfo.entry, PMTInfo.setX, PMTInfo.setY, PMTInfo.setZ, PMTInfo.setDirX,
    PMTInfo.setDirY, PMTInfo.setDirZ, PMTInfo.setType, Function.update_apply, hk]

theorem innerSideBody_local (p : Params) (col row : ℕ) (s s2 : PMTInfo) (k : ℕ)
    (h : s.entry k = s2.entry k) :
    (innerSideBody p col row s).entry k = (innerSideBody p col row s2).entry k := by
  simp only [PMTInfo.entry, Entry.mk.injEq] at h
  obtain ⟨h1, h2, h3, h4, h5, h6, h7⟩ := h
  simp [innerSideBody, PMTInfo.entry, PMTInfo.setX, PMTInfo.setY, PMTInfo.setZ, PMTInfo.setDirX,
    PMTInfo.setDirY, PMTInfo.setDirZ, PMTInfo.setType, Function.update_apply, h1, h2, h3, h4, h5,
    h6, h7]

theorem vetoSideBody_touch (p : Params) (col row : ℕ) (s : PMTInfo) (k : ℕ)
    (hk : k ≠ num_pmts p + row + col * veto_rows p) :
    (vetoSideBody p col row s).entry k = s.entry k := by
  simp [vetoSideBody, PMTInfo.entry, PMTInfo.setX, PMTInfo.setY, PMTInfo.setZ, PMTInfo.setDirX,
    PMTInfo.setDirY, PMTInfo.setDirZ, PMTInfo.setType, Function.update_apply, hk]

theorem vetoSideBody_local (p : Params) (col row : ℕ) (s s2 : PMTInfo) (k : ℕ)
    (h : s.entry k = s2.entry k) :
    (vetoSideBody p col row s).entry k = (vetoSideBody p col row s2).entry k := by
  simp only [PMTInfo.entry, Entry.mk.injEq] at h
  obtain ⟨h1, h2, h3, h4, h5, h6, h7⟩ := h
  simp [vetoSideBody, PMTInfo.entry, PMTInfo.setX, PMTInfo.setY, PMTInfo.setZ, PMTInfo.setDirX,
    PMTInfo.setDirY, PMTInfo.setDirZ, PMTInfo.setType, Function.update_apply, h1, h2, h3, h4, h5,
    h6, h7]

theorem innerCapBody_touch (p : Params) (i : ℕ) (s : PMTInfo) (k : ℕ)
    (hk : ¬ (k = rows p * cols p + i * 2 ∨ k = rows p * cols p + i * 2 + 1)) :
    (innerCapBody p i s).entry k = s.entry k := by
  push_neg at hk
  simp [innerCapBody, PMTInfo.entry, PMTInfo.setX, PMTInfo.setY, PMTInfo.setZ, PMTInfo.setDirX,
    PMTInfo.setDirY, PMTInfo.setDirZ, PMTInfo.setType, Function.update_apply, hk.1, hk.2]

theorem innerCapBody_local (p : Params) (i : ℕ) (s s2 : PMTInfo) (k : ℕ)
    (h : s.entry k = s2.entry k) :
    (innerCapBody p i s).entry k = (innerCapBody p i s2).entry k := by
  simp only [PMTInfo.entry, Entry.mk.injEq] at h
  obtain ⟨h1, h2, h3, h4, h5, h6, h7⟩ := h
  simp [innerCapBody, PMTInfo.entry, PMTInfo.setX, PMTInfo.setY, PMTInfo.setZ, PMTInfo.setDirX,
    PMTInfo.setDirY, PMTInfo.setDirZ, PMTInfo.setType, Function.update_apply, h1, h2, h3, h4, h5,
    h6, h7]

theorem vetoCapBody_touch (p : Params) (i : ℕ) (s : PMTInfo) (k : ℕ)
    (hk : ¬ (k = num_pmts p + veto_rows p * veto_cols p + i * 2 ∨
      k = num_pmts p + veto_rows p * veto_cols p + i * 2 + 1)) :
    (vetoCapBody p i s).entry k = s.entry k := by
  push_neg at hk
  simp [vetoCapBody, PMTInfo.entry, PMTInfo.setX, PMTInfo.setY, PMTInfo.setZ, PMTInfo.setDirX,
    PMTInfo.setDirY, PMTInfo.setDirZ, PMTInfo.setType, Function.update_apply, hk.1, hk.2]

theorem vetoCapBody_local (p : Params) (i : ℕ) (s s2 : PMTInfo) (k : ℕ)
    (h : s.entry k = s2.entry k) :
    (vetoCapBody p i s).entry k = (vetoCapBody p i s2).entry k := by
  simp only [PMTInfo.entry, Entry.mk.injEq] at h
  obtain ⟨h1, h2, h3, h4, h5, h6, h7⟩ := h
  simp [vetoCapBody, PMTInfo.entry, PMTInfo.setX, PMTInfo.setY, PMTInfo.setZ, PMTInfo.setDirX,
    PMTInfo.setDirY, PMTInfo.setDirZ, PMTInfo.setType, Function.update_apply, h1, h2, h3, h4, h5,
    h6, h7]

/-! ### Index arithmetic of the side-wall and end-cap blocks -/

theorem side_idx_inj (r : ℕ) {c c2 a a2 : ℕ} (ha : a < r) (ha2 : a2 < r)
    (h : a + c * r = a2 + c2 * r) : c = c2 ∧ a = a2 := by
  have hr : 0 < r := by omega
  have h1 : (a + c * r) / r = c := by
    rw [Nat.add_mul_div_right _ _ hr, Nat.div_eq_of_lt ha, Nat.zero_add]
  have h2 : (a2 + c2 * r) / r = c2 := by
    rw [Nat.add_mul_div_right _ _ hr, Nat.div_eq_of_lt ha2, Nat.zero_add]
  have hc : c = c2 := by rw [← h1, ← h2, h]
  subst hc
  exact ⟨rfl, by omega⟩

theorem side_idx_lt (r c : ℕ) {col row : ℕ} (hcol : col < c) (hrow : row < r) :
    row + col * r < c * r := by
  have h1 : (col + 1) * r ≤ c * r := Nat.mul_le_mul_right r hcol
  have h2 : (col + 1) * r = col * r + r := by ring
  omega

theorem side_idx_exists (r c : ℕ) {k : ℕ} (hk : k < c * r) :
    ∃ col row, col < c ∧ row < r ∧ k = row + col * r := by
  have hr : 0 < r := by
    rcases Nat.eq_zero_or_pos r with h | h
    · subst h; simp at hk
    · exact h
  refine ⟨k / r, k % r, ?_, Nat.mod_lt _ hr, ?_⟩
  · exact Nat.div_lt_of_lt_mul (by rwa [Nat.mul_comm] at hk)
  · have := Nat.mod_add_div k r
    rw [Nat.mul_comm] at this
    omega

/-- The nested side-wall loops, for any body that rewrites only row
`b + row + col * r`. -/
theorem sideLoop_frame (b r c : ℕ) (body : ℕ → ℕ → PMTInfo → PMTInfo)
    (htouch : ∀ col row s k, k ≠ b + row + col * r → (body col row s).entry k = s.entry k)
    (t : PMTInfo) (k : ℕ) (hk : k < b ∨ b + c * r ≤ k) :
    (loop c (fun col t => loop r (fun row t => body col row t) t) t).entry k = t.entry k := by
  apply loop_frame (fun col k => ∃ row, row < r ∧ k = b + row + col * r)
  · intro col s k hn
    apply loop_frame (fun row k => k = b + row + col * r)
    · intro row s k hne
      exact htouch col row s k hne
    · intro row hrow heq
      exact hn ⟨row, hrow, heq⟩
  · rintro col hcol ⟨row, hrow, heq⟩
    have := side_idx_lt r c hcol hrow
    omega

theorem sideLoop_entry (b r c : ℕ) (body : ℕ → ℕ → PMTInfo → PMTInfo)
    (htouch : ∀ col row s k, k ≠ b + row + col * r → (body col row s).entry k = s.entry k)
    (hlocal : ∀ col row s s2 k, s.entry k = s2.entry k →
      (body col row s).entry k = (body col row s2).entry k)
    (t : PMTInfo) (col row : ℕ) (hcol : col < c) (hrow : row < r) :
    (loop c (fun col t => loop r (fun row t => body col row t) t) t).entry (b + row + col * r) =
      (body col row t).entry (b + row + col * r) := by
  rw [loop_content (fun col k => ∃ row, row < r ∧ k = b + row + col * r)
    (fun col t => loop r (fun row t => body col row t) t) ?_ ?_ ?_ c t col _ hcol ⟨row, hrow, rfl⟩]
  · apply loop_content (fun row k => k = b + row + col * r) (fun row t => body col row t)
    · intro row s k hne
      exact htouch col row s k hne
    · intro row s s2 k h
      exact hlocal col row s s2 k h
    · intro i j k hi hj
      omega
    · exact hrow
    · rfl
  · intro col s k hn
    apply loop_frame (fun row k => k = b + row + col * r)
    · intro row s k hne
      exact htouch col row s k hne
    · intro row hrow heq
      exact hn ⟨row, hrow, heq⟩
  · intro col s s2 k h
    exact loop_local _ (fun row s s2 k h => hlocal col row s s2 k h) r s s2 k h
  · rintro i j k ⟨a, ha, hka⟩ ⟨a2, ha2, hka2⟩
    exact (side_idx_inj r ha ha2 (by omega)).1

/-- The end-cap loop, for any body that rewrites only rows `b + i * 2` and
`b + i * 2 + 1`. -/
theorem capLoop_frame (b n : ℕ) (body : ℕ → PMTInfo → PMTInfo)
    (htouch : ∀ i s k, ¬ (k = b + i * 2 ∨ k = b + i * 2 + 1) → (body i s).entry k = s.entry k)
    (t : PMTInfo) (k : ℕ) (hk : k < b ∨ b + 2 * n ≤ k) :
    (loop n body t).entry k = t.entry k := by
  apply loop_frame (fun i k => k = b + i * 2 ∨ k = b + i * 2 + 1) body htouch
  intro i hi h
  omega

theorem capLoop_entry (b n : ℕ) (body : ℕ → PMTInfo → PMTInfo)
    (htouch : ∀ i s k, ¬ (k = b + i * 2 ∨ k = b + i * 2 + 1) → (body i s).entry k = s.entry k)
    (hlocal : ∀ i s s2 k, s.entry k = s2.entry k → (body i s).entry k = (body i s2).entry k)
    (t : PMTInfo) (i k : ℕ) (hi : i < n) (hk : k = b + i * 2 ∨ k = b + i * 2 + 1) :
    (loop n body t).entry k = (body i t).entry k := by
  apply loop_content (fun i k => k = b + i * 2 ∨ k = b + i * 2 + 1) body htouch hlocal ?_ n t i k
    hi hk
  intro i j k h1 h2
  omega

/-! ### Rows of the finished table -/

theorem innerSideLoop_frame (p : Params) (t : PMTInfo) (k : ℕ) (hk : cols p * rows p ≤ k) :
    (innerSideLoop p t).entry k = t.entry k := by
  have h := sideLoop_frame 0 (rows p) (cols p) (innerSideBody p)
    (fun col row s k hne => innerSideBody_touch p col row s k (by omega)) t k (by omega)
  exact h

theorem innerSideLoop_entry (p : Params) (t : PMTInfo) (col row : ℕ) (hcol : col < cols p)
    (hrow : row < rows p) :
    (innerSideLoop p t).entry (row + col * rows p) =
      (innerSideBody p col row t).entry (row + col * rows p) := by
  have h := sideLoop_entry 0 (rows p) (cols p) (innerSideBody p)
    (fun col row s k hne => innerSideBody_touch p col row s k (by omega))
    (fun col row s s2 k h => innerSideBody_local p col row s s2 k h) t col row hcol hrow
  rw [Nat.zero_add] at h
  exact h

theorem innerCapLoop_frame (p : Params) (t : PMTInfo) (k : ℕ)
    (hk : k < rows p * cols p ∨ num_pmts p ≤ k) : (innerCapLoop p t).entry k = t.entry k := by
  apply capLoop_frame (rows p * cols p) (topbot p).length (innerCapBody p)
    (fun i s k h => innerCapBody_touch p i s k h) t k
  have : num_pmts p = rows p * cols p + 2 * (topbot p).length := by
    rw [num_pmts, Nat.mul_comm]
  omega

theorem innerCapLoop_entry (p : Params) (t : PMTInfo) (i k : ℕ) (hi : i < (topbot p).length)
    (hk : k = rows p * cols p + i * 2 ∨ k = rows p * cols p + i * 2 + 1) :
    (innerCapLoop p t).entry k = (innerCapBody p i t).entry k :=
  capLoop_entry (rows p * cols p) (topbot p).length (innerCapBody p)
    (fun i s k h => innerCapBody_touch p i s k h)
    (fun i s s2 k h => innerCapBody_local p i s s2 k h) t i k hi hk

theorem vetoSideLoop_frame (p : Params) (t : PMTInfo) (k : ℕ)
    (hk : k < num_pmts p ∨ num_pmts p + veto_cols p * veto_rows p ≤ k) :
    (vetoSideLoop p t).entry k = t.entry k :=
  sideLoop_frame (num_pmts p) (veto_rows p) (veto_cols p) (vetoSideBody p)
    (fun col row s k hne => vetoSideBody_touch p col row s k hne) t k hk

theorem vetoSideLoop_entry (p : Params) (t : PMTInfo) (col row : ℕ) (hcol : col < veto_cols p)
    (hrow : row < veto_rows p) :
    (vetoSideLoop p t).entry (num_pmts p + row + col * veto_rows p) =
      (vetoSideBody p col row t).entry (num_pmts p + row + col * veto_rows p) :=
  sideLoop_entry (num_pmts p) (veto_rows p) (veto_cols p) (vetoSideBody p)
    (fun col row s k hne => vetoSideBody_touch p col row s k hne)
    (fun col row s s2 k h => vetoSideBody_local p col row s s2 k h) t col row hcol hrow

theorem vetoCapLoop_frame (p : Params) (t : PMTInfo) (k : ℕ)
    (hk : k < num_pmts p + veto_rows p * veto_cols p ∨ total_pmts p ≤ k) :
    (vetoCapLoop p t).entry k = t.entry k := by
  apply capLoop_frame (num_pmts p + veto_rows p * veto_cols p) (topbot_veto p).length
    (vetoCapBody p) (fun i s k h => vetoCapBody_touch p i s k h) t k
  have : total_pmts p =
      num_pmts p + veto_rows p * veto_cols p + 2 * (topbot_veto p).length := by
    rw [total_pmts, num_vetos, Nat.mul_comm (veto_cols p)]; ring
  omega

theorem vetoCapLoop_entry (p : Params) (t : PMTInfo) (i k : ℕ)
    (hi : i < (topbot_veto p).length)
    (hk : k = num_pmts p + veto_rows p * veto_cols p + i * 2 ∨
      k = num_pmts p + veto_rows p * veto_cols p + i * 2 + 1) :
    (vetoCapLoop p t).entry k = (vetoCapBody p i t).entry k :=
  capLoop_entry (num_pmts p + veto_rows p * veto_cols p) (topbot_veto p).length (vetoCapBody p)
    (fun i s k h => vetoCapBody_touch p i s k h)
    (fun i s s2 k h => vetoCapBody_local p i s s2 k h) t i k hi hk

/-- The row of an inner side-wall unit in the finished table. -/
theorem table_innerSide (p : Params) (col row : ℕ) (hcol : col < cols p) (hrow : row < rows p) :
    (pmtinfoTable p).entry (row + col * rows p) =
      (innerSideBody p col row PMTInfo.alloc).entry (row + col * rows p) := by
  have hlt := side_idx_lt (rows p) (cols p) hcol hrow
  have hn : num_pmts p = cols p * rows p + 2 * (topbot p).length := rfl
  have hc : rows p * cols p = cols p * rows p := Nat.mul_comm _ _
  rw [pmtinfoTable, vetoCapLoop_frame p _ _ (by omega), vetoSideLoop_frame p _ _ (by omega),
    innerCapLoop_frame p _ _ (by omega), innerSideLoop_entry p _ col row hcol hrow]

/-- The rows of an inner end-cap pair in the finished table. -/
theorem table_innerCap (p : Params) (i k : ℕ) (hi : i < (topbot p).length)
    (hk : k = rows p * cols p + i * 2 ∨ k = rows p * cols p + i * 2 + 1) :
    (pmtinfoTable p).entry k = (innerCapBody p i PMTInfo.alloc).entry k := by
  have hn : num_pmts p = cols p * rows p + 2 * (topbot p).length := rfl
  have hc : rows p * cols p = cols p * rows p := Nat.mul_comm _ _
  rw [pmtinfoTable, vetoCapLoop_frame p _ _ (by omega), vetoSideLoop_frame p _ _ (by omega),
    innerCapLoop_entry p _ i k hi hk]
  apply innerCapBody_local
  exact innerSideLoop_frame p _ _ (by omega)

/-- The row of a veto side-wall unit in the finished table. -/
theorem table_vetoSide (p : Params) (col row : ℕ) (hcol : col < veto_cols p)
    (hrow : row < veto_rows p) :
    (pmtinfoTable p).entry (num_pmts p + row + col * veto_rows p) =
      (vetoSideBody p col row PMTInfo.alloc).entry (num_pmts p + row + col * veto_rows p) := by
  have hlt := side_idx_lt (veto_rows p) (veto_cols p) hcol hrow
  have hn : num_pmts p = cols p * rows p + 2 * (topbot p).length := rfl
  have hc : veto_rows p * veto_cols p = veto_cols p * veto_rows p := Nat.mul_comm _ _
  rw [pmtinfoTable, vetoCapLoop_frame p _ _ (by omega), vetoSideLoop_entry p _ col row hcol hrow]
  apply vetoSideBody_local
  rw [innerCapLoop_frame p _ _ (by omega)]
  exact innerSideLoop_frame p _ _ (by omega)

/-- The rows of a veto end-cap pair in the finished table. -/
theorem table_vetoCap (p : Params) (i k : ℕ) (hi : i < (topbot_veto p).length)
    (hk : k = num_pmts p + veto_rows p * veto_cols p + i * 2 ∨
      k = num_pmts p + veto_rows p * veto_cols p + i * 2 + 1) :
    (pmtinfoTable p).entry k = (vetoCapBody p i PMTInfo.alloc).entry k := by
  have hn : num_pmts p = cols p * rows p + 2 * (topbot p).length := rfl
  have hc : veto_rows p * veto_cols p = veto_cols p * veto_rows p := Nat.mul_comm _ _
  rw [pmtinfoTable, vetoCapLoop_entry p _ i k hi hk]
  apply vetoCapBody_local
  rw [vetoSideLoop_frame p _ _ (by omega), innerCapLoop_frame p _ _ (by omega)]
  exact innerSideLoop_frame p _ _ (by omega)

/-! ### The rows, written out -/

theorem innerSide_row (p : Params) (col row : ℕ) (hcol : col < cols p) (hrow : row < rows p) :
    (pmtinfoTable p).entry (row + col * rows p) =
      { x := pmt_radius p * Real.cos (2 * Real.pi * ((col : ℝ) + 0.5) / (cols p : ℝ)),
        y := pmt_radius p * Real.sin (2 * Real.pi * ((col : ℝ) + 0.5) / (cols p : ℝ)),
        z := (row : ℝ) * 2 * topbot_offset p / (rows p : ℝ) + pmt_space p / 2 - topbot_offset p,
        dir_x := -Real.cos (2 * Real.pi * ((col : ℝ) + 0.5) / (cols p : ℝ)),
        dir_y := -Real.sin (2 * Real.pi * ((col : ℝ) + 0.5) / (cols p : ℝ)),
        dir_z := 0, type := 1 } := by
  rw [table_innerSide p col row hcol hrow]
  simp [innerSideBody, PMTInfo.entry, PMTInfo.setX, PMTInfo.setY, PMTInfo.setZ, PMTInfo.setDirX,
    PMTInfo.setDirY, PMTInfo.setDirZ, PMTInfo.setType]

theorem vetoSide_row (p : Params) (col row : ℕ) (hcol : col < veto_cols p)
    (hrow : row < veto_rows p) :
    (pmtinfoTable p).entry (num_pmts p + row + col * veto_rows p) =
      { x := veto_radius p * Real.cos (2 * Real.pi * (col : ℝ) / (veto_cols p : ℝ)),
        y := veto_radius p * Real.sin (2 * Real.pi * (col : ℝ) / (veto_cols p : ℝ)),
        z := (row : ℝ) * 2 * topbot_offset p / (veto_rows p : ℝ) + veto_space p / 2 -
          topbot_offset p,
        dir_x := Real.cos (2 * Real.pi * (col : ℝ) / (veto_cols p : ℝ)),
        dir_y := Real.sin (2 * Real.pi * (col : ℝ) / (veto_cols p : ℝ)),
        dir_z := 0, type := 2 } := by
  rw [table_vetoSide p col row hcol hrow]
  simp [vetoSideBody, PMTInfo.entry, PMTInfo.setX, PMTInfo.setY, PMTInfo.setZ, PMTInfo.setDirX,
    PMTInfo.setDirY, PMTInfo.setDirZ, PMTInfo.setType]

theorem innerCap_top_row (p : Params) (i : ℕ) (hi : i < (topbot p).length) :
    (pmtinfoTable p).entry (rows p * cols p + i * 2) =
      { x := pmt_space p * (((topbot p).getD i (0, 0)).1 : ℝ),
        y := pmt_space p * (((topbot p).getD i (0, 0)).2 : ℝ),
        z := topbot_offset p, dir_x := 0, dir_y := 0, dir_z := -1, type := 1 } := by
  rw [table_innerCap p i _ hi (Or.inl rfl)]
  simp [innerCapBody, PMTInfo.entry, PMTInfo.setX, PMTInfo.setY, PMTInfo.setZ, PMTInfo.setDirX,
    PMTInfo.setDirY, PMTInfo.setDirZ, PMTInfo.setType, Function.update_apply]

theorem innerCap_bottom_row (p : Params) (i : ℕ) (hi : i < (topbot p).length) :
    (pmtinfoTable p).entry (rows p * cols p + i * 2 + 1) =
      { x := pmt_space p * (((topbot p).getD i (0, 0)).1 : ℝ),
        y := pmt_space p * (((topbot p).getD i (0, 0)).2 : ℝ),
        z := -topbot_offset p, dir_x := 0, dir_y := 0, dir_z := 1, type := 1 } := by
  rw [table_innerCap p i _ hi (Or.inr rfl)]
  simp [innerCapBody, PMTInfo.entry, PMTInfo.setX, PMTInfo.setY, PMTInfo.setZ, PMTInfo.setDirX,
    PMTInfo.setDirY, PMTInfo.setDirZ, PMTInfo.setType, Function.update_apply, PMTInfo.alloc]

theorem vetoCap_top_row (p : Params) (i : ℕ) (hi : i < (topbot_veto p).length) :
    (pmtinfoTable p).entry (num_pmts p + veto_rows p * veto_cols p + i * 2) =
      { x := veto_space p * (((topbot_veto p).getD i (0, 0)).1 : ℝ),
        y := veto_space p * (((topbot_veto p).getD i (0, 0)).2 : ℝ),
        z := topbot_veto_offset p, dir_x := 0, dir_y := 0, dir_z := 1, type := 2 } := by
  rw [table_vetoCap p i _ hi (Or.inl rfl)]
  simp [vetoCapBody, PMTInfo.entry, PMTInfo.setX, PMTInfo.setY, PMTInfo.setZ, PMTInfo.setDirX,
    PMTInfo.setDirY, PMTInfo.setDirZ, PMTInfo.setType, Function.update_apply]

theorem vetoCap_bottom_row (p : Params) (i : ℕ) (hi : i < (topbot_veto p).length) :
    (pmtinfoTable p).entry (num_pmts p + veto_rows p * veto_cols p + i * 2 + 1) =
      { x := veto_space p * (((topbot_veto p).getD i (0, 0)).1 : ℝ),
        y := veto_space p * (((topbot_veto p).getD i (0, 0)).2 : ℝ),
        z := -topbot_veto_offset p, dir_x := 0, dir_y := 0, dir_z := -1, type := 2 } := by
  rw [table_vetoCap p i _ hi (Or.inr rfl)]
  simp [vetoCapBody, PMTInfo.entry, PMTInfo.setX, PMTInfo.setY, PMTInfo.setZ, PMTInfo.setDirX,
    PMTInfo.setDirY, PMTInfo.setDirZ, PMTInfo.setType, Function.update_apply, PMTInfo.alloc]

/-! ### The lattice scan as a filter -/

theorem mem_scanRange (r i : ℤ) : i ∈ scanRange r ↔ -r ≤ i ∧ i ≤ r := by
  unfold scanRange
  rw [List.mem_map]
  constructor
  · rintro ⟨a, ha, rfl⟩
    have h := Int.lt_toNat.1 (List.mem_range.1 ha)
    omega
  · rintro ⟨h1, h2⟩
    refine ⟨(i + r).toNat, List.mem_range.2 (Int.lt_toNat.2 ?_), ?_⟩
    · rw [Int.toNat_of_nonneg (by omega)]
      omega
    · rw [Int.toNat_of_nonneg (by omega)]
      omega

theorem mem_lattice (r : ℤ) (ij : ℤ × ℤ) :
    ij ∈ lattice r ↔ (-r ≤ ij.1 ∧ ij.1 ≤ r) ∧ (-r ≤ ij.2 ∧ ij.2 ≤ r) := by
  obtain ⟨i, j⟩ := ij
  simp only [lattice, List.mem_flatMap, List.mem_map, Prod.mk.injEq]
  constructor
  · rintro ⟨a, ha, b, hb, rfl, rfl⟩
    exact ⟨(mem_scanRange r a).1 ha, (mem_scanRange r b).1 hb⟩
  · rintro ⟨h1, h2⟩
    exact ⟨i, (mem_scanRange r i).2 h1, j, (mem_scanRange r j).2 h2, rfl, rfl⟩

theorem scan_fst (p : Params) (l : List (ℤ × ℤ)) (st : List (ℤ × ℤ) × List (ℤ × ℤ)) :
    (l.foldl (scanStep p) st).1 = st.1 ++ l.filter (fun ij => decide (topbotTest p ij)) := by
  induction l generalizing st with
  | nil => simp
  | cons a l ih =>
    rw [List.foldl_cons, ih]
    by_cases h : topbotTest p a
    · have h2 := h
      unfold topbotTest at h2
      push_cast at h2
      simp [scanStep, h, h2, List.filter_cons]
    · have h2 := h
      unfold topbotTest at h2
      push_cast at h2
      simp [scanStep, h, h2, List.filter_cons]

theorem scan_snd (p : Params) (l : List (ℤ × ℤ)) (st : List (ℤ × ℤ) × List (ℤ × ℤ)) :
    (l.foldl (scanStep p) st).2 = st.2 ++ l.filter (fun ij => decide (topbotVetoTest p ij)) := by
  induction l generalizing st with
  | nil => simp
  | cons a l ih =>
    rw [List.foldl_cons, ih]
    by_cases h : topbotVetoTest p a
    · have h2 := h
      unfold topbotVetoTest at h2
      push_cast at h2
      simp [scanStep, h, h2, List.filter_cons]
    · have h2 := h
      unfold topbotVetoTest at h2
      push_cast at h2
      simp [scanStep, h, h2, List.filter_cons]

theorem mem_topbot (p : Params) (ij : ℤ × ℤ) :
    ij ∈ topbot p ↔ ij ∈ lattice (rdim p) ∧ topbotTest p ij := by
  simp [topbot, scanLattice, scan_fst, List.mem_filter]

theorem mem_topbot_veto (p : Params) (ij : ℤ × ℤ) :
    ij ∈ topbot_veto p ↔ ij ∈ lattice (rdim p) ∧ topbotVetoTest p ij := by
  simp [topbot_veto, scanLattice, scan_snd, List.mem_filter]

/-! ### Rounding and spacing -/

theorem cround_nonneg {x : ℝ} (hx : 0 ≤ x) : 0 ≤ cround x := by
  rw [cround, if_pos hx]
  exact Int.floor_nonneg.2 (by linarith)

theorem cround_pos {x : ℝ} (hx : 1 / 2 ≤ x) : 1 ≤ cround x := by
  rw [cround, if_pos (by linarith)]
  exact Int.le_floor.2 (by push_cast; linarith)

theorem cround_toNat_pos {x : ℝ} (hx : 1 / 2 ≤ x) : 1 ≤ (cround x).toNat := by
  have h := cround_pos hx
  omega

theorem cround_pos_arg {x : ℝ} (h : 0 < cround x) : 0 < x := by
  by_contra hx
  have hx2 : x ≤ 0 := not_lt.1 hx
  unfold cround at h
  split_ifs at h with h0
  · have hz : x = 0 := le_antisymm hx2 h0
    subst hz
    norm_num at h
  · have : ⌈x - 1 / 2⌉ ≤ 0 := Int.ceil_le.2 (by push_cast; linarith)
    omega

theorem pmt_space_nonneg (p : Params) : 0 ≤ pmt_space p := Real.sqrt_nonneg _

theorem veto_space_nonneg (p : Params) : 0 ≤ veto_space p := Real.sqrt_nonneg _


/-! ### Rounding to a double -/

theorem fl_zero : fl 0 = 0 := by simp [fl]

/-- The binary exponent of a positive number between `2^e` and `2^(e+1)`. -/
theorem log_two_eq {x : ℝ} (hx : 0 < x) (e : ℤ) (h1 : (2 : ℝ) ^ e ≤ x)
    (h2 : x < 2 ^ (e + 1)) : Int.log 2 x = e := by
  have a : e ≤ Int.log 2 x :=
    (Int.zpow_le_iff_le_log (by norm_num) hx).1 (by exact_mod_cast h1)
  have b : Int.log 2 x < e + 1 :=
    (Int.lt_zpow_iff_log_lt (by norm_num) hx).1 (by exact_mod_cast h2)
  omega

theorem roundHalfEven_eq {m : ℝ} (r : ℤ) (h3 : (r : ℝ) - 1 / 2 < m)
    (h4 : m < (r : ℝ) + 1 / 2) : roundHalfEven m = r := by
  unfold roundHalfEven
  by_cases hm : (r : ℝ) ≤ m
  · have hf : ⌊m⌋ = r := by
      rw [Int.floor_eq_iff]
      constructor <;> linarith
    rw [hf, if_pos (by linarith)]
  · have hf : ⌊m⌋ = r - 1 := by
      rw [Int.floor_eq_iff]
      push_cast
      constructor <;> linarith
    rw [hf]
    push_cast
    rw [if_neg (by linarith), if_pos (by linarith)]
    ring

theorem roundHalfEven_tie {m : ℝ} (f : ℤ) (hm : m = (f : ℝ) + 1 / 2) :
    roundHalfEven m = if f % 2 = 0 then f else f + 1 := by
  have hf : ⌊m⌋ = f := by
    rw [Int.floor_eq_iff]
    constructor <;> linarith
  unfold roundHalfEven
  rw [hf, if_neg (by linarith), if_neg (by linarith)]

/-- The rounding of a positive number, from its binary exponent `e` and the integer
`r` nearest to its significand. -/
theorem fl_val {x y : ℝ} (hx : 0 < x) (e r : ℤ) (h1 : (2 : ℝ) ^ e ≤ x)
    (h2 : x < 2 ^ (e + 1)) (h3 : (r : ℝ) - 1 / 2 < x / 2 ^ (e - 52))
    (h4 : x / 2 ^ (e - 52) < (r : ℝ) + 1 / 2) (hy : (r : ℝ) * 2 ^ (e - 52) = y) :
    fl x = y := by
  have ha : |x| = x := abs_of_pos hx
  unfold fl ulp
  rw [if_neg (ne_of_gt hx), if_neg (not_lt.2 (le_of_lt hx)), ha, log_two_eq hx e h1 h2,
    roundHalfEven_eq r h3 h4, ← hy]
  ring

/-- The rounding of a positive number half way between two doubles. -/
theorem fl_val_tie {x y : ℝ} (hx : 0 < x) (e f r : ℤ) (h1 : (2 : ℝ) ^ e ≤ x)
    (h2 : x < 2 ^ (e + 1)) (hm : x / 2 ^ (e - 52) = (f : ℝ) + 1 / 2)
    (hr : (if f % 2 = 0 then f else f + 1) = r) (hy : (r : ℝ) * 2 ^ (e - 52) = y) :
    fl x = y := by
  have ha : |x| = x := abs_of_pos hx
  unfold fl ulp
  rw [if_neg (ne_of_gt hx), if_neg (not_lt.2 (le_of_lt hx)), ha, log_two_eq hx e h1 h2,
    roundHalfEven_tie f hm, hr, ← hy]
  ring

theorem fl_neg (x : ℝ) : fl (-x) = -fl x := by
  by_cases h0 : x = 0
  · subst h0
    simp [fl_zero]
  · have h0n : ¬ -x = 0 := by simpa using h0
    have hu : ulp (-x) = ulp x := by
      unfold ulp
      rw [abs_neg]
    unfold fl
    rw [if_neg h0n, if_neg h0, abs_neg, hu]
    rcases lt_or_gt_of_ne h0 with h | h
    · have h1 : ¬ -x < 0 := by linarith
      simp only [h, h1, if_true, if_false]
      ring
    · have h1 : -x < 0 := by linarith
      have h2 : ¬ x < 0 := by linarith
      simp only [h1, h2, if_true, if_false]
      ring

/-- The rounding of a negative number. -/
theorem fl_val_neg {x y : ℝ} (hx : x < 0) (e r : ℤ) (h1 : (2 : ℝ) ^ e ≤ -x)
    (h2 : -x < 2 ^ (e + 1)) (h3 : (r : ℝ) - 1 / 2 < -x / 2 ^ (e - 52))
    (h4 : -x / 2 ^ (e - 52) < (r : ℝ) + 1 / 2) (hy : -((r : ℝ) * 2 ^ (e - 52)) = y) :
    fl x = y := by
  have h := fl_val (neg_pos.2 hx) e r h1 h2 h3 h4 rfl
  have e2 : fl x = -fl (-x) := by
    rw [fl_neg, neg_neg]
  rw [e2, h, hy]

theorem roundHalfEven_pos {m : ℝ} (hm : 1 ≤ m) : 0 < roundHalfEven m := by
  have hf : 1 ≤ ⌊m⌋ := Int.le_floor.2 (by exact_mod_cast hm)
  unfold roundHalfEven
  split_ifs <;> omega

/-- Rounding keeps the sign. -/
theorem fl_pos {x : ℝ} (hx : 0 < x) : 0 < fl x := by
  have ha : |x| = x := abs_of_pos hx
  have hl := Int.zpow_log_le_self (by norm_num : 1 < 2) hx
  have hp : (0 : ℝ) < ulp x := by
    unfold ulp
    positivity
  have hm : 1 ≤ |x| / ulp x := by
    rw [ha, le_div_iff₀ hp, one_mul]
    unfold ulp
    rw [ha]
    have h2 : (2 : ℝ) ^ (Int.log 2 x - 52) ≤ 2 ^ (Int.log 2 x) :=
      zpow_le_zpow_right₀ (by norm_num) (by omega)
    have h3 : (2 : ℝ) ^ (Int.log 2 x) ≤ x := by exact_mod_cast hl
    linarith
  have hr : (0 : ℝ) < (roundHalfEven (|x| / ulp x) : ℝ) := by
    exact_mod_cast roundHalfEven_pos hm
  unfold fl
  rw [if_neg (ne_of_gt hx), if_neg (not_lt.2 (le_of_lt hx))]
  positivity

theorem fl_neg_of_neg {x : ℝ} (hx : x < 0) : fl x < 0 := by
  have := fl_pos (neg_pos.2 hx)
  rw [fl_neg] at this
  linarith

theorem fl_ne_zero {x : ℝ} (hx : x ≠ 0) : fl x ≠ 0 := by
  rcases lt_or_gt_of_ne hx with h | h
  · exact ne_of_lt (fl_neg_of_neg h)
  · exact ne_of_gt (fl_pos h)

theorem fl_nonneg {x : ℝ} (hx : 0 ≤ x) : 0 ≤ fl x := by
  rcases eq_or_lt_of_le hx with h | h
  · rw [← h, fl_zero]
  · exact le_of_lt (fl_pos h)

theorem scenario_photocathode_radius64 : photocathode_radius64 scenario = 100 := by
  have h1 : fl 100 = 100 :=
    fl_val (by norm_num) (6) 7036874417766400 (by norm_num) (by norm_num)
      (by norm_num) (by norm_num) (by norm_num)
  simp only [photocathode_radius64, scenario, List.map_cons, List.map_nil, List.drop_succ_cons,
    List.drop_zero, List.foldl_nil, List.headD_cons, h1]

theorem scenario_photocathode_area64 :
    photocathode_area64 scenario = 2158886032723523 / 2 ^ 36 := by
  have h1 : fl (M_PI * 100) = 5526748243772219 / 2 ^ 44 :=
    fl_val (by norm_num [M_PI]) (8) 5526748243772219 (by norm_num [M_PI]) (by norm_num [M_PI])
      (by norm_num [M_PI]) (by norm_num [M_PI]) (by norm_num)
  have h2 : fl ((5526748243772219 / 2 ^ 44) * 100) = 2158886032723523 / 2 ^ 36 :=
    fl_val (by norm_num) (14) 8635544130894092 (by norm_num) (by norm_num)
      (by norm_num) (by norm_num) (by norm_num)
  simp only [photocathode_area64, scenario_photocathode_radius64, h1, h2]

theorem scenario_pmt_radius64 : pmt_radius64 scenario = 1000 := by
  have e1 : scenario.detector_size_d = 2000 := rfl
  have e2 : scenario.veto_thickness_r = 0 := rfl
  have e3 : scenario.steel_thickness = 0 := rfl
  have h1 : fl 2000 = 2000 :=
    fl_val (by norm_num) (10) 8796093022208000 (by norm_num) (by norm_num)
      (by norm_num) (by norm_num) (by norm_num)
  have h2 : fl (2000 / 2) = 1000 :=
    fl_val (by norm_num) (9) 8796093022208000 (by norm_num) (by norm_num)
      (by norm_num) (by norm_num) (by norm_num)
  have h3 : fl 0 = 0 := fl_zero
  have h4 : fl (1000 - 0) = 1000 :=
    fl_val (by norm_num) (9) 8796093022208000 (by norm_num) (by norm_num)
      (by norm_num) (by norm_num) (by norm_num)
  have h5 : fl (4 * 0) = 0 := by norm_num [fl_zero]
  simp only [pmt_radius64, e1, e2, e3, h1, h2, h3, h4, h5]

theorem scenario_topbot_offset64 : topbot_offset64 scenario = 1000 := by
  have e1 : scenario.detector_size_z = 2000 := rfl
  have e2 : scenario.veto_thickness_z = 0 := rfl
  have h1 : fl 2000 = 2000 :=
    fl_val (by norm_num) (10) 8796093022208000 (by norm_num) (by norm_num)
      (by norm_num) (by norm_num) (by norm_num)
  have h2 : fl (2000 / 2) = 1000 :=
    fl_val (by norm_num) (9) 8796093022208000 (by norm_num) (by norm_num)
      (by norm_num) (by norm_num) (by norm_num)
  have h3 : fl 0 = 0 := fl_zero
  have h4 : fl (1000 - 0) = 1000 :=
    fl_val (by norm_num) (9) 8796093022208000 (by norm_num) (by norm_num)
      (by norm_num) (by norm_num) (by norm_num)
  simp only [topbot_offset64, e1, e2, h1, h2, h3, h4]

theorem scenario_veto_radius64 : veto_radius64 scenario = 1700 := by
  have h1 : fl (1000 + 700) = 1700 :=
    fl_val (by norm_num) (10) 7476679068876800 (by norm_num) (by norm_num)
      (by norm_num) (by norm_num) (by norm_num)
  simp only [veto_radius64, veto_offset, scenario_pmt_radius64, h1]

theorem scenario_topbot_veto_offset64 : topbot_veto_offset64 scenario = 1700 := by
  have h1 : fl (1000 + 700) = 1700 :=
    fl_val (by norm_num) (10) 7476679068876800 (by norm_num) (by norm_num)
      (by norm_num) (by norm_num) (by norm_num)
  simp only [topbot_veto_offset64, veto_offset, scenario_topbot_offset64, h1]

theorem scenario_surface_area64 : surface_area64 scenario = 5059889139195757 / 2 ^ 28 := by
  have h1 : fl (2 * M_PI) = 884279719003555 / 2 ^ 47 :=
    fl_val (by norm_num [M_PI]) (2) 7074237752028440 (by norm_num [M_PI]) (by norm_num [M_PI])
      (by norm_num [M_PI]) (by norm_num [M_PI]) (by norm_num)
  have h2 : fl ((884279719003555 / 2 ^ 47) * 1000) = 6908435304715273 / 2 ^ 40 :=
    fl_val (by norm_num) (12) 6908435304715273 (by norm_num) (by norm_num)
      (by norm_num) (by norm_num) (by norm_num)
  have h3 : fl ((6908435304715273 / 2 ^ 40) * 1000) = 6746518852261009 / 2 ^ 30 :=
    fl_val (by norm_num) (22) 6746518852261009 (by norm_num) (by norm_num)
      (by norm_num) (by norm_num) (by norm_num)
  have h4 : fl (2 * 1000) = 2000 :=
    fl_val (by norm_num) (10) 8796093022208000 (by norm_num) (by norm_num)
      (by norm_num) (by norm_num) (by norm_num)
  have h5 : fl (2000 * 2) = 4000 :=
    fl_val (by norm_num) (11) 8796093022208000 (by norm_num) (by norm_num)
      (by norm_num) (by norm_num) (by norm_num)
  have h6 : fl (4000 * M_PI) = 6908435304715273 / 2 ^ 39 :=
    fl_val (by norm_num [M_PI]) (13) 6908435304715273 (by norm_num [M_PI]) (by norm_num [M_PI])
      (by norm_num [M_PI]) (by norm_num [M_PI]) (by norm_num)
  have h7 : fl ((6908435304715273 / 2 ^ 39) * 1000) = 6746518852261009 / 2 ^ 29 :=
    fl_val (by norm_num) (23) 6746518852261009 (by norm_num) (by norm_num)
      (by norm_num) (by norm_num) (by norm_num)
  have h8 : fl ((6746518852261009 / 2 ^ 30) + (6746518852261009 / 2 ^ 29)) =
      5059889139195757 / 2 ^ 28 :=
      fl_val (by norm_num) (24) 5059889139195757 (by norm_num) (by norm_num)
        (by norm_num) (by norm_num) (by norm_num)
  simp only [surface_area64, scenario_pmt_radius64, scenario_topbot_offset64, h1, h2, h3, h4, h5,
    h6, h7, h8]

theorem scenario_veto_surface_area64 :
    veto_surface_area64 scenario = 1827884951534467 / 2 ^ 25 := by
  have h1 : fl (2 * M_PI) = 884279719003555 / 2 ^ 47 :=
    fl_val (by norm_num [M_PI]) (2) 7074237752028440 (by norm_num [M_PI]) (by norm_num [M_PI])
      (by norm_num [M_PI]) (by norm_num [M_PI]) (by norm_num)
  have h2 : fl ((884279719003555 / 2 ^ 47) * 1700) = 2936085004503991 / 2 ^ 38 :=
    fl_val (by norm_num) (13) 5872170009007982 (by norm_num) (by norm_num)
      (by norm_num) (by norm_num) (by norm_num)
  have h3 : fl ((2936085004503991 / 2 ^ 38) * 1700) = 4874359870758579 / 2 ^ 28 :=
    fl_val (by norm_num) (24) 4874359870758579 (by norm_num) (by norm_num)
      (by norm_num) (by norm_num) (by norm_num)
  have h4 : fl (2 * 1700) = 3400 :=
    fl_val (by norm_num) (11) 7476679068876800 (by norm_num) (by norm_num)
      (by norm_num) (by norm_num) (by norm_num)
  have h5 : fl (3400 * 2) = 6800 :=
    fl_val (by norm_num) (12) 7476679068876800 (by norm_num) (by norm_num)
      (by norm_num) (by norm_num) (by norm_num)
  have h6 : fl (6800 * M_PI) = 2936085004503991 / 2 ^ 37 :=
    fl_val (by norm_num [M_PI]) (14) 5872170009007982 (by norm_num [M_PI]) (by norm_num [M_PI])
      (by norm_num [M_PI]) (by norm_num [M_PI]) (by norm_num)
  have h7 : fl ((2936085004503991 / 2 ^ 37) * 1700) = 4874359870758579 / 2 ^ 27 :=
    fl_val (by norm_num) (25) 4874359870758579 (by norm_num) (by norm_num)
      (by norm_num) (by norm_num) (by norm_num)
  have h8 : fl ((4874359870758579 / 2 ^ 28) + (4874359870758579 / 2 ^ 27)) =
      1827884951534467 / 2 ^ 25 :=
      fl_val_tie (by norm_num) (25) 7311539806137868 7311539806137868 (by norm_num) (by norm_num)
        (by norm_num) (by norm_num) (by norm_num)
  simp only [veto_surface_area64, scenario_veto_radius64, scenario_topbot_veto_offset64, h1, h2, h3,
    h4, h5, h6, h7, h8]

theorem scenario_quotient_pmts : quotient_pmts scenario = 8444249301319681 / 2 ^ 45 := by
  have e1 : scenario.photocathode_coverage = 0.4 := rfl
  have h1 : fl 0.4 = 3602879701896397 / 2 ^ 53 :=
    fl_val (by norm_num) (-2) 7205759403792794 (by norm_num) (by norm_num)
      (by norm_num) (by norm_num) (by norm_num)
  have h2 : fl ((3602879701896397 / 2 ^ 53) * (5059889139195757 / 2 ^ 28)) =
      2023955655678303 / 2 ^ 28 :=
      fl_val (by norm_num) (22) 8095822622713212 (by norm_num) (by norm_num)
        (by norm_num) (by norm_num) (by norm_num)
  have h3 : fl ((2023955655678303 / 2 ^ 28) / (2158886032723523 / 2 ^ 36)) =
      8444249301319681 / 2 ^ 45 :=
      fl_val (by norm_num) (7) 8444249301319681 (by norm_num) (by norm_num)
        (by norm_num) (by norm_num) (by norm_num)
  simp only [quotient_pmts, e1, scenario_surface_area64, scenario_photocathode_area64, h1, h2, h3]

theorem scenario_quotient_vetos : quotient_vetos scenario = 6100970120203469 / 2 ^ 43 := by
  have e1 : scenario.veto_coverage = 0.4 := rfl
  have h1 : fl 0.4 = 3602879701896397 / 2 ^ 53 :=
    fl_val (by norm_num) (-2) 7205759403792794 (by norm_num) (by norm_num)
      (by norm_num) (by norm_num) (by norm_num)
  have h2 : fl ((3602879701896397 / 2 ^ 53) * (1827884951534467 / 2 ^ 25)) =
      5849231844910295 / 2 ^ 28 :=
      fl_val (by norm_num) (24) 5849231844910295 (by norm_num) (by norm_num)
        (by norm_num) (by norm_num) (by norm_num)
  have h3 : fl ((5849231844910295 / 2 ^ 28) / (2158886032723523 / 2 ^ 36)) =
      6100970120203469 / 2 ^ 43 :=
      fl_val (by norm_num) (9) 6100970120203469 (by norm_num) (by norm_num)
        (by norm_num) (by norm_num) (by norm_num)
  simp only [quotient_vetos, e1, scenario_veto_surface_area64, scenario_photocathode_area64, h1, h2,
    h3]

theorem negativeCoverage_quotient_pmts :
    quotient_pmts negativeCoverage = -(8444249301319681 / 2 ^ 45) := by
  have e1 : negativeCoverage.photocathode_coverage = -0.4 := rfl
  have e2 : surface_area64 negativeCoverage = surface_area64 scenario := rfl
  have e3 : photocathode_area64 negativeCoverage = photocathode_area64 scenario := rfl
  have h1 : fl (-0.4) = -(3602879701896397 / 2 ^ 53) :=
    fl_val_neg (by norm_num) (-2) 7205759403792794 (by norm_num) (by norm_num)
      (by norm_num) (by norm_num) (by norm_num)
  have h2 : fl ((-(3602879701896397 / 2 ^ 53)) * (5059889139195757 / 2 ^ 28)) =
      -(2023955655678303 / 2 ^ 28) :=
      fl_val_neg (by norm_num) (22) 8095822622713212 (by norm_num) (by norm_num)
        (by norm_num) (by norm_num) (by norm_num)
  have h3 : fl ((-(2023955655678303 / 2 ^ 28)) / (2158886032723523 / 2 ^ 36)) =
      -(8444249301319681 / 2 ^ 45) :=
      fl_val_neg (by norm_num) (7) 8444249301319681 (by norm_num) (by norm_num)
        (by norm_num) (by norm_num) (by norm_num)
  simp only [quotient_pmts, e1, e2, e3, scenario_surface_area64, scenario_photocathode_area64, h1,
    h2, h3]

theorem lowCoverage_quotient_pmts : quotient_pmts lowCoverage = 5404319552844595 / 2 ^ 53 := by
  have e1 : lowCoverage.photocathode_coverage = 0.001 := rfl
  have e2 : surface_area64 lowCoverage = surface_area64 scenario := rfl
  have e3 : photocathode_area64 lowCoverage = photocathode_area64 scenario := rfl
  have h1 : fl 0.001 = 1152921504606847 / 2 ^ 60 :=
    fl_val (by norm_num) (-10) 4611686018427388 (by norm_num) (by norm_num)
      (by norm_num) (by norm_num) (by norm_num)
  have h2 : fl ((1152921504606847 / 2 ^ 60) * (5059889139195757 / 2 ^ 28)) =
      5181326478536455 / 2 ^ 38 :=
      fl_val (by norm_num) (14) 5181326478536455 (by norm_num) (by norm_num)
        (by norm_num) (by norm_num) (by norm_num)
  have h3 : fl ((5181326478536455 / 2 ^ 38) / (2158886032723523 / 2 ^ 36)) =
      5404319552844595 / 2 ^ 53 :=
      fl_val (by norm_num) (-1) 5404319552844595 (by norm_num) (by norm_num)
        (by norm_num) (by norm_num) (by norm_num)
  simp only [quotient_pmts, e1, e2, e3, scenario_surface_area64, scenario_photocathode_area64, h1,
    h2, h3]

theorem wholeQuotient_photocathode_radius64 : photocathode_radius64 wholeQuotient = 50 := by
  have h1 : fl 50 = 50 :=
    fl_val (by norm_num) (5) 7036874417766400 (by norm_num) (by norm_num)
      (by norm_num) (by norm_num) (by norm_num)
  simp only [photocathode_radius64, wholeQuotient, List.map_cons, List.map_nil, List.drop_succ_cons,
    List.drop_zero, List.foldl_nil, List.headD_cons, h1]

theorem wholeQuotient_photocathode_area64 :
    photocathode_area64 wholeQuotient = 2158886032723523 / 2 ^ 38 := by
  have h1 : fl (M_PI * 50) = 5526748243772219 / 2 ^ 45 :=
    fl_val (by norm_num [M_PI]) (7) 5526748243772219 (by norm_num [M_PI]) (by norm_num [M_PI])
      (by norm_num [M_PI]) (by norm_num [M_PI]) (by norm_num)
  have h2 : fl ((5526748243772219 / 2 ^ 45) * 50) = 2158886032723523 / 2 ^ 38 :=
    fl_val (by norm_num) (12) 8635544130894092 (by norm_num) (by norm_num)
      (by norm_num) (by norm_num) (by norm_num)
  simp only [photocathode_area64, wholeQuotient_photocathode_radius64, h1, h2]

theorem wholeQuotient_pmt_radius64 : pmt_radius64 wholeQuotient = 100 := by
  have e1 : wholeQuotient.detector_size_d = 200 := rfl
  have e2 : wholeQuotient.veto_thickness_r = 0 := rfl
  have e3 : wholeQuotient.steel_thickness = 0 := rfl
  have h1 : fl 200 = 200 :=
    fl_val (by norm_num) (7) 7036874417766400 (by norm_num) (by norm_num)
      (by norm_num) (by norm_num) (by norm_num)
  have h2 : fl (200 / 2) = 100 :=
    fl_val (by norm_num) (6) 7036874417766400 (by norm_num) (by norm_num)
      (by norm_num) (by norm_num) (by norm_num)
  have h3 : fl 0 = 0 := fl_zero
  have h4 : fl (100 - 0) = 100 :=
    fl_val (by norm_num) (6) 7036874417766400 (by norm_num) (by norm_num)
      (by norm_num) (by norm_num) (by norm_num)
  have h5 : fl (4 * 0) = 0 := by norm_num [fl_zero]
  simp only [pmt_radius64, e1, e2, e3, h1, h2, h3, h4, h5]

theorem wholeQuotient_topbot_offset64 : topbot_offset64 wholeQuotient = 200 := by
  have e1 : wholeQuotient.detector_size_z = 400 := rfl
  have e2 : wholeQuotient.veto_thickness_z = 0 := rfl
  have h1 : fl 400 = 400 :=
    fl_val (by norm_num) (8) 7036874417766400 (by norm_num) (by norm_num)
      (by norm_num) (by norm_num) (by norm_num)
  have h2 : fl (400 / 2) = 200 :=
    fl_val (by norm_num) (7) 7036874417766400 (by norm_num) (by norm_num)
      (by norm_num) (by norm_num) (by norm_num)
  have h3 : fl 0 = 0 := fl_zero
  have h4 : fl (200 - 0) = 200 :=
    fl_val (by norm_num) (7) 7036874417766400 (by norm_num) (by norm_num)
      (by norm_num) (by norm_num) (by norm_num)
  simp only [topbot_offset64, e1, e2, h1, h2, h3, h4]

theorem wholeQuotient_veto_radius64 : veto_radius64 wholeQuotient = 800 := by
  have h1 : fl (100 + 700) = 800 :=
    fl_val (by norm_num) (9) 7036874417766400 (by norm_num) (by norm_num)
      (by norm_num) (by norm_num) (by norm_num)
  simp only [veto_radius64, veto_offset, wholeQuotient_pmt_radius64, h1]

theorem wholeQuotient_topbot_veto_offset64 : topbot_veto_offset64 wholeQuotient = 900 := by
  have h1 : fl (200 + 700) = 900 :=
    fl_val (by norm_num) (9) 7916483719987200 (by norm_num) (by norm_num)
      (by norm_num) (by norm_num) (by norm_num)
  simp only [topbot_veto_offset64, veto_offset, wholeQuotient_topbot_offset64, h1]

theorem wholeQuotient_surface_area64 : surface_area64 wholeQuotient = 674651885226101 / 2 ^ 31 := by
  have h1 : fl (2 * M_PI) = 884279719003555 / 2 ^ 47 :=
    fl_val (by norm_num [M_PI]) (2) 7074237752028440 (by norm_num [M_PI]) (by norm_num [M_PI])
      (by norm_num [M_PI]) (by norm_num [M_PI]) (by norm_num)
  have h2 : fl ((884279719003555 / 2 ^ 47) * 100) = 5526748243772219 / 2 ^ 43 :=
    fl_val (by norm_num) (9) 5526748243772219 (by norm_num) (by norm_num)
      (by norm_num) (by norm_num) (by norm_num)
  have h3 : fl ((5526748243772219 / 2 ^ 43) * 100) = 2158886032723523 / 2 ^ 35 :=
    fl_val (by norm_num) (15) 8635544130894092 (by norm_num) (by norm_num)
      (by norm_num) (by norm_num) (by norm_num)
  have h4 : fl (2 * 200) = 400 :=
    fl_val (by norm_num) (8) 7036874417766400 (by norm_num) (by norm_num)
      (by norm_num) (by norm_num) (by norm_num)
  have h5 : fl (400 * 2) = 800 :=
    fl_val (by norm_num) (9) 7036874417766400 (by norm_num) (by norm_num)
      (by norm_num) (by norm_num) (by norm_num)
  have h6 : fl (800 * M_PI) = 5526748243772219 / 2 ^ 41 :=
    fl_val (by norm_num [M_PI]) (11) 5526748243772219 (by norm_num [M_PI]) (by norm_num [M_PI])
      (by norm_num [M_PI]) (by norm_num [M_PI]) (by norm_num)
  have h7 : fl ((5526748243772219 / 2 ^ 41) * 100) = 2158886032723523 / 2 ^ 33 :=
    fl_val (by norm_num) (17) 8635544130894092 (by norm_num) (by norm_num)
      (by norm_num) (by norm_num) (by norm_num)
  have h8 : fl ((2158886032723523 / 2 ^ 35) + (2158886032723523 / 2 ^ 33)) =
      674651885226101 / 2 ^ 31 :=
      fl_val_tie (by norm_num) (18) 5397215081808807 5397215081808808 (by norm_num) (by norm_num)
        (by norm_num) (by norm_num) (by norm_num)
  simp only [surface_area64, wholeQuotient_pmt_radius64, wholeQuotient_topbot_offset64, h1, h2, h3,
    h4, h5, h6, h7, h8]

theorem wholeQuotient_veto_surface_area64 :
    veto_surface_area64 wholeQuotient = 3508189803175725 / 2 ^ 28 := by
  have h1 : fl (2 * M_PI) = 884279719003555 / 2 ^ 47 :=
    fl_val (by norm_num [M_PI]) (2) 7074237752028440 (by norm_num [M_PI]) (by norm_num [M_PI])
      (by norm_num [M_PI]) (by norm_num [M_PI]) (by norm_num)
  have h2 : fl ((884279719003555 / 2 ^ 47) * 800) = 5526748243772219 / 2 ^ 40 :=
    fl_val (by norm_num) (12) 5526748243772219 (by norm_num) (by norm_num)
      (by norm_num) (by norm_num) (by norm_num)
  have h3 : fl ((5526748243772219 / 2 ^ 40) * 800) = 2158886032723523 / 2 ^ 29 :=
    fl_val (by norm_num) (21) 8635544130894092 (by norm_num) (by norm_num)
      (by norm_num) (by norm_num) (by norm_num)
  have h4 : fl (2 * 900) = 1800 :=
    fl_val (by norm_num) (10) 7916483719987200 (by norm_num) (by norm_num)
      (by norm_num) (by norm_num) (by norm_num)
  have h5 : fl (1800 * 2) = 3600 :=
    fl_val (by norm_num) (11) 7916483719987200 (by norm_num) (by norm_num)
      (by norm_num) (by norm_num) (by norm_num)
  have h6 : fl (3600 * M_PI) = 3108795887121873 / 2 ^ 38 :=
    fl_val (by norm_num [M_PI]) (13) 6217591774243746 (by norm_num [M_PI]) (by norm_num [M_PI])
      (by norm_num [M_PI]) (by norm_num [M_PI]) (by norm_num)
  have h7 : fl ((3108795887121873 / 2 ^ 38) * 800) = 4857493573627927 / 2 ^ 29 :=
    fl_val (by norm_num) (23) 4857493573627927 (by norm_num) (by norm_num)
      (by norm_num) (by norm_num) (by norm_num)
  have h8 : fl ((2158886032723523 / 2 ^ 29) + (4857493573627927 / 2 ^ 29)) =
      3508189803175725 / 2 ^ 28 :=
      fl_val (by norm_num) (23) 7016379606351450 (by norm_num) (by norm_num)
        (by norm_num) (by norm_num) (by norm_num)
  simp only [veto_surface_area64, wholeQuotient_veto_radius64, wholeQuotient_topbot_veto_offset64,
    h1, h2, h3, h4, h5, h6, h7, h8]

theorem wholeQuotient_quotient_pmts : quotient_pmts wholeQuotient = 5629499534213121 / 2 ^ 47 := by
  have e1 : wholeQuotient.photocathode_coverage = 1 := rfl
  have h1 : fl 1 = 1 :=
    fl_val (by norm_num) (0) 4503599627370496 (by norm_num) (by norm_num)
      (by norm_num) (by norm_num) (by norm_num)
  have h2 : fl (1 * (674651885226101 / 2 ^ 31)) = 674651885226101 / 2 ^ 31 :=
    fl_val (by norm_num) (18) 5397215081808808 (by norm_num) (by norm_num)
      (by norm_num) (by norm_num) (by norm_num)
  have h3 : fl ((674651885226101 / 2 ^ 31) / (2158886032723523 / 2 ^ 38)) =
      5629499534213121 / 2 ^ 47 :=
      fl_val (by norm_num) (5) 5629499534213121 (by norm_num) (by norm_num)
        (by norm_num) (by norm_num) (by norm_num)
  simp only [quotient_pmts, e1, wholeQuotient_surface_area64, wholeQuotient_photocathode_area64, h1,
    h2, h3]

/-! ### The scenario -/

theorem scenario_pmt_radius : pmt_radius scenario = 1000 := by
  norm_num [pmt_radius, scenario]

theorem scenario_topbot_offset : topbot_offset scenario = 1000 := by
  norm_num [topbot_offset, scenario]

theorem scenario_photocathode_area : photocathode_area scenario = Real.pi * 10000 := by
  simp only [photocathode_area, photocathode_radius, scenario, List.drop_succ_cons, List.drop_zero,
    List.foldl_nil, List.headD_cons]
  ring

theorem scenario_surface_area : surface_area scenario = Real.pi * 6000000 := by
  rw [surface_area, scenario_pmt_radius, scenario_topbot_offset]
  ring

theorem scenario_veto_surface_area : veto_surface_area scenario = Real.pi * 17340000 := by
  rw [veto_surface_area, veto_radius, topbot_veto_offset, scenario_pmt_radius,
    scenario_topbot_offset, veto_offset]
  ring

theorem scenario_coverage : scenario.photocathode_coverage = 0.4 := rfl

theorem scenario_veto_coverage : scenario.veto_coverage = 0.4 := rfl

theorem scenario_quotient_pmts_eq : quotient_pmts scenario = 240 + 1 / 2 ^ 45 := by
  rw [scenario_quotient_pmts]
  norm_num

theorem scenario_required_pmts : required_pmts scenario = 241 := by
  have h : ⌈quotient_pmts scenario⌉ = 241 := by
    rw [scenario_quotient_pmts_eq, Int.ceil_eq_iff]
    norm_num
  rw [required_pmts, h]
  norm_num

theorem scenario_pmt_space_eq :
    pmt_space scenario = Real.sqrt (6000000 * Real.pi / 241) := by
  rw [pmt_space, scenario_surface_area, scenario_required_pmts]
  congr 1
  ring

theorem scenario_pmt_space_bounds :
    279.6 < pmt_space scenario ∧ pmt_space scenario < 279.7 := by
  have h1 := Real.pi_gt_d4
  have h2 := Real.pi_lt_d4
  rw [scenario_pmt_space_eq]
  constructor
  · rw [Real.lt_sqrt (by norm_num)]
    norm_num
    linarith
  · rw [Real.sqrt_lt' (by norm_num)]
    norm_num
    linarith

theorem scenario_pmt_space : 0 < pmt_space scenario ∧ pmt_space scenario ≤ 300 := by
  obtain ⟨h1, h2⟩ := scenario_pmt_space_bounds
  constructor <;> linarith

theorem scenario_required_vetos : required_vetos scenario = 694 := by
  have h : ⌈quotient_vetos scenario⌉ = 694 := by
    rw [scenario_quotient_vetos, Int.ceil_eq_iff]
    norm_num
  rw [required_vetos, h]
  norm_num

theorem scenario_veto_space_bounds :
    280.1 < veto_space scenario ∧ veto_space scenario < 280.2 := by
  have h1 := Real.pi_gt_d4
  have h2 := Real.pi_lt_d4
  have e : veto_space scenario = Real.sqrt (17340000 * Real.pi / 694) := by
    rw [veto_space, scenario_veto_surface_area, scenario_required_vetos]
    congr 1
    ring
  rw [e]
  constructor
  · rw [Real.lt_sqrt (by norm_num)]
    norm_num
    linarith
  · rw [Real.sqrt_lt' (by norm_num)]
    norm_num
    linarith

theorem scenario_veto_space : 0 < veto_space scenario ∧ veto_space scenario ≤ 300 := by
  obtain ⟨h1, h2⟩ := scenario_veto_space_bounds
  constructor <;> linarith

theorem scenario_cols_pos : 0 < cols scenario := by
  obtain ⟨h0, h1⟩ := scenario_pmt_space
  apply cround_toNat_pos
  rw [scenario_pmt_radius, le_div_iff₀ h0]
  have := Real.pi_gt_three
  nlinarith

theorem scenario_rows_pos : 0 < rows scenario := by
  obtain ⟨h0, h1⟩ := scenario_pmt_space
  apply cround_toNat_pos
  rw [scenario_topbot_offset, le_div_iff₀ h0]
  linarith

theorem scenario_veto_cols_pos : 0 < veto_cols scenario := by
  obtain ⟨h0, h1⟩ := scenario_veto_space
  apply cround_toNat_pos
  rw [veto_radius, scenario_pmt_radius, veto_offset, le_div_iff₀ h0]
  have := Real.pi_gt_three
  nlinarith

theorem scenario_veto_rows_pos : 0 < veto_rows scenario := by
  obtain ⟨h0, h1⟩ := scenario_veto_space
  apply cround_toNat_pos
  rw [topbot_veto_offset, scenario_topbot_offset, veto_offset, le_div_iff₀ h0]
  linarith

theorem scenario_rdim_nonneg : 0 ≤ rdim scenario := by
  apply cround_nonneg
  rw [scenario_pmt_radius]
  exact div_nonneg (by norm_num) (pmt_space_nonneg _)

theorem origin_mem_lattice {r : ℤ} (hr : 0 ≤ r) : ((0, 0) : ℤ × ℤ) ∈ lattice r := by
  rw [mem_lattice]
  simp only
  omega

theorem scenario_origin_mem_topbot : ((0, 0) : ℤ × ℤ) ∈ topbot scenario := by
  rw [mem_topbot]
  refine ⟨origin_mem_lattice scenario_rdim_nonneg, ?_⟩
  have h := scenario_pmt_space
  simp only [topbotTest, scenario_pmt_radius]
  norm_num
  linarith [h.2]

theorem scenario_origin_mem_topbot_veto : ((0, 0) : ℤ × ℤ) ∈ topbot_veto scenario := by
  rw [mem_topbot_veto]
  refine ⟨origin_mem_lattice scenario_rdim_nonneg, ?_⟩
  have h := scenario_pmt_space
  simp only [topbotVetoTest, scenario_pmt_radius]
  norm_num
  linarith [h.2]

theorem scenario_topbot_length : 0 < (topbot scenario).length :=
  List.length_pos_of_mem scenario_origin_mem_topbot

theorem scenario_topbot_veto_length : 0 < (topbot_veto scenario).length :=
  List.length_pos_of_mem scenario_origin_mem_topbot_veto

theorem scenario_num_pmts_pos : 1 ≤ num_pmts scenario := by
  have := scenario_topbot_length
  unfold num_pmts
  omega

/-! ### Slots and their rows -/

theorem inner_slot_row (p : Params) (s : Slot)
    (hs : s.valid (rows p) (cols p) (topbot p).length) :
    (pmtinfoTable p).entry (s.index 0 (rows p) (cols p)) = innerUnit p s := by
  cases s with
  | side col row =>
    simp only [Slot.index, Nat.zero_add, innerUnit]
    exact innerSide_row p col row hs.1 hs.2
  | top i =>
    simp only [Slot.index, Nat.zero_add, innerUnit]
    exact innerCap_top_row p i hs
  | bottom i =>
    simp only [Slot.index, Nat.zero_add, innerUnit]
    exact innerCap_bottom_row p i hs

theorem veto_slot_row (p : Params) (s : Slot)
    (hs : s.valid (veto_rows p) (veto_cols p) (topbot_veto p).length) :
    (pmtinfoTable p).entry (s.index (num_pmts p) (veto_rows p) (veto_cols p)) = vetoUnit p s := by
  cases s with
  | side col row =>
    simp only [Slot.index, vetoUnit]
    exact vetoSide_row p col row hs.1 hs.2
  | top i =>
    simp only [Slot.index, vetoUnit]
    exact vetoCap_top_row p i hs
  | bottom i =>
    simp only [Slot.index, vetoUnit]
    exact vetoCap_bottom_row p i hs

theorem slot_index_range (base rows cols n : ℕ) (s : Slot) (hs : s.valid rows cols n) :
    base ≤ s.index base rows cols ∧ s.index base rows cols < base + (cols * rows + 2 * n) := by
  have hc : rows * cols = cols * rows := Nat.mul_comm _ _
  cases s with
  | side col row =>
    have := side_idx_lt rows cols hs.1 hs.2
    simp only [Slot.index]
    omega
  | top i =>
    simp only [Slot.valid] at hs
    simp only [Slot.index]
    omega
  | bottom i =>
    simp only [Slot.valid] at hs
    simp only [Slot.index]
    omega

theorem slot_index_inj (base rows cols n : ℕ) (s s2 : Slot) (hs : s.valid rows cols n)
    (hs2 : s2.valid rows cols n) (h : s.index base rows cols = s2.index base rows cols) :
    s = s2 := by
  have hc : rows * cols = cols * rows := Nat.mul_comm _ _
  cases s with
  | side col row =>
    have h1 := side_idx_lt rows cols hs.1 hs.2
    cases s2 with
    | side col2 row2 =>
      simp only [Slot.index] at h
      obtain ⟨e1, e2⟩ := side_idx_inj rows hs.2 hs2.2 (by omega : row + col * rows = row2 + col2 * rows)
      rw [e1, e2]
    | top i => simp only [Slot.index] at h; omega
    | bottom i => simp only [Slot.index] at h; omega
  | top i =>
    cases s2 with
    | side col2 row2 =>
      have h1 := side_idx_lt rows cols hs2.1 hs2.2
      simp only [Slot.index] at h; omega
    | top i2 =>
      simp only [Slot.index] at h
      have : i = i2 := by omega
      rw [this]
    | bottom i2 => simp only [Slot.index] at h; omega
  | bottom i =>
    cases s2 with
    | side col2 row2 =>
      have h1 := side_idx_lt rows cols hs2.1 hs2.2
      simp only [Slot.index] at h; omega
    | top i2 => simp only [Slot.index] at h; omega
    | bottom i2 =>
      simp only [Slot.index] at h
      have : i = i2 := by omega
      rw [this]

theorem slot_index_surj (base rows cols n k : ℕ) (h1 : base ≤ k)
    (h2 : k < base + (cols * rows + 2 * n)) :
    ∃ s : Slot, s.valid rows cols n ∧ s.index base rows cols = k := by
  have hc : rows * cols = cols * rows := Nat.mul_comm _ _
  by_cases hk : k - base < cols * rows
  · obtain ⟨col, row, hcol, hrow, e⟩ := side_idx_exists rows cols hk
    exact ⟨Slot.side col row, ⟨hcol, hrow⟩, by simp only [Slot.index]; omega⟩
  · by_cases hpar : (k - base - cols * rows) % 2 = 0
    · refine ⟨Slot.top ((k - base - cols * rows) / 2), ?_, ?_⟩
      · simp only [Slot.valid]; omega
      · simp only [Slot.index]; omega
    · refine ⟨Slot.bottom ((k - base - cols * rows) / 2), ?_, ?_⟩
      · simp only [Slot.valid]; omega
      · simp only [Slot.index]; omega

/-! ### Radii of non-empty side walls, and distances of end-cap units -/

theorem cols_pos_radius (p : Params) (h : 0 < cols p) : 0 < pmt_radius p := by
  have h1 : 0 < cround (2 * Real.pi * pmt_radius p / pmt_space p) := by
    unfold cols at h
    omega
  have h2 := cround_pos_arg h1
  by_contra hR
  have hR2 : pmt_radius p ≤ 0 := not_lt.1 hR
  have : 2 * Real.pi * pmt_radius p / pmt_space p ≤ 0 :=
    div_nonpos_of_nonpos_of_nonneg
      (mul_nonpos_of_nonneg_of_nonpos (by positivity) hR2) (pmt_space_nonneg p)
  linarith

theorem veto_cols_pos_radius (p : Params) (h : 0 < veto_cols p) : 0 < veto_radius p := by
  have h1 : 0 < cround (2 * Real.pi * veto_radius p / veto_space p) := by
    unfold veto_cols at h
    omega
  have h2 := cround_pos_arg h1
  by_contra hR
  have hR2 : veto_radius p ≤ 0 := not_lt.1 hR
  have : 2 * Real.pi * veto_radius p / veto_space p ≤ 0 :=
    div_nonpos_of_nonpos_of_nonneg
      (mul_nonpos_of_nonneg_of_nonpos (by positivity) hR2) (veto_space_nonneg p)
  linarith

/-- The distance from the axis of the point `(s * i, s * j)`, for a spacing `s ≥ 0`. -/
theorem lattice_point_distance {s : ℝ} (hs : 0 ≤ s) (i j : ℤ) :
    Real.sqrt (s * (i : ℝ) * (s * (i : ℝ)) + s * (j : ℝ) * (s * (j : ℝ))) =
      s * Real.sqrt ((i * i + j * j : ℤ)) := by
  have e : s * (i : ℝ) * (s * (i : ℝ)) + s * (j : ℝ) * (s * (j : ℝ)) =
      s ^ 2 * (((i * i + j * j : ℤ)) : ℝ) := by
    push_cast
    ring
  rw [e, Real.sqrt_mul (sq_nonneg s), Real.sqrt_sq hs]

theorem getD_mem {α : Type} (l : List α) (d : α) (k : ℕ) (hk : k < l.length) :
    l.getD k d ∈ l := by
  rw [List.getD_eq_getElem l d hk]
  exact List.getElem_mem hk

theorem scanRange_nodup (r : ℤ) : (scanRange r).Nodup := by
  unfold scanRange
  apply List.Nodup.map _ (List.nodup_range _)
  intro a b h
  simp only at h
  omega

theorem lattice_nodup (r : ℤ) : (lattice r).Nodup := by
  unfold lattice
  rw [List.nodup_flatMap]
  refine ⟨?_, ?_⟩
  · intro i _
    apply List.Nodup.map _ (scanRange_nodup r)
    intro a b h
    simpa using h
  · apply List.Pairwise.imp _ (scanRange_nodup r)
    intro a b hab
    simp only [Function.onFun, List.disjoint_left, List.mem_map, not_exists, not_and]
    rintro ij ⟨j, _, rfl⟩ j2 _ h
    apply hab
    simpa using (congrArg Prod.fst h).symm

theorem topbot_eq_filter (p : Params) :
    topbot p = (lattice (rdim p)).filter (fun ij => decide (topbotTest p ij)) := by
  simp [topbot, scanLattice, scan_fst]

theorem topbot_veto_eq_filter (p : Params) :
    topbot_veto p = (lattice (rdim p)).filter (fun ij => decide (topbotVetoTest p ij)) := by
  simp [topbot_veto, scanLattice, scan_snd]

theorem topbot_nodup (p : Params) : (topbot p).Nodup := by
  rw [topbot_eq_filter]
  exact (lattice_nodup _).filter _

theorem topbot_veto_nodup (p : Params) : (topbot_veto p).Nodup := by
  rw [topbot_veto_eq_filter]
  exact (lattice_nodup _).filter _

/-! ### The input with negative coverage -/

theorem negativeCoverage_photocathode_area :
    photocathode_area negativeCoverage = Real.pi * 10000 := by
  simp only [photocathode_area, photocathode_radius, negativeCoverage, scenario,
    List.drop_succ_cons, List.drop_zero, List.foldl_nil, List.headD_cons]
  ring

theorem negativeCoverage_surface_area : surface_area negativeCoverage = Real.pi * 6000000 := by
  have h1 : pmt_radius negativeCoverage = 1000 := by
    norm_num [pmt_radius, negativeCoverage, scenario]
  have h2 : topbot_offset negativeCoverage = 1000 := by
    norm_num [topbot_offset, negativeCoverage, scenario]
  rw [surface_area, h1, h2]
  ring

theorem negativeCoverage_required_pmts : required_pmts negativeCoverage = -240 := by
  have h : ⌈quotient_pmts negativeCoverage⌉ = -240 := by
    rw [negativeCoverage_quotient_pmts, Int.ceil_eq_iff]
    norm_num
  rw [required_pmts, h]
  norm_num

theorem negativeCoverage_coverage_nonpos : negativeCoverage.photocathode_coverage ≤ 0 := by
  have hc : negativeCoverage.photocathode_coverage = -0.4 := rfl
  rw [hc]
  norm_num

theorem negativeCoverage_surface_area_pos : 0 < surface_area negativeCoverage := by
  rw [negativeCoverage_surface_area]
  positivity

theorem negativeCoverage_photocathode_area_pos : 0 < photocathode_area negativeCoverage := by
  rw [negativeCoverage_photocathode_area]
  positivity

/-! ### The nearest-sample scan -/

theorem DBL_MAX_pos : (0 : ℝ) < DBL_MAX := by
  unfold DBL_MAX
  positivity

theorem Vec3.mag_eq_sqrt_mag2 (a : Vec3) : a.mag = Real.sqrt a.mag2 := rfl

theorem Vec3.mag2_nonneg (a : Vec3) : 0 ≤ a.mag2 := by
  unfold Vec3.mag2
  nlinarith [mul_self_nonneg a.x, mul_self_nonneg a.y, mul_self_nonneg a.z]

theorem mag_on_x_axis (a : ℝ) : (⟨a, 0, 0⟩ : Vec3).mag = |a| := by
  simp [Vec3.mag, Real.sqrt_mul_self_eq_abs]

theorem mag2_on_x_axis (a : ℝ) : (⟨a, 0, 0⟩ : Vec3).mag2 = a * a := by
  simp [Vec3.mag2]

/-- A length whose square does not overflow is below `2^512`, hence below
`DBL_MAX`. -/
theorem mag_lt_of_mag2_lt (a : Vec3) (h : a.mag2 < overflowBound) :
    a.mag < 2 ^ 512 ∧ a.mag < DBL_MAX := by
  have h1 : a.mag < 2 ^ 512 := by
    rw [Vec3.mag_eq_sqrt_mag2, Real.sqrt_lt' (by positivity)]
    unfold overflowBound at h
    have : (2 : ℝ) ^ 1024 - 2 ^ 970 ≤ (2 ^ 512) ^ 2 := by norm_num
    linarith
  refine ⟨h1, lt_trans h1 ?_⟩
  unfold DBL_MAX
  norm_num

/-- The double length of a vector whose squared length does not overflow. -/
theorem magD_near (a : Vec3) (h : a.mag2 < overflowBound) : a.magD = .fin a.mag := by
  rw [Vec3.magD, if_pos h]

/-- The double length of a vector whose squared length overflows. -/
theorem magD_far (a : Vec3) (h : overflowBound ≤ a.mag2) : a.magD = .posInf := by
  rw [Vec3.magD, if_neg (not_lt.2 h)]

/-- One pass of the scan over a sample whose squared distance does not overflow. -/
theorem nearestStep_near (pmtpos : Vec3) (Bpos : List Vec3) (i : ℕ) (st : ℝ × ℤ)
    (h : (pmtpos.sub (Bpos.getD i ⟨0, 0, 0⟩)).mag2 < overflowBound) :
    nearestStep pmtpos Bpos i st =
      if st.1 > (pmtpos.sub (Bpos.getD i ⟨0, 0, 0⟩)).mag then
        ((pmtpos.sub (Bpos.getD i ⟨0, 0, 0⟩)).mag, (i : ℤ))
      else st := by
  unfold nearestStep
  rw [magD_near _ h]
  rfl

/-- One pass of the scan over a sample whose squared distance overflows. -/
theorem nearestStep_far (pmtpos : Vec3) (Bpos : List Vec3) (i : ℕ) (st : ℝ × ℤ)
    (h : overflowBound ≤ (pmtpos.sub (Bpos.getD i ⟨0, 0, 0⟩)).mag2) :
    nearestStep pmtpos Bpos i st = st := by
  unfold nearestStep
  rw [magD_far _ h]
  exact if_neg (fun hh => hh)

/-- The state of the scan after `n` passes: either nothing was selected and the
squared distance of every sample seen overflows, or the selected index is the first
one among the samples seen at the least distance, and its squared distance does not
overflow. -/
theorem nearest_invariant (pmtpos : Vec3) (Bpos : List Vec3) (n : ℕ) :
    ((loop n (nearestStep pmtpos Bpos) (DBL_MAX, -1)).2 = -1 ∧
      (loop n (nearestStep pmtpos Bpos) (DBL_MAX, -1)).1 = DBL_MAX ∧
      ∀ j, j < n → overflowBound ≤ (pmtpos.sub (Bpos.getD j ⟨0, 0, 0⟩)).mag2) ∨
    (∃ i : ℕ, i < n ∧ (loop n (nearestStep pmtpos Bpos) (DBL_MAX, -1)).2 = (i : ℤ) ∧
      (loop n (nearestStep pmtpos Bpos) (DBL_MAX, -1)).1 =
        (pmtpos.sub (Bpos.getD i ⟨0, 0, 0⟩)).mag ∧
      (pmtpos.sub (Bpos.getD i ⟨0, 0, 0⟩)).mag2 < overflowBound ∧
      (∀ j, j < n → (pmtpos.sub (Bpos.getD i ⟨0, 0, 0⟩)).mag ≤
        (pmtpos.sub (Bpos.getD j ⟨0, 0, 0⟩)).mag) ∧
      (∀ j, j < i → (pmtpos.sub (Bpos.getD i ⟨0, 0, 0⟩)).mag <
        (pmtpos.sub (Bpos.getD j ⟨0, 0, 0⟩)).mag)) := by
  have far_lt : ∀ a b : Vec3, a.mag2 < overflowBound → overflowBound ≤ b.mag2 →
      a.mag < b.mag := by
    intro a b ha hb
    rw [Vec3.mag_eq_sqrt_mag2, Vec3.mag_eq_sqrt_mag2]
    exact Real.sqrt_lt_sqrt (Vec3.mag2_nonneg a) (lt_of_lt_of_le ha hb)
  induction n with
  | zero =>
    left
    exact ⟨rfl, rfl, fun j hj => absurd hj (Nat.not_lt_zero j)⟩
  | succ n ih =>
    rw [loop_succ]
    by_cases hn : (pmtpos.sub (Bpos.getD n ⟨0, 0, 0⟩)).mag2 < overflowBound
    · rw [nearestStep_near pmtpos Bpos n _ hn]
      rcases ih with ⟨h2, h1, hall⟩ | ⟨i, hi, h2, h1, hlt, hmin, hfirst⟩
      · have hc : DBL_MAX > (pmtpos.sub (Bpos.getD n ⟨0, 0, 0⟩)).mag :=
          (mag_lt_of_mag2_lt _ hn).2
        right
        refine ⟨n, Nat.lt_succ_self n, ?_, ?_, hn, ?_, ?_⟩
        · simp only [h1, if_pos hc]
        · simp only [h1, if_pos hc]
        · intro j hj
          rcases Nat.lt_succ_iff_lt_or_eq.1 hj with hjn | rfl
          · exact le_of_lt (far_lt _ _ hn (hall j hjn))
          · exact le_refl _
        · intro j hj
          exact far_lt _ _ hn (hall j hj)
      · right
        by_cases hc : (pmtpos.sub (Bpos.getD i ⟨0, 0, 0⟩)).mag >
            (pmtpos.sub (Bpos.getD n ⟨0, 0, 0⟩)).mag
        · refine ⟨n, Nat.lt_succ_self n, ?_, ?_, hn, ?_, ?_⟩
          · simp only [h1, if_pos hc]
          · simp only [h1, if_pos hc]
          · intro j hj
            rcases Nat.lt_succ_iff_lt_or_eq.1 hj with hjn | rfl
            · exact le_of_lt (lt_of_lt_of_le hc (hmin j hjn))
            · exact le_refl _
          · intro j hj
            exact lt_of_lt_of_le hc (hmin j hj)
        · refine ⟨i, Nat.lt_succ_of_lt hi, ?_, ?_, hlt, ?_, hfirst⟩
          · simp only [h1, if_neg hc, h2]
          · simp only [h1, if_neg hc]
          · intro j hj
            rcases Nat.lt_succ_iff_lt_or_eq.1 hj with hjn | rfl
            · exact hmin j hjn
            · exact not_lt.1 hc
    · have hn2 : overflowBound ≤ (pmtpos.sub (Bpos.getD n ⟨0, 0, 0⟩)).mag2 := not_lt.1 hn
      rw [nearestStep_far pmtpos Bpos n _ hn2]
      rcases ih with ⟨h2, h1, hall⟩ | ⟨i, hi, h2, h1, hlt, hmin, hfirst⟩
      · left
        refine ⟨h2, h1, ?_⟩
        intro j hj
        rcases Nat.lt_succ_iff_lt_or_eq.1 hj with hjn | rfl
        · exact hall j hjn
        · exact hn2
      · right
        refine ⟨i, Nat.lt_succ_of_lt hi, h2, h1, hlt, ?_, hfirst⟩
        intro j hj
        rcases Nat.lt_succ_iff_lt_or_eq.1 hj with hjn | rfl
        · exact hmin j hjn
        · exact le_of_lt (far_lt _ _ hlt hn2)
/-! ### Vectors and placement options -/

theorem Vec3.unit_of_mag2_one (d : Vec3) (h : d.mag2 = 1) : d.unit = d := by
  unfold Vec3.unit
  rw [if_pos (by rw [h]; norm_num), h, Real.sqrt_one]
  simp [Vec3.smul]

theorem readOptions_manual (table : GeoTable) (npos : ℕ)
    (h1 : table.orientation = some "manual") :
    readOptions table npos = some
      { start_idx := table.start_idx.getD 0,
        end_idx := table.end_idx.getD ((npos : ℤ) - 1),
        flip := table.flip.getD 0,
        orient_manual := true,
        orient_point := ⟨0, 0, 0⟩,
        rescale_radius := table.rescale_radius.isSome,
        new_radius := table.rescale_radius.getD 1,
        parent_coord := decide (table.use_parent_coordinates.getD 0 ≠ 0) } := by
  simp [readOptions, readOrientation, readOrientPoint, h1]

theorem readOptions_flip (table : GeoTable) (npos : ℕ) (o2 : PlaceOptions)
    (h : readOptions table npos = some o2) : o2.flip = table.flip.getD 0 := by
  unfold readOptions at h
  split at h
  · simp at h
  · split at h
    · simp at h
    · simp only [Option.some.injEq] at h
      subst h
      rfl

theorem efficiencyEntry_eq (c : Bool) (m : String) (dx dy : ℝ) :
    efficiencyEntry c m dx dy =
      (BeffiComp m dx dy).map (fun v => if c = true ∧ v > 1 then 1 else v) := by
  unfold efficiencyEntry BeffiComp
  by_cases h1 : m = "multiplicative"
  · rw [if_pos h1, if_pos h1]
    by_cases h : c = true ∧ dx * dy > 1
    · simp only [if_pos h, Option.map_some']
    · simp only [if_neg h, Option.map_some']
  · rw [if_neg h1, if_neg h1]
    by_cases h2 : m = "additive"
    · rw [if_pos h2, if_pos h2]
      by_cases h : c = true ∧ dx + dy - 1 > 1
      · simp only [if_pos h, Option.map_some']
      · simp only [if_neg h, Option.map_some']
    · rw [if_neg h2, if_neg h2]
      rfl

/-! ### Sine and cosine of `atan2` -/

theorem abs_mk (a b : ℝ) : Complex.abs ⟨a, b⟩ = Real.sqrt (a * a + b * b) := by
  rw [Complex.abs_apply, Complex.normSq_mk]

theorem sin_atan2 (y x : ℝ) : Real.sin (atan2 y x) = y / Real.sqrt (x * x + y * y) := by
  rw [atan2, Complex.sin_arg, abs_mk]

theorem cos_atan2 (y x : ℝ) (h : Real.sqrt (x * x + y * y) ≠ 0) :
    Real.cos (atan2 y x) = x / Real.sqrt (x * x + y * y) := by
  have hne : (⟨x, y⟩ : ℂ) ≠ 0 := by
    intro h0
    apply h
    have hx : x = 0 := by simpa using congrArg Complex.re h0
    have hy : y = 0 := by simpa using congrArg Complex.im h0
    rw [hx, hy]
    simp
  rw [atan2, Complex.cos_arg hne, abs_mk]

theorem atan2_zero_zero : atan2 0 0 = 0 := by
  have h : (⟨0, 0⟩ : ℂ) = 0 := rfl
  rw [atan2, h, Complex.arg_zero]

theorem mag_eq_one_iff (d : Vec3) : d.mag = 1 ↔ d.x * d.x + d.y * d.y + d.z * d.z = 1 := by
  unfold Vec3.mag
  constructor
  · intro h
    have h0 : 0 ≤ d.x * d.x + d.y * d.y + d.z * d.z := by nlinarith [mul_self_nonneg d.x, mul_self_nonneg d.y, mul_self_nonneg d.z]
    have := Real.mul_self_sqrt h0
    rw [h] at this
    linarith
  · intro h
    rw [h, Real.sqrt_one]

/-! ### The placement loop and the running count -/

theorem placeBody_placed (o : PlaceOptions) (offset : Vec3) (a : PosArrays) (id0 : ℤ) (k : ℕ)
    (st : PlaceState) :
    (placeBody o offset a id0 k st).placed = st.placed ++ [placedUnit o offset a id0 k] ∧
    (placeBody o offset a id0 k st).pmtinfo.length = st.pmtinfo.length + 1 ∧
    (placedUnit o offset a id0 k).idx = o.start_idx + (k : ℤ) ∧
    (placedUnit o offset a id0 k).id = id0 + (k : ℤ) := by
  refine ⟨rfl, ?_, rfl, rfl⟩
  simp [placeBody]

theorem placeLoop_passes (o : PlaceOptions) (offset : Vec3) (a : PosArrays) (id0 : ℤ)
    (st : PlaceState) (n : ℕ) :
    (loop n (placeBody o offset a id0) st).pmtinfo.length = st.pmtinfo.length + n ∧
    ∃ new : List Placed,
      (loop n (placeBody o offset a id0) st).placed = st.placed ++ new ∧
      new.map (fun u => (u.idx, u.id)) =
        (List.range n).map (fun (k : ℕ) => (o.start_idx + (k : ℤ), id0 + (k : ℤ))) := by
  induction n with
  | zero => exact ⟨rfl, [], by simp [loop_zero], rfl⟩
  | succ n ih =>
    obtain ⟨hlen, new, hnew, hmap⟩ := ih
    obtain ⟨h1, h2, h3, h4⟩ := placeBody_placed o offset a id0 n (loop n (placeBody o offset a id0) st)
    rw [loop_succ]
    refine ⟨?_, new ++ [placedUnit o offset a id0 n], ?_, ?_⟩
    · rw [h2, hlen]
      omega
    · rw [h1, hnew, List.append_assoc]
    · rw [List.map_append, hmap, List.range_succ, List.map_append]
      simp only [List.map_cons, List.map_nil, h3, h4]

theorem running_max (l : List ℝ) (r : ℝ) :
    l.foldl (fun r e => if r < e then e else r) r ∈ r :: l ∧
    ∀ e, e ∈ r :: l → e ≤ l.foldl (fun r e => if r < e then e else r) r := by
  induction l generalizing r with
  | nil => simp
  | cons a l ih =>
    rw [List.foldl_cons]
    by_cases h : r < a
    · rw [if_pos h]
      obtain ⟨h1, h2⟩ := ih a
      refine ⟨?_, ?_⟩
      · rcases List.mem_cons.1 h1 with h1 | h1
        · rw [h1]; simp
        · exact List.mem_cons_of_mem _ (List.mem_cons_of_mem _ h1)
      · intro e he
        rcases List.mem_cons.1 he with he | he
        · rw [he]
          exact le_trans (le_of_lt h) (h2 a (List.mem_cons_self _ _))
        · exact h2 e he
    · rw [if_neg h]
      obtain ⟨h1, h2⟩ := ih r
      refine ⟨?_, ?_⟩
      · rcases List.mem_cons.1 h1 with h1 | h1
        · rw [h1]; simp
        · exact List.mem_cons_of_mem _ (List.mem_cons_of_mem _ h1)
      · intro e he
        rcases List.mem_cons.1 he with he | he
        · rw [he]
          exact h2 r (List.mem_cons_self _ _)
        · rcases List.mem_cons.1 he with he | he
          · rw [he]
            exact le_trans (not_lt.1 h) (h2 r (List.mem_cons_self _ _))
          · exact h2 e (List.mem_cons_of_mem _ he)

/-! ### The scenario, evaluated -/

theorem cround_eq {x : ℝ} (n : ℤ) (h0 : 0 ≤ x) (h1 : (n : ℝ) - 1 / 2 ≤ x)
    (h2 : x < (n : ℝ) + 1 / 2) : cround x = n := by
  rw [cround, if_pos h0, Int.floor_eq_iff]
  constructor <;> linarith

theorem scenario_cols : cols scenario = 22 := by
  obtain ⟨h1, h2⟩ := scenario_pmt_space_bounds
  have hp1 := Real.pi_gt_d4
  have hp2 := Real.pi_lt_d4
  have hs : 0 < pmt_space scenario := by linarith
  have hc : cround (2 * Real.pi * pmt_radius scenario / pmt_space scenario) = 22 := by
    rw [scenario_pmt_radius]
    apply cround_eq
    · positivity
    · rw [le_div_iff₀ hs]
      norm_num
      nlinarith
    · rw [div_lt_iff₀ hs]
      norm_num
      nlinarith
  rw [cols, hc]
  rfl

theorem scenario_rows : rows scenario = 7 := by
  obtain ⟨h1, h2⟩ := scenario_pmt_space_bounds
  have hs : 0 < pmt_space scenario := by linarith
  have hc : cround (2 * topbot_offset scenario / pmt_space scenario) = 7 := by
    rw [scenario_topbot_offset]
    apply cround_eq
    · positivity
    · rw [le_div_iff₀ hs]
      norm_num
      nlinarith
    · rw [div_lt_iff₀ hs]
      norm_num
      nlinarith
  rw [rows, hc]
  rfl

theorem scenario_rdim : rdim scenario = 4 := by
  obtain ⟨h1, h2⟩ := scenario_pmt_space_bounds
  have hs : 0 < pmt_space scenario := by linarith
  rw [rdim, scenario_pmt_radius]
  apply cround_eq
  · positivity
  · rw [le_div_iff₀ hs]
    norm_num
    nlinarith
  · rw [div_lt_iff₀ hs]
    norm_num
    nlinarith

/-- In the scenario a lattice offset passes the test of line 90 exactly when
`i^2 + j^2 <= 9`. -/
theorem scenario_topbotTest (ij : ℤ × ℤ) :
    topbotTest scenario ij ↔ ij.1 * ij.1 + ij.2 * ij.2 ≤ 9 := by
  obtain ⟨h1, h2⟩ := scenario_pmt_space_bounds
  have hk0 : 0 ≤ ij.1 * ij.1 + ij.2 * ij.2 := by
    nlinarith [mul_self_nonneg ij.1, mul_self_nonneg ij.2]
  unfold topbotTest
  rw [scenario_pmt_radius]
  constructor
  · intro h
    by_contra hk
    have hk10 : (10 : ℤ) ≤ ij.1 * ij.1 + ij.2 * ij.2 := by omega
    have hk10r : (10 : ℝ) ≤ ((ij.1 * ij.1 + ij.2 * ij.2 : ℤ) : ℝ) := by exact_mod_cast hk10
    have hsq : (3.16 : ℝ) < Real.sqrt ((ij.1 * ij.1 + ij.2 * ij.2 : ℤ)) := by
      rw [Real.lt_sqrt (by norm_num)]
      norm_num
      norm_num at hk10r
      linarith
    nlinarith
  · intro hk
    have hk9r : ((ij.1 * ij.1 + ij.2 * ij.2 : ℤ) : ℝ) ≤ 9 := by exact_mod_cast hk
    have hsq : Real.sqrt ((ij.1 * ij.1 + ij.2 * ij.2 : ℤ)) ≤ 3 := by
      rw [Real.sqrt_le_left (by norm_num)]
      norm_num
      norm_num at hk9r
      linarith
    have hsq0 := Real.sqrt_nonneg ((ij.1 * ij.1 + ij.2 * ij.2 : ℤ) : ℝ)
    nlinarith

theorem scenario_topbot_count : (topbot scenario).length = 29 := by
  have e : topbot scenario =
      (lattice 4).filter (fun ij => decide (ij.1 * ij.1 + ij.2 * ij.2 ≤ 9)) := by
    rw [topbot_eq_filter, scenario_rdim]
    apply List.filter_congr
    intro ij _
    simp only [decide_eq_decide]
    exact scenario_topbotTest ij
  rw [e]
  rfl

theorem scenario_num_pmts : num_pmts scenario = 212 := by
  rw [num_pmts, scenario_cols, scenario_rows, scenario_topbot_count]

theorem scenario_veto_side_z :
    (pmtinfoTable scenario).z (num_pmts scenario + 0 + 0 * veto_rows scenario) =
      veto_space scenario / 2 - 1000 := by
  have h := congrArg Entry.z
    (vetoSide_row scenario 0 0 scenario_veto_cols_pos scenario_veto_rows_pos)
  simp only [PMTInfo.entry] at h
  rw [h, scenario_topbot_offset]
  simp

theorem scenario_topbot_veto_offset : topbot_veto_offset scenario = 1700 := by
  rw [topbot_veto_offset, scenario_topbot_offset, veto_offset]
  norm_num

/-! ### Vectors: lengths, products, options of the position -/

theorem Vec3.mag_smul (a : Vec3) (k : ℝ) : (a.smul k).mag = |k| * a.mag := by
  have e : a.x * k * (a.x * k) + a.y * k * (a.y * k) + a.z * k * (a.z * k) =
      k ^ 2 * (a.x * a.x + a.y * a.y + a.z * a.z) := by ring
  simp only [Vec3.mag, Vec3.smul]
  rw [e, Real.sqrt_mul (sq_nonneg k), Real.sqrt_sq_eq_abs]

theorem Vec3.mag2_pos_of_ne (g t : Vec3) (h : g ≠ t) : 0 < (t.sub g).mag2 := by
  by_contra hn
  have h0 : (t.sub g).mag2 = 0 := le_antisymm (not_lt.1 hn) (Vec3.mag2_nonneg _)
  simp only [Vec3.mag2, Vec3.sub] at h0
  have hx : t.x - g.x = 0 := by
    nlinarith [mul_self_nonneg (t.x - g.x), mul_self_nonneg (t.y - g.y),
      mul_self_nonneg (t.z - g.z)]
  have hy : t.y - g.y = 0 := by
    nlinarith [mul_self_nonneg (t.x - g.x), mul_self_nonneg (t.y - g.y),
      mul_self_nonneg (t.z - g.z)]
  have hz : t.z - g.z = 0 := by
    nlinarith [mul_self_nonneg (t.x - g.x), mul_self_nonneg (t.y - g.y),
      mul_self_nonneg (t.z - g.z)]
  apply h
  cases g
  cases t
  simp only [Vec3.mk.injEq]
  simp only at hx hy hz
  exact ⟨by linarith, by linarith, by linarith⟩

theorem Vec3.dot_cross_self (p d : Vec3) : p.dot (p.cross d) = 0 := by
  simp only [Vec3.dot, Vec3.cross]
  ring

theorem Vec3.dot_unit_cross (p d : Vec3) : p.dot (p.cross d).unit = 0 := by
  have h := Vec3.dot_cross_self p d
  unfold Vec3.unit
  split_ifs
  · simp only [Vec3.dot, Vec3.smul] at h ⊢
    linear_combination (1 / Real.sqrt (p.cross d).mag2) * h
  · exact h

theorem readOptions_position (table : GeoTable) (npos : ℕ) (o : PlaceOptions)
    (h : readOptions table npos = some o) :
    o.parent_coord = decide (table.use_parent_coordinates.getD 0 ≠ 0) ∧
    o.rescale_radius = table.rescale_radius.isSome ∧
    o.new_radius = table.rescale_radius.getD 1 := by
  unfold readOptions at h
  split at h
  · simp at h
  · split at h
    · simp at h
    · simp only [Option.some.injEq] at h
      subst h
      exact ⟨rfl, rfl, rfl⟩

theorem readOptions_point (table : GeoTable) (npos : ℕ) (o : PlaceOptions)
    (h : readOptions table npos = some o)
    (ho : table.orientation = some "point" ∨ table.orientation = none) :
    o.orient_manual = false ∧
    ∃ a b c, table.orient_point = some [a, b, c] ∧ o.orient_point = ⟨a, b, c⟩ := by
  have hr : readOrientation table.orientation = some false := by
    rcases ho with ho | ho
    · rw [ho]
      have hne : ¬ ("point" = "manual") := by decide
      simp [readOrientation, hne]
    · rw [ho]
      rfl
  unfold readOptions at h
  rw [hr] at h
  simp only at h
  split at h
  · simp at h
  · rename_i op hop
    simp only [Option.some.injEq] at h
    subst h
    refine ⟨rfl, ?_⟩
    unfold readOrientPoint at hop
    simp only [Bool.false_eq_true, if_false] at hop
    split at hop
    · rename_i a b c heq
      simp only [Option.some.injEq] at hop
      exact ⟨a, b, c, heq, hop.symm⟩
    · simp at hop

theorem readOptions_pointTable : readOptions pointTable 1 = some pointOptions := by
  have hne : ¬ ("point" = "manual") := by decide
  simp [readOptions, readOrientation, readOrientPoint, pointTable, pointOptions, hne]

/-! ### Standoff frames, field file, scan window -/

theorem frameParams_target :
    frameParams.detector_size_z / 2 - (topbot_offset frameParams + 200 + 2.5) = 200 := by
  norm_num [topbot_offset, frameParams, scenario]

theorem frameParams_position :
    -(frameParams.detector_size_z / 2 + (topbot_offset frameParams + 200 + 2.5)) / 2 = -1900 := by
  norm_num [topbot_offset, frameParams, scenario]

theorem loadLoop_spec (lines : List FieldLine) (cur : FieldLine) (acc : List Vec3 × List Vec3) :
    (loadLoop lines cur acc).1 =
      acc.1 ++ lines.map (fun l => (⟨l.x, l.y, l.z⟩ : Vec3)) ++
        [⟨(lines.getLastD cur).x, (lines.getLastD cur).y, (lines.getLastD cur).z⟩] ∧
    (loadLoop lines cur acc).2 =
      acc.2 ++ lines.map (fun l => (⟨l.bx, l.byy, l.bz⟩ : Vec3)) ++
        [⟨(lines.getLastD cur).bx, (lines.getLastD cur).byy, (lines.getLastD cur).bz⟩] := by
  induction lines generalizing cur acc with
  | nil => simp [loadLoop]
  | cons l ls ih =>
    have h := ih l (acc.1 ++ [⟨l.x, l.y, l.z⟩], acc.2 ++ [⟨l.bx, l.byy, l.bz⟩])
    have hl : (l :: ls).getLastD cur = ls.getLastD l := by
      cases ls <;> simp [List.getLastD]
    rw [loadLoop, hl]
    constructor
    · rw [h.1]
      simp
    · rw [h.2]
      simp

/-- A point that passes the test of line 90 has both coordinates within `rdim`. -/
theorem window_bound (p : Params) (hs : 0 < pmt_space p) (i j : ℤ)
    (ht : topbotTest p (i, j)) : |i| ≤ rdim p := by
  unfold topbotTest at ht
  simp only at ht
  have hi : |(i : ℝ)| ≤ Real.sqrt ((i * i + j * j : ℤ)) := by
    rw [Real.le_sqrt (abs_nonneg _) (by
      have : (0 : ℤ) ≤ i * i + j * j := by nlinarith [mul_self_nonneg i, mul_self_nonneg j]
      exact_mod_cast this)]
    push_cast
    rw [sq_abs]
    nlinarith [mul_self_nonneg (j : ℝ)]
  have h1 : pmt_space p * |(i : ℝ)| ≤ pmt_radius p - pmt_space p / 2 :=
    le_trans (mul_le_mul_of_nonneg_left hi (le_of_lt hs)) ht
  have h2 : |(i : ℝ)| ≤ pmt_radius p / pmt_space p - 1 / 2 := by
    rw [le_sub_iff_add_le, le_div_iff₀ hs]
    nlinarith
  have hx : 0 ≤ pmt_radius p / pmt_space p := by
    have := abs_nonneg (i : ℝ)
    linarith
  have h3 : ((|i| : ℤ) : ℝ) ≤ pmt_radius p / pmt_space p + 1 / 2 := by
    push_cast
    linarith
  rw [rdim, cround, if_pos hx]
  exact Int.le_floor.2 h3

/-- Each of the five frames is written back by the same rule. A frame
whose stored `size[2]` differs from the clearance
`detector_size_z / 2 - (topbot_offset + 202.5)`, which is `veto_thickness_z - 202.5`,
gets `size[2]` = half the clearance and
`position[2] = -(detector_size_z - veto_thickness_z + 202.5) / 2`, values that depend
only on `detector_size_z` and `veto_thickness_z`; its other entries are kept. A frame
whose stored `size[2]` equals the clearance is written back unchanged. -/
theorem frame_writeback (p : Params) (fs : Frames) (f : Frame) :
    adjustFrames p fs =
      ⟨adjustFrame p fs.frame_0, adjustFrame p fs.frame_1, adjustFrame p fs.frame_2,
        adjustFrame p fs.frame_3, adjustFrame p fs.frame_4⟩ ∧
    p.detector_size_z / 2 - (topbot_offset p + 200 + 2.5) = p.veto_thickness_z - 202.5 ∧
    (f.size.getD 2 0 ≠ p.veto_thickness_z - 202.5 →
      (adjustFrame p f).size = f.size.set 2 ((p.veto_thickness_z - 202.5) / 2) ∧
      (adjustFrame p f).position =
        f.position.set 2 (-(p.detector_size_z - p.veto_thickness_z + 202.5) / 2) ∧
      (2 < f.size.length →
        (adjustFrame p f).size.getD 2 0 = (p.veto_thickness_z - 202.5) / 2) ∧
      (2 < f.position.length →
        (adjustFrame p f).position.getD 2 0 =
          -(p.detector_size_z - p.veto_thickness_z + 202.5) / 2)) ∧
    (f.size.getD 2 0 = p.veto_thickness_z - 202.5 → adjustFrame p f = f) := by
  have ht : p.detector_size_z / 2 - (topbot_offset p + 200 + 2.5) =
      p.veto_thickness_z - 202.5 := by
    unfold topbot_offset
    ring
  have hpos : -(p.detector_size_z / 2 + (topbot_offset p + 200 + 2.5)) / 2 =
      -(p.detector_size_z - p.veto_thickness_z + 202.5) / 2 := by
    unfold topbot_offset
    ring
  refine ⟨rfl, ht, ?_, ?_⟩
  · intro hne
    have hs : (adjustFrame p f).size = f.size.set 2 ((p.veto_thickness_z - 202.5) / 2) := by
      unfold adjustFrame
      rw [ht, if_pos hne]
    have hp : (adjustFrame p f).position =
        f.position.set 2 (-(p.detector_size_z - p.veto_thickness_z + 202.5) / 2) := by
      unfold adjustFrame
      rw [ht, hpos, if_pos hne]
    refine ⟨hs, hp, ?_, ?_⟩
    · intro hl
      rw [hs, List.getD_eq_getElem _ _ (by simpa using hl)]
      simp
    · intro hl
      rw [hp, List.getD_eq_getElem _ _ (by simpa using hl)]
      simp
  · intro he
    unfold adjustFrame
    rw [ht, if_neg (by simpa using he)]

/-! ### Doubles with their special values -/

theorem Dbl.signed_of_ne (s : Bool) {v : ℝ} (h : v ≠ 0) : Dbl.signed s v = .fin v := by
  simp [Dbl.signed, h]

theorem Dbl.mul_fin_fin (x y : ℝ) :
    Dbl.mul (.fin x) (.fin y) = Dbl.signed (decide (x < 0) != decide (y < 0)) (x * y) := by
  simp [Dbl.mul, Dbl.isNaN, Dbl.isInf, Dbl.sign, Dbl.val]

theorem Dbl.div_fin_fin (x : ℝ) {y : ℝ} (hy : y ≠ 0) :
    Dbl.div (.fin x) (.fin y) = Dbl.signed (decide (x < 0) != decide (y < 0)) (x / y) := by
  simp [Dbl.div, Dbl.isNaN, Dbl.isInf, Dbl.isZero, Dbl.sign, Dbl.val, hy]

theorem Dbl.sub_fin_fin (x y : ℝ) : Dbl.sub (.fin x) (.fin y) = .fin (x - y) := by
  have h : Dbl.sub (.fin x) (.fin y) =
      Dbl.signed (decide (x = 0) && decide (x < 0) && !decide (y < 0)) (x - y) := by
    simp [Dbl.sub, Dbl.isNaN, Dbl.isInf, Dbl.isZero, Dbl.sign, Dbl.val]
  rw [h]
  by_cases hx : x = 0
  · subst hx
    simp [Dbl.signed]
  · simp [Dbl.signed, hx]

theorem Dbl.div_pos_zero {x : ℝ} (hx : 0 < x) : Dbl.div (.fin x) (.fin 0) = .posInf := by
  have h1 : ¬ x < 0 := not_lt.2 (le_of_lt hx)
  simp [Dbl.div, Dbl.isNaN, Dbl.isInf, Dbl.isZero, Dbl.sign, Dbl.infinity, ne_of_gt hx, h1]

theorem Dbl.div_zero_zero : Dbl.div (.fin 0) (.fin 0) = .nan := by
  simp [Dbl.div, Dbl.isNaN, Dbl.isInf, Dbl.isZero]

theorem Dbl.div_zero_negZero : Dbl.div (.fin 0) .negZero = .nan := by
  simp [Dbl.div, Dbl.isNaN, Dbl.isInf, Dbl.isZero]

theorem Dbl.div_pos_negZero {x : ℝ} (hx : 0 < x) : Dbl.div (.fin x) .negZero = .negInf := by
  have h1 : ¬ x < 0 := not_lt.2 (le_of_lt hx)
  simp [Dbl.div, Dbl.isNaN, Dbl.isInf, Dbl.isZero, Dbl.sign, Dbl.infinity, ne_of_gt hx, h1]

theorem Dbl.div_nan (a : Dbl) : Dbl.div a .nan = .nan := by
  simp [Dbl.div, Dbl.isNaN]

theorem Dbl.posInf_div_two : Dbl.div .posInf (.fin 2) = .posInf := by
  simp [Dbl.div, Dbl.isNaN, Dbl.isInf, Dbl.isZero, Dbl.sign, Dbl.infinity]

theorem Dbl.fin_sub_posInf (x : ℝ) : Dbl.sub (.fin x) .posInf = .negInf := by
  simp [Dbl.sub, Dbl.isNaN, Dbl.isInf, Dbl.sign, Dbl.infinity]

theorem cround_zero : cround 0 = 0 := by
  rw [cround, if_pos (le_refl _), Int.floor_eq_iff]
  norm_num

theorem Dbl.round_zero : Dbl.round (.fin 0) = .fin 0 := by
  simp [Dbl.round, Dbl.signed, cround_zero]

/-- A finite number divided by `+inf`, rounded and converted to `size_t`, is 0. -/
theorem Dbl.toSize_round_div_posInf (x : ℝ) :
    Dbl.toSize (Dbl.round (Dbl.div (.fin x) .posInf)) = some 0 := by
  have h : Dbl.div (.fin x) .posInf = Dbl.signed (decide (x < 0)) 0 := by
    simp [Dbl.div, Dbl.isNaN, Dbl.isInf, Dbl.isZero, Dbl.sign]
  rw [h]
  by_cases hx : x < 0
  · simp [Dbl.signed, hx, Dbl.round, Dbl.toSize]
  · simp [Dbl.signed, hx, Dbl.round_zero, Dbl.toSize]

/-- A finite number divided by `+inf`, rounded and converted to `int`, is 0. -/
theorem Dbl.toInt_round_div_posInf (x : ℝ) :
    Dbl.toInt (Dbl.round (Dbl.div (.fin x) .posInf)) = some 0 := by
  have h : Dbl.div (.fin x) .posInf = Dbl.signed (decide (x < 0)) 0 := by
    simp [Dbl.div, Dbl.isNaN, Dbl.isInf, Dbl.isZero, Dbl.sign]
  rw [h]
  by_cases hx : x < 0
  · simp [Dbl.signed, hx, Dbl.round, Dbl.toInt]
  · simp [Dbl.signed, hx, Dbl.round_zero, Dbl.toInt]

/-- The product of `+inf` and a non-negative finite number is NaN or `+inf`, and
neither is `<=` the difference of a finite number and `+inf`. -/
theorem Dbl.not_posInf_mul_le (t x : ℝ) (ht : 0 ≤ t) :
    ¬ Dbl.le (Dbl.mul .posInf (.fin t)) (Dbl.sub (.fin x) (Dbl.div .posInf (.fin 2))) := by
  rw [Dbl.posInf_div_two, Dbl.fin_sub_posInf]
  by_cases h0 : t = 0
  · subst h0
    simp [Dbl.mul, Dbl.isNaN, Dbl.isInf, Dbl.isZero, Dbl.le]
  · have h1 : ¬ t < 0 := not_lt.2 ht
    simp [Dbl.mul, Dbl.isNaN, Dbl.isInf, Dbl.isZero, Dbl.sign, Dbl.infinity, h0, h1, Dbl.le]


/-! ### The counts over `Dbl`: a regular input -/

/-- The count of lines 59-60 (64-65) is the finite number `ceil(fl(fl(c A) / u))`
unless that ceiling is 0. -/
theorem count_fin {c A u : ℝ} (hcA : c * A ≠ 0) (hu : u ≠ 0)
    (hn : ⌈fl (fl (c * A) / u)⌉ ≠ 0) :
    Dbl.ceil (Dbl.fl (Dbl.div (Dbl.fl (Dbl.mul (.fin c) (.fin A))) (.fin u))) =
      .fin ((⌈fl (fl (c * A) / u)⌉ : ℤ) : ℝ) := by
  have hq : fl (c * A) / u ≠ 0 := div_ne_zero (fl_ne_zero hcA) hu
  have hn2 : ((⌈fl (fl (c * A) / u)⌉ : ℤ) : ℝ) ≠ 0 := by exact_mod_cast hn
  rw [Dbl.mul_fin_fin, Dbl.signed_of_ne _ hcA]
  simp only [Dbl.fl]
  rw [Dbl.div_fin_fin _ hu, Dbl.signed_of_ne _ hq]
  simp only [Dbl.fl, Dbl.ceil]
  rw [Dbl.signed_of_ne _ hn2]

/-- A coverage fraction of 0 gives the count `+0`. -/
theorem count_zero_coverage {A u : ℝ} (hA : 0 < A) (hu : 0 < u) :
    Dbl.ceil (Dbl.fl (Dbl.div (Dbl.fl (Dbl.mul (.fin 0) (.fin A))) (.fin u))) = .fin 0 := by
  have hA2 : ¬ A < 0 := not_lt.2 (le_of_lt hA)
  have hu2 : ¬ u < 0 := not_lt.2 (le_of_lt hu)
  have e : Dbl.signed (decide ((0 : ℝ) < 0) != decide (A < 0)) (0 * A) = .fin 0 := by
    simp [Dbl.signed, hA2]
  have e2 : Dbl.div (.fin 0) (.fin u) = .fin 0 := by
    rw [Dbl.div_fin_fin _ (ne_of_gt hu)]
    simp [Dbl.signed, hu2]
  have e3 : Dbl.fl (.fin 0) = .fin 0 := by
    simp [Dbl.fl, fl_zero]
  rw [Dbl.mul_fin_fin, e, e3, e2, e3]
  simp [Dbl.ceil, Dbl.signed]

/-- A positive area divided by the count `+0` is `+inf`, and so is its square root. -/
theorem space_zero_count {A : ℝ} (hA : 0 < A) :
    Dbl.sqrt (Dbl.div (.fin A) (.fin 0)) = .posInf := by
  rw [Dbl.div_pos_zero hA]
  rfl

/-- With a negative coverage fraction (positive areas) the spacing is NaN: the count is
`-0`, the quotient `-inf`, or the count is negative and so is the quotient. -/
theorem space_nan_of_neg {c A u A2 : ℝ} (hc : c < 0) (hA : 0 < A) (hu : 0 < u)
    (hA2 : 0 < A2) :
    Dbl.sqrt (Dbl.div (.fin A2)
      (Dbl.ceil (Dbl.fl (Dbl.div (Dbl.fl (Dbl.mul (.fin c) (.fin A))) (.fin u))))) =
        .nan := by
  have hcA : c * A < 0 := mul_neg_of_neg_of_pos hc hA
  have hf : fl (c * A) < 0 := fl_neg_of_neg hcA
  have hq : fl (c * A) / u < 0 := div_neg_of_neg_of_pos hf hu
  have hq2 : fl (fl (c * A) / u) < 0 := fl_neg_of_neg hq
  rw [Dbl.mul_fin_fin, Dbl.signed_of_ne _ (ne_of_lt hcA)]
  simp only [Dbl.fl]
  rw [Dbl.div_fin_fin _ (ne_of_gt hu), Dbl.signed_of_ne _ (ne_of_lt hq)]
  simp only [Dbl.fl, Dbl.ceil]
  have hle : ⌈fl (fl (c * A) / u)⌉ ≤ 0 := Int.ceil_le.2 (by simpa using le_of_lt hq2)
  by_cases h0 : ⌈fl (fl (c * A) / u)⌉ = 0
  · rw [h0]
    have e : Dbl.signed (decide (fl (fl (c * A) / u) < 0)) ((0 : ℤ) : ℝ) = .negZero := by
      simp [Dbl.signed, hq2]
    rw [e, Dbl.div_pos_negZero hA2]
    rfl
  · have hn : ((⌈fl (fl (c * A) / u)⌉ : ℤ) : ℝ) < 0 := by
      have : ⌈fl (fl (c * A) / u)⌉ < 0 := lt_of_le_of_ne hle h0
      exact_mod_cast this
    have hAn : A2 / ((⌈fl (fl (c * A) / u)⌉ : ℤ) : ℝ) < 0 := div_neg_of_pos_of_neg hA2 hn
    rw [Dbl.signed_of_ne _ (ne_of_lt hn), Dbl.div_fin_fin _ (ne_of_lt hn),
      Dbl.signed_of_ne _ (ne_of_lt hAn)]
    simp [Dbl.sqrt, hAn]

/-- With an instrumented area of 0 the count is one of the two zeros. -/
theorem count_zero_area {c u : ℝ} (hu : 0 < u) :
    Dbl.ceil (Dbl.fl (Dbl.div (Dbl.fl (Dbl.mul (.fin c) (.fin 0))) (.fin u))) = .fin 0 ∨
    Dbl.ceil (Dbl.fl (Dbl.div (Dbl.fl (Dbl.mul (.fin c) (.fin 0))) (.fin u))) =
      .negZero := by
  have hu2 : ¬ u < 0 := not_lt.2 (le_of_lt hu)
  have e3 : Dbl.fl (.fin 0) = .fin 0 := by
    simp [Dbl.fl, fl_zero]
  have e4 : Dbl.fl .negZero = .negZero := rfl
  rw [Dbl.mul_fin_fin]
  by_cases hc : c < 0
  · have e : Dbl.signed (decide (c < 0) != decide ((0 : ℝ) < 0)) (c * 0) = .negZero := by
      simp [Dbl.signed, hc]
    have e2 : Dbl.div .negZero (.fin u) = .negZero := by
      simp [Dbl.div, Dbl.isNaN, Dbl.isInf, Dbl.isZero, Dbl.sign, Dbl.val, Dbl.signed,
        ne_of_gt hu, hu2]
    rw [e, e4, e2, e4]
    exact Or.inr rfl
  · have e : Dbl.signed (decide (c < 0) != decide ((0 : ℝ) < 0)) (c * 0) = .fin 0 := by
      simp [Dbl.signed, hc]
    have e2 : Dbl.div (.fin 0) (.fin u) = .fin 0 := by
      rw [Dbl.div_fin_fin _ (ne_of_gt hu)]
      simp [Dbl.signed, hu2]
    have e5 : Dbl.ceil (.fin 0) = .fin 0 := by
      simp [Dbl.ceil, Dbl.signed]
    rw [e, e3, e2, e3, e5]
    exact Or.inl rfl

/-- With an instrumented area of 0 the count is a zero and the spacing is the square
root of `0 / 0`, NaN. -/
theorem space_nan_of_zero_area {c u : ℝ} (hu : 0 < u) :
    Dbl.sqrt (Dbl.div (.fin 0)
      (Dbl.ceil (Dbl.fl (Dbl.div (Dbl.fl (Dbl.mul (.fin c) (.fin 0))) (.fin u))))) =
        .nan := by
  have hu2 : ¬ u < 0 := not_lt.2 (le_of_lt hu)
  have e3 : Dbl.fl (.fin 0) = .fin 0 := by
    simp [Dbl.fl, fl_zero]
  have e4 : Dbl.fl .negZero = .negZero := rfl
  rw [Dbl.mul_fin_fin]
  by_cases hc : c < 0
  · have e : Dbl.signed (decide (c < 0) != decide ((0 : ℝ) < 0)) (c * 0) = .negZero := by
      simp [Dbl.signed, hc]
    have e2 : Dbl.div .negZero (.fin u) = .negZero := by
      simp [Dbl.div, Dbl.isNaN, Dbl.isInf, Dbl.isZero, Dbl.sign, Dbl.val, Dbl.signed,
        ne_of_gt hu, hu2]
    rw [e, e4, e2, e4]
    simp only [Dbl.ceil]
    rw [Dbl.div_zero_negZero]
    rfl
  · have e : Dbl.signed (decide (c < 0) != decide ((0 : ℝ) < 0)) (c * 0) = .fin 0 := by
      simp [Dbl.signed, hc]
    have e2 : Dbl.div (.fin 0) (.fin u) = .fin 0 := by
      rw [Dbl.div_fin_fin _ (ne_of_gt hu)]
      simp [Dbl.signed, hu2]
    have e5 : Dbl.ceil (.fin 0) = .fin 0 := by
      simp [Dbl.ceil, Dbl.signed]
    rw [e, e3, e2, e3, e5, Dbl.div_zero_zero]
    rfl

/-- Dividing by a NaN spacing and converting the rounded quotient is undefined. -/
theorem Dbl.toSize_round_div_nan (a : Dbl) : Dbl.toSize (Dbl.round (Dbl.div a .nan)) = none := by
  rw [Dbl.div_nan]
  rfl

theorem Dbl.toInt_round_div_nan (a : Dbl) : Dbl.toInt (Dbl.round (Dbl.div a .nan)) = none := by
  rw [Dbl.div_nan]
  rfl

theorem Dbl.signed_ne_posInf (s : Bool) (v : ℝ) : Dbl.signed s v ≠ .posInf := by
  unfold Dbl.signed
  split_ifs <;> simp

theorem Dbl.signed_ne_negInf (s : Bool) (v : ℝ) : Dbl.signed s v ≠ .negInf := by
  unfold Dbl.signed
  split_ifs <;> simp

theorem Dbl.sqrt_ne_negInf (a : Dbl) : Dbl.sqrt a ≠ .negInf := by
  cases a with
  | fin x =>
    simp only [Dbl.sqrt]
    split_ifs <;> simp
  | negZero => simp [Dbl.sqrt]
  | posInf => simp [Dbl.sqrt]
  | negInf => simp [Dbl.sqrt]
  | nan => simp [Dbl.sqrt]

/-- The right-hand side `pmt_radius - pmt_space / 2.0` of the tests is never `+inf`
when `pmt_space` is a square root. -/
theorem Dbl.sub_half_ne_posInf (x : ℝ) (a : Dbl) (ha : a ≠ .negInf) :
    Dbl.sub (.fin x) (Dbl.div a (.fin 2)) ≠ .posInf := by
  cases a with
  | fin y =>
    rw [Dbl.div_fin_fin _ (by norm_num : (2 : ℝ) ≠ 0)]
    unfold Dbl.signed
    split_ifs
    · simp [Dbl.sub, Dbl.isNaN, Dbl.isInf, Dbl.isZero, Dbl.sign, Dbl.val, Dbl.signed]
    · rw [Dbl.sub_fin_fin]
      simp
  | negZero =>
    have e : Dbl.div .negZero (.fin 2) = .negZero := by
      simp [Dbl.div, Dbl.isNaN, Dbl.isInf, Dbl.isZero, Dbl.sign, Dbl.val, Dbl.signed]
    rw [e]
    simp [Dbl.sub, Dbl.isNaN, Dbl.isInf, Dbl.isZero, Dbl.sign, Dbl.val, Dbl.signed]
  | posInf =>
    rw [Dbl.posInf_div_two, Dbl.fin_sub_posInf]
    simp
  | negInf => exact absurd rfl ha
  | nan =>
    simp [Dbl.sub, Dbl.div, Dbl.isNaN]

/-- The product of `+inf` and a non-negative finite number is not `<=` a value other
than `+inf`. -/
theorem Dbl.not_posInf_mul_le_of_ne (t : ℝ) (ht : 0 ≤ t) (b : Dbl) (hb : b ≠ .posInf) :
    ¬ Dbl.le (Dbl.mul .posInf (.fin t)) b := by
  by_cases h0 : t = 0
  · subst h0
    simp [Dbl.mul, Dbl.isNaN, Dbl.isInf, Dbl.isZero, Dbl.le]
  · have h1 : ¬ t < 0 := not_lt.2 ht
    have e : Dbl.mul .posInf (.fin t) = .posInf := by
      simp [Dbl.mul, Dbl.isNaN, Dbl.isInf, Dbl.isZero, Dbl.sign, Dbl.infinity, h0, h1]
    rw [e]
    cases b with
    | fin y => simp [Dbl.le]
    | negZero => simp [Dbl.le]
    | posInf => exact absurd rfl hb
    | negInf => simp [Dbl.le]
    | nan => simp [Dbl.le]

/-- Coverage 0 for the inner array (positive areas): the count is 0, the spacing is
`+inf`, there are no columns, no rows and no retained point. -/
theorem zero_coverage_inner (p : Params) (hc : p.photocathode_coverage = 0)
    (hA64 : 0 < surface_area64 p) (hA : 0 < surface_area p)
    (hu : 0 < photocathode_area64 p) :
    required_pmtsD p = .fin 0 ∧ pmt_spaceD p = .posInf ∧ colsD p = some 0 ∧
    rowsD p = some 0 ∧ rdimD p = some 0 ∧ (∀ ij, ¬ topbotTestD p ij) ∧
    topbotD p = some [] ∧ num_pmtsD p = some 0 := by
  have e1 : required_pmtsD p = .fin 0 := by
    unfold required_pmtsD
    rw [hc, fl_zero]
    exact count_zero_coverage hA64 hu
  have e2 : pmt_spaceD p = .posInf := by
    unfold pmt_spaceD
    rw [e1]
    exact space_zero_count hA
  have e3 : colsD p = some 0 := by
    unfold colsD
    rw [e2]
    exact Dbl.toSize_round_div_posInf _
  have e4 : rowsD p = some 0 := by
    unfold rowsD
    rw [e2]
    exact Dbl.toSize_round_div_posInf _
  have e5 : rdimD p = some 0 := by
    unfold rdimD
    rw [e2]
    exact Dbl.toInt_round_div_posInf _
  have e6 : ∀ ij, ¬ topbotTestD p ij := by
    intro ij
    unfold topbotTestD
    rw [e2]
    exact Dbl.not_posInf_mul_le _ _ (Real.sqrt_nonneg _)
  have e7 : topbotD p = some [] := by
    unfold topbotD
    rw [e5]
    simp only [Option.map_some']
    congr 1
    rw [List.filter_eq_nil_iff]
    intro ij _
    simpa using e6 ij
  refine ⟨e1, e2, e3, e4, e5, e6, e7, ?_⟩
  unfold num_pmtsD
  rw [e3, e4, e7]
  rfl

/-- Coverage 0 for the veto array (positive areas): the count is 0, the spacing is
`+inf`, there are no columns and no rows, and no visited point passes the test. -/
theorem zero_coverage_veto (p : Params) (hc : p.veto_coverage = 0)
    (hA64 : 0 < veto_surface_area64 p) (hA : 0 < veto_surface_area p)
    (hu : 0 < photocathode_area64 p) :
    required_vetosD p = .fin 0 ∧ veto_spaceD p = .posInf ∧ veto_colsD p = some 0 ∧
    veto_rowsD p = some 0 ∧ (∀ ij, ¬ topbotVetoTestD p ij) ∧
    (∀ r, rdimD p = some r → topbot_vetoD p = some [] ∧ num_vetosD p = some 0) := by
  have e1 : required_vetosD p = .fin 0 := by
    unfold required_vetosD
    rw [hc, fl_zero]
    exact count_zero_coverage hA64 hu
  have e2 : veto_spaceD p = .posInf := by
    unfold veto_spaceD
    rw [e1]
    exact space_zero_count hA
  have e3 : veto_colsD p = some 0 := by
    unfold veto_colsD
    rw [e2]
    exact Dbl.toSize_round_div_posInf _
  have e4 : veto_rowsD p = some 0 := by
    unfold veto_rowsD
    rw [e2]
    exact Dbl.toSize_round_div_posInf _
  have e6 : ∀ ij, ¬ topbotVetoTestD p ij := by
    intro ij
    unfold topbotVetoTestD
    rw [e2]
    apply Dbl.not_posInf_mul_le_of_ne _ (Real.sqrt_nonneg _)
    apply Dbl.sub_half_ne_posInf
    unfold pmt_spaceD
    exact Dbl.sqrt_ne_negInf _
  refine ⟨e1, e2, e3, e4, e6, ?_⟩
  intro r hr
  have e7 : topbot_vetoD p = some [] := by
    unfold topbot_vetoD
    rw [hr]
    simp only [Option.map_some']
    congr 1
    rw [List.filter_eq_nil_iff]
    intro ij _
    simpa using e6 ij
  refine ⟨e7, ?_⟩
  unfold num_vetosD
  rw [e3, e4, e7]
  rfl

/-- A NaN spacing of the inner array leaves the numbers of columns and rows, the scan
bound and the unit count undefined. -/
theorem nan_spacing_inner (p : Params) (h : pmt_spaceD p = .nan) :
    colsD p = none ∧ rowsD p = none ∧ rdimD p = none ∧ topbotD p = none ∧
    num_pmtsD p = none := by
  have e3 : colsD p = none := by
    unfold colsD
    rw [h]
    exact Dbl.toSize_round_div_nan _
  have e4 : rowsD p = none := by
    unfold rowsD
    rw [h]
    exact Dbl.toSize_round_div_nan _
  have e5 : rdimD p = none := by
    unfold rdimD
    rw [h]
    exact Dbl.toInt_round_div_nan _
  have e7 : topbotD p = none := by
    unfold topbotD
    rw [e5]
    rfl
  refine ⟨e3, e4, e5, e7, ?_⟩
  unfold num_pmtsD
  rw [e3]

/-- A NaN spacing of the veto array leaves its numbers of columns and rows and its unit
count undefined. -/
theorem nan_spacing_veto (p : Params) (h : veto_spaceD p = .nan) :
    veto_colsD p = none ∧ veto_rowsD p = none ∧ num_vetosD p = none := by
  have e3 : veto_colsD p = none := by
    unfold veto_colsD
    rw [h]
    exact Dbl.toSize_round_div_nan _
  have e4 : veto_rowsD p = none := by
    unfold veto_rowsD
    rw [h]
    exact Dbl.toSize_round_div_nan _
  refine ⟨e3, e4, ?_⟩
  unfold num_vetosD
  rw [e3]


/-! ### The inputs with coverage 0 and 0.001, and the input with a whole quotient -/

theorem zeroCoverage_photocathode_area :
    photocathode_area zeroCoverage = Real.pi * 10000 := by
  simp only [photocathode_area, photocathode_radius, zeroCoverage, scenario,
    List.drop_succ_cons, List.drop_zero, List.foldl_nil, List.headD_cons]
  ring

theorem zeroCoverage_surface_area : surface_area zeroCoverage = Real.pi * 6000000 := by
  have h1 : pmt_radius zeroCoverage = 1000 := by
    norm_num [pmt_radius, zeroCoverage, scenario]
  have h2 : topbot_offset zeroCoverage = 1000 := by
    norm_num [topbot_offset, zeroCoverage, scenario]
  rw [surface_area, h1, h2]
  ring

theorem zeroCoverage_coverage : zeroCoverage.photocathode_coverage = 0 := rfl

theorem zeroCoverage_surface_area_pos : 0 < surface_area zeroCoverage := by
  rw [zeroCoverage_surface_area]
  positivity

theorem zeroCoverage_photocathode_area_pos : 0 < photocathode_area zeroCoverage := by
  rw [zeroCoverage_photocathode_area]
  positivity

theorem zeroCoverage_surface_area64_pos : 0 < surface_area64 zeroCoverage := by
  have e : surface_area64 zeroCoverage = surface_area64 scenario := rfl
  rw [e, scenario_surface_area64]
  norm_num

theorem zeroCoverage_photocathode_area64_pos : 0 < photocathode_area64 zeroCoverage := by
  have e : photocathode_area64 zeroCoverage = photocathode_area64 scenario := rfl
  rw [e, scenario_photocathode_area64]
  norm_num

theorem lowCoverage_pmt_radius : pmt_radius lowCoverage = 1000 := by
  norm_num [pmt_radius, lowCoverage, scenario]

theorem lowCoverage_topbot_offset : topbot_offset lowCoverage = 1000 := by
  norm_num [topbot_offset, lowCoverage, scenario]

theorem lowCoverage_surface_area : surface_area lowCoverage = Real.pi * 6000000 := by
  rw [surface_area, lowCoverage_pmt_radius, lowCoverage_topbot_offset]
  ring

theorem lowCoverage_required_pmts : required_pmts lowCoverage = 1 := by
  have h : ⌈quotient_pmts lowCoverage⌉ = 1 := by
    rw [lowCoverage_quotient_pmts, Int.ceil_eq_iff]
    norm_num
  rw [required_pmts, h]
  norm_num

theorem lowCoverage_pmt_space_bounds :
    4341 < pmt_space lowCoverage ∧ pmt_space lowCoverage < 4342 := by
  have h1 := Real.pi_gt_d4
  have h2 := Real.pi_lt_d4
  rw [pmt_space, lowCoverage_surface_area, lowCoverage_required_pmts, div_one]
  constructor
  · rw [Real.lt_sqrt (by norm_num)]
    norm_num
    linarith
  · rw [Real.sqrt_lt' (by norm_num)]
    norm_num
    linarith

theorem lowCoverage_rdim : rdim lowCoverage = 0 := by
  obtain ⟨h1, h2⟩ := lowCoverage_pmt_space_bounds
  have hs : 0 < pmt_space lowCoverage := by linarith
  rw [rdim, lowCoverage_pmt_radius]
  apply cround_eq
  · positivity
  · have : (0 : ℝ) ≤ 1000 / pmt_space lowCoverage := by positivity
    norm_num
    linarith
  · rw [div_lt_iff₀ hs]
    norm_num
    linarith

theorem wholeQuotient_pmt_radius : pmt_radius wholeQuotient = 100 := by
  norm_num [pmt_radius, wholeQuotient]

theorem wholeQuotient_topbot_offset : topbot_offset wholeQuotient = 200 := by
  norm_num [topbot_offset, wholeQuotient]

theorem wholeQuotient_photocathode_area :
    photocathode_area wholeQuotient = Real.pi * 2500 := by
  simp only [photocathode_area, photocathode_radius, wholeQuotient,
    List.drop_succ_cons, List.drop_zero, List.foldl_nil, List.headD_cons]
  ring

theorem wholeQuotient_surface_area : surface_area wholeQuotient = Real.pi * 100000 := by
  rw [surface_area, wholeQuotient_pmt_radius, wholeQuotient_topbot_offset]
  ring

theorem wholeQuotient_exact :
    wholeQuotient.photocathode_coverage * surface_area wholeQuotient /
      photocathode_area wholeQuotient = 40 := by
  have hc : wholeQuotient.photocathode_coverage = 1 := rfl
  rw [hc, wholeQuotient_surface_area, wholeQuotient_photocathode_area]
  have := Real.pi_ne_zero
  field_simp
  ring

theorem wholeQuotient_quotient_pmts_eq :
    quotient_pmts wholeQuotient = 40 + 1 / 2 ^ 47 := by
  rw [wholeQuotient_quotient_pmts]
  norm_num

theorem wholeQuotient_required_pmts : required_pmts wholeQuotient = 41 := by
  have h : ⌈quotient_pmts wholeQuotient⌉ = 41 := by
    rw [wholeQuotient_quotient_pmts_eq, Int.ceil_eq_iff]
    norm_num
  rw [required_pmts, h]
  norm_num

theorem Dbl.val_signed (s : Bool) (v : ℝ) : (Dbl.signed s v).val = v := by
  unfold Dbl.signed
  split_ifs with h
  · exact h.1.symm
  · rfl

/-- The value of the count of lines 59-60 (64-65) is `ceil(fl(fl(c A) / u))`, also when
the count is the negative zero. -/
theorem count_val {c A u : ℝ} (hcA : c * A ≠ 0) (hu : u ≠ 0) :
    (Dbl.ceil (Dbl.fl (Dbl.div (Dbl.fl (Dbl.mul (.fin c) (.fin A))) (.fin u)))).val =
      ((⌈fl (fl (c * A) / u)⌉ : ℤ) : ℝ) := by
  have hq : fl (c * A) / u ≠ 0 := div_ne_zero (fl_ne_zero hcA) hu
  rw [Dbl.mul_fin_fin, Dbl.signed_of_ne _ hcA]
  simp only [Dbl.fl]
  rw [Dbl.div_fin_fin _ hu, Dbl.signed_of_ne _ hq]
  simp only [Dbl.fl, Dbl.ceil]
  exact Dbl.val_signed _ _

/-- The ceiling of a quotient that is not positive is not positive, and it is 0
exactly when the quotient is above -1. -/
theorem ceil_of_nonpos {q : ℝ} (hq : q ≤ 0) :
    ((⌈q⌉ : ℤ) : ℝ) ≤ 0 ∧ (((⌈q⌉ : ℤ) : ℝ) = 0 ↔ -1 < q) := by
  have hle : ⌈q⌉ ≤ 0 := Int.ceil_le.2 (by simpa using hq)
  refine ⟨by exact_mod_cast hle, ?_⟩
  constructor
  · intro h0
    have h0z : ⌈q⌉ = 0 := by exact_mod_cast h0
    have := Int.ceil_lt_add_one q
    rw [h0z] at this
    simp only [Int.cast_zero] at this
    linarith
  · intro hgt
    have : ⌈q⌉ = 0 := by
      rw [Int.ceil_eq_iff]
      constructor
      · simpa using hgt
      · simpa using hq
    rw [this]
    simp

theorem negativeCoverage_surface_area64_pos : 0 < surface_area64 negativeCoverage := by
  have e : surface_area64 negativeCoverage = surface_area64 scenario := rfl
  rw [e, scenario_surface_area64]
  norm_num

theorem negativeCoverage_photocathode_area64_pos :
    0 < photocathode_area64 negativeCoverage := by
  have e : photocathode_area64 negativeCoverage = photocathode_area64 scenario := rfl
  rw [e, scenario_photocathode_area64]
  norm_num

theorem negativeCoverage_required_pmtsD :
    required_pmtsD negativeCoverage = .fin (-240) ∧ pmt_spaceD negativeCoverage = .nan ∧
    colsD negativeCoverage = none := by
  have hc : negativeCoverage.photocathode_coverage = -0.4 := rfl
  have hc2 : fl negativeCoverage.photocathode_coverage < 0 :=
    fl_neg_of_neg (by rw [hc]; norm_num)
  have hA := negativeCoverage_surface_area64_pos
  have hu := negativeCoverage_photocathode_area64_pos
  have hs : pmt_spaceD negativeCoverage = .nan :=
    space_nan_of_neg hc2 hA hu negativeCoverage_surface_area_pos
  have hq : ⌈quotient_pmts negativeCoverage⌉ = -240 := by
    rw [negativeCoverage_quotient_pmts, Int.ceil_eq_iff]
    norm_num
  have hn := @count_fin (fl negativeCoverage.photocathode_coverage)
    (surface_area64 negativeCoverage) (photocathode_area64 negativeCoverage)
    (ne_of_lt (mul_neg_of_neg_of_pos hc2 hA)) (ne_of_gt hu)
    (by
      have e : ⌈fl (fl (fl negativeCoverage.photocathode_coverage *
          surface_area64 negativeCoverage) / photocathode_area64 negativeCoverage)⌉ =
          -240 := hq
      rw [e]
      norm_num)
  refine ⟨?_, hs, (nan_spacing_inner negativeCoverage hs).1⟩
  have e : required_pmtsD negativeCoverage =
      .fin ((⌈quotient_pmts negativeCoverage⌉ : ℤ) : ℝ) := hn
  rw [e, hq]
  norm_num

/-! ## The claims -/

/-- C1, as stated, fails: with the coverage fraction 1, the detector diameter 200, the
detector height 400 and `rho_edge = [50]` the coverage, the instrumented area
`100000 pi` and the photocathode area `2500 pi` are positive and the quotient
`c * A / u` is 40, but `DefineDetector` computes the quotient in doubles, `40 + 2^-47`,
and the count `ceil(40 + 2^-47) = 41`: `n - 1 < c * A / u` fails and `n` is not
`ceil(c * A / u)`. -/
theorem required_count_bounds_counterexample :
    0 < wholeQuotient.photocathode_coverage ∧ 0 < surface_area wholeQuotient ∧
    0 < photocathode_area wholeQuotient ∧
    wholeQuotient.photocathode_coverage * surface_area wholeQuotient /
      photocathode_area wholeQuotient = 40 ∧
    quotient_pmts wholeQuotient = 40 + 1 / 2 ^ 47 ∧ required_pmts wholeQuotient = 41 ∧
    ¬ (required_pmts wholeQuotient - 1 <
      wholeQuotient.photocathode_coverage * surface_area wholeQuotient /
        photocathode_area wholeQuotient) ∧
    required_pmts wholeQuotient ≠
      ((⌈wholeQuotient.photocathode_coverage * surface_area wholeQuotient /
        photocathode_area wholeQuotient⌉ : ℤ) : ℝ) := by
  have hc : (0 : ℝ) < wholeQuotient.photocathode_coverage := by
    have e : wholeQuotient.photocathode_coverage = 1 := rfl
    rw [e]
    norm_num
  have hA : 0 < surface_area wholeQuotient := by
    rw [wholeQuotient_surface_area]
    positivity
  have hu : 0 < photocathode_area wholeQuotient := by
    rw [wholeQuotient_photocathode_area]
    positivity
  refine ⟨hc, hA, hu, wholeQuotient_exact, wholeQuotient_quotient_pmts_eq,
    wholeQuotient_required_pmts, ?_, ?_⟩
  · rw [wholeQuotient_exact, wholeQuotient_required_pmts]
    norm_num
  · rw [wholeQuotient_exact, wholeQuotient_required_pmts]
    norm_num

/-- C1, amended: the required unit counts `required_pmts` (inner array) and
`required_vetos` (veto array) of `DefineDetector` are the ceilings of the quotients as
the double arithmetic of lines 27-65 delivers them: each count is a whole number, at
least the computed quotient and less than the computed quotient plus 1. -/
theorem required_count_bounds (p : Params) :
    ((∃ k : ℤ, required_pmts p = (k : ℝ)) ∧ required_pmts p ≥ quotient_pmts p ∧
      required_pmts p - 1 < quotient_pmts p) ∧
    ((∃ k : ℤ, required_vetos p = (k : ℝ)) ∧ required_vetos p ≥ quotient_vetos p ∧
      required_vetos p - 1 < quotient_vetos p) := by
  refine ⟨⟨⟨⌈quotient_pmts p⌉, rfl⟩, Int.le_ceil _, ?_⟩,
    ⟨⟨⌈quotient_vetos p⌉, rfl⟩, Int.le_ceil _, ?_⟩⟩
  · have := Int.ceil_lt_add_one (quotient_pmts p)
    unfold required_pmts
    linarith
  · have := Int.ceil_lt_add_one (quotient_vetos p)
    unfold required_vetos
    linarith

/-- C3: for the `i`-th retained lattice point of the inner array the top record is at
`idx = rows * cols + 2 i` and the bottom record at `idx + 1`; both are at
`(pmt_space * i, pmt_space * j)`, so they share `x` and `y`, and their `z` are
`topbot_offset` and `-topbot_offset`. The same holds for the veto array at
`idx = num_pmts + veto_rows * veto_cols + 2 i`, with `veto_space` and
`topbot_veto_offset`. -/
theorem endcap_pairing (p : Params) (i : ℕ) :
    (i < (topbot p).length →
      (pmtinfoTable p).x (rows p * cols p + i * 2) =
          pmt_space p * (((topbot p).getD i (0, 0)).1 : ℝ) ∧
      (pmtinfoTable p).y (rows p * cols p + i * 2) =
          pmt_space p * (((topbot p).getD i (0, 0)).2 : ℝ) ∧
      (pmtinfoTable p).x (rows p * cols p + i * 2 + 1) =
          (pmtinfoTable p).x (rows p * cols p + i * 2) ∧
      (pmtinfoTable p).y (rows p * cols p + i * 2 + 1) =
          (pmtinfoTable p).y (rows p * cols p + i * 2) ∧
      (pmtinfoTable p).z (rows p * cols p + i * 2) = topbot_offset p ∧
      (pmtinfoTable p).z (rows p * cols p + i * 2 + 1) = -topbot_offset p ∧
      (pmtinfoTable p).z (rows p * cols p + i * 2 + 1) =
          -(pmtinfoTable p).z (rows p * cols p + i * 2)) ∧
    (i < (topbot_veto p).length →
      (pmtinfoTable p).x (num_pmts p + veto_rows p * veto_cols p + i * 2) =
          veto_space p * (((topbot_veto p).getD i (0, 0)).1 : ℝ) ∧
      (pmtinfoTable p).y (num_pmts p + veto_rows p * veto_cols p + i * 2) =
          veto_space p * (((topbot_veto p).getD i (0, 0)).2 : ℝ) ∧
      (pmtinfoTable p).x (num_pmts p + veto_rows p * veto_cols p + i * 2 + 1) =
          (pmtinfoTable p).x (num_pmts p + veto_rows p * veto_cols p + i * 2) ∧
      (pmtinfoTable p).y (num_pmts p + veto_rows p * veto_cols p + i * 2 + 1) =
          (pmtinfoTable p).y (num_pmts p + veto_rows p * veto_cols p + i * 2) ∧
      (pmtinfoTable p).z (num_pmts p + veto_rows p * veto_cols p + i * 2) =
          topbot_veto_offset p ∧
      (pmtinfoTable p).z (num_pmts p + veto_rows p * veto_cols p + i * 2 + 1) =
          -topbot_veto_offset p ∧
      (pmtinfoTable p).z (num_pmts p + veto_rows p * veto_cols p + i * 2 + 1) =
          -(pmtinfoTable p).z (num_pmts p + veto_rows p * veto_cols p + i * 2)) := by
  constructor
  · intro hi
    have ht := innerCap_top_row p i hi
    have hb := innerCap_bottom_row p i hi
    have htx := congrArg Entry.x ht
    have hty := congrArg Entry.y ht
    have htz := congrArg Entry.z ht
    have hbx := congrArg Entry.x hb
    have hby := congrArg Entry.y hb
    have hbz := congrArg Entry.z hb
    simp only [PMTInfo.entry] at htx hty htz hbx hby hbz
    refine ⟨htx, hty, ?_, ?_, htz, hbz, ?_⟩
    · rw [hbx, htx]
    · rw [hby, hty]
    · rw [hbz, htz]
  · intro hi
    have ht := vetoCap_top_row p i hi
    have hb := vetoCap_bottom_row p i hi
    have htx := congrArg Entry.x ht
    have hty := congrArg Entry.y ht
    have htz := congrArg Entry.z ht
    have hbx := congrArg Entry.x hb
    have hby := congrArg Entry.y hb
    have hbz := congrArg Entry.z hb
    simp only [PMTInfo.entry] at htx hty htz hbx hby hbz
    refine ⟨htx, hty, ?_, ?_, htz, hbz, ?_⟩
    · rw [hbx, htx]
    · rw [hby, hty]
    · rw [hbz, htz]

/-- In the scenario both arrays retain a lattice point, and the first inner pair has
opposite `z`. -/
theorem endcap_pairing_witness :
    0 < (topbot scenario).length ∧ 0 < (topbot_veto scenario).length ∧
    (pmtinfoTable scenario).z (rows scenario * cols scenario + 0 * 2 + 1) =
      -(pmtinfoTable scenario).z (rows scenario * cols scenario + 0 * 2) ∧
    (pmtinfoTable scenario).z
        (num_pmts scenario + veto_rows scenario * veto_cols scenario + 0 * 2 + 1) =
      -(pmtinfoTable scenario).z
        (num_pmts scenario + veto_rows scenario * veto_cols scenario + 0 * 2) :=
  ⟨scenario_topbot_length, scenario_topbot_veto_length,
    ((endcap_pairing scenario 0).1 scenario_topbot_length).2.2.2.2.2.2,
    ((endcap_pairing scenario 0).2 scenario_topbot_veto_length).2.2.2.2.2.2⟩

/-- C4: in each array (inner: base 0, `rows`, `cols`, `topbot`; veto: base `num_pmts`,
`veto_rows`, `veto_cols`, `topbot_veto`) the side-wall unit of `(col, row)` is stored
at `base + row + col * rows`, the pair of the `i`-th retained point at
`base + rows * cols + 2 i` and the next index; every unit's index lies in
`[base, base + cols * rows + 2 * retained)`, two different units have different
indices and every index of that range is the index of a unit; the unit counts are
`cols * rows + 2 * retained`; the retained points are listed in scan order (`i`
outer, `j` inner): `topbot` and `topbot_veto` are the scan list filtered by their
tests. -/
theorem output_order (p : Params) :
    (∀ s : Slot, s.valid (rows p) (cols p) (topbot p).length →
      (pmtinfoTable p).entry (s.index 0 (rows p) (cols p)) = innerUnit p s ∧
      s.index 0 (rows p) (cols p) < num_pmts p) ∧
    (∀ s s2 : Slot, s.valid (rows p) (cols p) (topbot p).length →
      s2.valid (rows p) (cols p) (topbot p).length →
      s.index 0 (rows p) (cols p) = s2.index 0 (rows p) (cols p) → s = s2) ∧
    (∀ k, k < num_pmts p →
      ∃ s : Slot, s.valid (rows p) (cols p) (topbot p).length ∧
        s.index 0 (rows p) (cols p) = k) ∧
    num_pmts p = cols p * rows p + 2 * (topbot p).length ∧
    (∀ s : Slot, s.valid (veto_rows p) (veto_cols p) (topbot_veto p).length →
      (pmtinfoTable p).entry (s.index (num_pmts p) (veto_rows p) (veto_cols p)) = vetoUnit p s ∧
      num_pmts p ≤ s.index (num_pmts p) (veto_rows p) (veto_cols p) ∧
      s.index (num_pmts p) (veto_rows p) (veto_cols p) < num_pmts p + num_vetos p) ∧
    (∀ s s2 : Slot, s.valid (veto_rows p) (veto_cols p) (topbot_veto p).length →
      s2.valid (veto_rows p) (veto_cols p) (topbot_veto p).length →
      s.index (num_pmts p) (veto_rows p) (veto_cols p) =
        s2.index (num_pmts p) (veto_rows p) (veto_cols p) → s = s2) ∧
    (∀ k, num_pmts p ≤ k → k < num_pmts p + num_vetos p →
      ∃ s : Slot, s.valid (veto_rows p) (veto_cols p) (topbot_veto p).length ∧
        s.index (num_pmts p) (veto_rows p) (veto_cols p) = k) ∧
    num_vetos p = veto_cols p * veto_rows p + 2 * (topbot_veto p).length ∧
    topbot p = (lattice (rdim p)).filter (fun ij => decide (topbotTest p ij)) ∧
    topbot_veto p = (lattice (rdim p)).filter (fun ij => decide (topbotVetoTest p ij)) := by
  refine ⟨?_, ?_, ?_, rfl, ?_, ?_, ?_, rfl, topbot_eq_filter p, topbot_veto_eq_filter p⟩
  · intro s hs
    refine ⟨inner_slot_row p s hs, ?_⟩
    have := (slot_index_range 0 (rows p) (cols p) (topbot p).length s hs).2
    unfold num_pmts
    omega
  · intro s s2 hs hs2 h
    exact slot_index_inj 0 _ _ _ s s2 hs hs2 h
  · intro k hk
    exact slot_index_surj 0 _ _ _ k (Nat.zero_le _) (by unfold num_pmts at hk; omega)
  · intro s hs
    have := slot_index_range (num_pmts p) (veto_rows p) (veto_cols p) (topbot_veto p).length s hs
    exact ⟨veto_slot_row p s hs, this.1, this.2⟩
  · intro s s2 hs hs2 h
    exact slot_index_inj (num_pmts p) _ _ _ s s2 hs hs2 h
  · intro k h1 h2
    exact slot_index_surj (num_pmts p) _ _ _ k h1 h2

/-- In the scenario the side-wall cell `(0, 0)` of the inner array is a unit, stored
at index 0 of the table. -/
theorem output_order_witness :
    (Slot.side 0 0).valid (rows scenario) (cols scenario) (topbot scenario).length ∧
    (pmtinfoTable scenario).entry
        ((Slot.side 0 0).index 0 (rows scenario) (cols scenario)) =
      innerUnit scenario (Slot.side 0 0) :=
  ⟨⟨scenario_cols_pos, scenario_rows_pos⟩,
    ((output_order scenario).1 (Slot.side 0 0) ⟨scenario_cols_pos, scenario_rows_pos⟩).1⟩

/-- C5: the inner side-wall unit of `(col, row)`, stored at `row + col * rows`, is at
`(pmt_radius cos phi, pmt_radius sin phi)` with `phi = 2 pi (col + 0.5) / cols`, so
`x^2 + y^2 = pmt_radius^2`, and its direction is `(-x / pmt_radius, -y / pmt_radius, 0)`,
of length 1. -/
theorem inner_side_wall (p : Params) (col row : ℕ) (hcol : col < cols p)
    (hrow : row < rows p) :
    (pmtinfoTable p).x (row + col * rows p) =
      pmt_radius p * Real.cos (2 * Real.pi * ((col : ℝ) + 0.5) / (cols p : ℝ)) ∧
    (pmtinfoTable p).y (row + col * rows p) =
      pmt_radius p * Real.sin (2 * Real.pi * ((col : ℝ) + 0.5) / (cols p : ℝ)) ∧
    (pmtinfoTable p).x (row + col * rows p) ^ 2 + (pmtinfoTable p).y (row + col * rows p) ^ 2 =
      pmt_radius p ^ 2 ∧
    (pmtinfoTable p).dir_x (row + col * rows p) =
      -(pmtinfoTable p).x (row + col * rows p) / pmt_radius p ∧
    (pmtinfoTable p).dir_y (row + col * rows p) =
      -(pmtinfoTable p).y (row + col * rows p) / pmt_radius p ∧
    (pmtinfoTable p).dir_z (row + col * rows p) = 0 ∧
    (pmtinfoTable p).dir_x (row + col * rows p) ^ 2 +
      (pmtinfoTable p).dir_y (row + col * rows p) ^ 2 +
      (pmtinfoTable p).dir_z (row + col * rows p) ^ 2 = 1 := by
  have hR : pmt_radius p ≠ 0 := ne_of_gt (cols_pos_radius p (by omega))
  have h := innerSide_row p col row hcol hrow
  have hx := congrArg Entry.x h
  have hy := congrArg Entry.y h
  have hdx := congrArg Entry.dir_x h
  have hdy := congrArg Entry.dir_y h
  have hdz := congrArg Entry.dir_z h
  simp only [PMTInfo.entry] at hx hy hdx hdy hdz
  have hcs := Real.cos_sq_add_sin_sq (2 * Real.pi * ((col : ℝ) + 0.5) / (cols p : ℝ))
  refine ⟨hx, hy, ?_, ?_, ?_, hdz, ?_⟩
  · rw [hx, hy]
    linear_combination pmt_radius p ^ 2 * hcs
  · rw [hdx, hx]
    field_simp
    ring
  · rw [hdy, hy]
    field_simp
    ring
  · rw [hdx, hdy, hdz]
    linear_combination hcs

/-- In the scenario the cell `(0, 0)` is an inner side-wall unit on the cylinder of
radius `pmt_radius`. -/
theorem inner_side_wall_witness :
    0 < cols scenario ∧ 0 < rows scenario ∧
    (pmtinfoTable scenario).x (0 + 0 * rows scenario) ^ 2 +
      (pmtinfoTable scenario).y (0 + 0 * rows scenario) ^ 2 = pmt_radius scenario ^ 2 :=
  ⟨scenario_cols_pos, scenario_rows_pos,
    (inner_side_wall scenario 0 0 scenario_cols_pos scenario_rows_pos).2.2.1⟩

/-- C6: the veto side-wall unit of `(col, row)`, stored at
`num_pmts + row + col * veto_rows`, is at `(veto_radius cos phi, veto_radius sin phi)`
with `phi = 2 pi col / veto_cols`, so `x^2 + y^2 = veto_radius^2`, and its direction is
`(x / veto_radius, y / veto_radius, 0)`, of length 1. -/
theorem veto_side_wall (p : Params) (col row : ℕ) (hcol : col < veto_cols p)
    (hrow : row < veto_rows p) :
    (pmtinfoTable p).x (num_pmts p + row + col * veto_rows p) =
      veto_radius p * Real.cos (2 * Real.pi * (col : ℝ) / (veto_cols p : ℝ)) ∧
    (pmtinfoTable p).y (num_pmts p + row + col * veto_rows p) =
      veto_radius p * Real.sin (2 * Real.pi * (col : ℝ) / (veto_cols p : ℝ)) ∧
    (pmtinfoTable p).x (num_pmts p + row + col * veto_rows p) ^ 2 +
      (pmtinfoTable p).y (num_pmts p + row + col * veto_rows p) ^ 2 = veto_radius p ^ 2 ∧
    (pmtinfoTable p).dir_x (num_pmts p + row + col * veto_rows p) =
      (pmtinfoTable p).x (num_pmts p + row + col * veto_rows p) / veto_radius p ∧
    (pmtinfoTable p).dir_y (num_pmts p + row + col * veto_rows p) =
      (pmtinfoTable p).y (num_pmts p + row + col * veto_rows p) / veto_radius p ∧
    (pmtinfoTable p).dir_z (num_pmts p + row + col * veto_rows p) = 0 ∧
    (pmtinfoTable p).dir_x (num_pmts p + row + col * veto_rows p) ^ 2 +
      (pmtinfoTable p).dir_y (num_pmts p + row + col * veto_rows p) ^ 2 +
      (pmtinfoTable p).dir_z (num_pmts p + row + col * veto_rows p) ^ 2 = 1 := by
  have hR : veto_radius p ≠ 0 := ne_of_gt (veto_cols_pos_radius p (by omega))
  have h := vetoSide_row p col row hcol hrow
  have hx := congrArg Entry.x h
  have hy := congrArg Entry.y h
  have hdx := congrArg Entry.dir_x h
  have hdy := congrArg Entry.dir_y h
  have hdz := congrArg Entry.dir_z h
  simp only [PMTInfo.entry] at hx hy hdx hdy hdz
  have hcs := Real.cos_sq_add_sin_sq (2 * Real.pi * (col : ℝ) / (veto_cols p : ℝ))
  refine ⟨hx, hy, ?_, ?_, ?_, hdz, ?_⟩
  · rw [hx, hy]
    linear_combination veto_radius p ^ 2 * hcs
  · rw [hdx, hx]
    field_simp
  · rw [hdy, hy]
    field_simp
  · rw [hdx, hdy, hdz]
    linear_combination hcs

/-- In the scenario the cell `(0, 0)` is a veto side-wall unit on the cylinder of
radius `veto_radius`. -/
theorem veto_side_wall_witness :
    0 < veto_cols scenario ∧ 0 < veto_rows scenario ∧
    (pmtinfoTable scenario).x (num_pmts scenario + 0 + 0 * veto_rows scenario) ^ 2 +
      (pmtinfoTable scenario).y (num_pmts scenario + 0 + 0 * veto_rows scenario) ^ 2 =
      veto_radius scenario ^ 2 :=
  ⟨scenario_veto_cols_pos, scenario_veto_rows_pos,
    (veto_side_wall scenario 0 0 scenario_veto_cols_pos scenario_veto_rows_pos).2.2.1⟩

/-- C7: a lattice offset `(i, j)` of the scan window `[-rdim, rdim]^2` is put in
`topbot` if and only if `pmt_space * sqrt(i^2 + j^2) <= pmt_radius - pmt_space / 2`,
and it is put there once; the pair generated for the `k`-th entry `(i, j)` of `topbot`
is at `(pmt_space * i, pmt_space * j)` with `(i, j)` in the window, and the distance
of both its units from the axis is at most `pmt_radius - pmt_space / 2`. -/
theorem inner_endcap_retention (p : Params) :
    (∀ i j : ℤ, -rdim p ≤ i → i ≤ rdim p → -rdim p ≤ j → j ≤ rdim p →
      ((i, j) ∈ topbot p ↔
        pmt_space p * Real.sqrt ((i * i + j * j : ℤ)) ≤ pmt_radius p - pmt_space p / 2)) ∧
    (topbot p).Nodup ∧
    (∀ k, k < (topbot p).length →
      (-rdim p ≤ ((topbot p).getD k (0, 0)).1 ∧ ((topbot p).getD k (0, 0)).1 ≤ rdim p) ∧
      (-rdim p ≤ ((topbot p).getD k (0, 0)).2 ∧ ((topbot p).getD k (0, 0)).2 ≤ rdim p) ∧
      (pmtinfoTable p).x (rows p * cols p + k * 2) =
        pmt_space p * (((topbot p).getD k (0, 0)).1 : ℝ) ∧
      (pmtinfoTable p).y (rows p * cols p + k * 2) =
        pmt_space p * (((topbot p).getD k (0, 0)).2 : ℝ) ∧
      (pmtinfoTable p).x (rows p * cols p + k * 2 + 1) =
        pmt_space p * (((topbot p).getD k (0, 0)).1 : ℝ) ∧
      (pmtinfoTable p).y (rows p * cols p + k * 2 + 1) =
        pmt_space p * (((topbot p).getD k (0, 0)).2 : ℝ) ∧
      Real.sqrt ((pmtinfoTable p).x (rows p * cols p + k * 2) *
            (pmtinfoTable p).x (rows p * cols p + k * 2) +
          (pmtinfoTable p).y (rows p * cols p + k * 2) *
            (pmtinfoTable p).y (rows p * cols p + k * 2)) ≤
        pmt_radius p - pmt_space p / 2 ∧
      Real.sqrt ((pmtinfoTable p).x (rows p * cols p + k * 2 + 1) *
            (pmtinfoTable p).x (rows p * cols p + k * 2 + 1) +
          (pmtinfoTable p).y (rows p * cols p + k * 2 + 1) *
            (pmtinfoTable p).y (rows p * cols p + k * 2 + 1)) ≤
        pmt_radius p - pmt_space p / 2) := by
  refine ⟨?_, topbot_nodup p, ?_⟩
  · intro i j h1 h2 h3 h4
    rw [mem_topbot, mem_lattice]
    simp only [topbotTest]
    constructor
    · intro h
      exact h.2
    · intro h
      exact ⟨⟨⟨h1, h2⟩, ⟨h3, h4⟩⟩, h⟩
  · intro k hk
    have hmem := (mem_topbot p _).1 (getD_mem (topbot p) (0, 0) k hk)
    have hwin := (mem_lattice _ _).1 hmem.1
    have htest := hmem.2
    unfold topbotTest at htest
    have ht := innerCap_top_row p k hk
    have hb := innerCap_bottom_row p k hk
    have htx := congrArg Entry.x ht
    have hty := congrArg Entry.y ht
    have hbx := congrArg Entry.x hb
    have hby := congrArg Entry.y hb
    simp only [PMTInfo.entry] at htx hty hbx hby
    refine ⟨hwin.1, hwin.2, htx, hty, hbx, hby, ?_, ?_⟩
    · rw [htx, hty, lattice_point_distance (pmt_space_nonneg p)]
      exact htest
    · rw [hbx, hby, lattice_point_distance (pmt_space_nonneg p)]
      exact htest

/-- In the scenario the offset `(0, 0)` is in the scan window and is retained. -/
theorem inner_endcap_retention_witness :
    (-rdim scenario ≤ 0 ∧ 0 ≤ rdim scenario) ∧
    (((0, 0) : ℤ × ℤ) ∈ topbot scenario ↔
      pmt_space scenario * Real.sqrt (((0 : ℤ) * 0 + 0 * 0 : ℤ)) ≤
        pmt_radius scenario - pmt_space scenario / 2) :=
  ⟨⟨neg_nonpos.2 scenario_rdim_nonneg, scenario_rdim_nonneg⟩,
    (inner_endcap_retention scenario).1 0 0 (neg_nonpos.2 scenario_rdim_nonneg)
      scenario_rdim_nonneg (neg_nonpos.2 scenario_rdim_nonneg) scenario_rdim_nonneg⟩

/-- C8: a lattice offset `(i, j)` of the sensor scan window `[-rdim, rdim]^2` is put in
`topbot_veto` if and only if
`veto_space * sqrt(i^2 + j^2) <= pmt_radius - pmt_space / 2` (the bound of the
sensor array), and it is put there once; the pair generated for the `k`-th entry
`(i, j)` is at `(veto_space * i, veto_space * j)` and the distance of both its units
from the axis is at most `pmt_radius - pmt_space / 2`, which is below `pmt_radius`
when the sensor spacing is positive. -/
theorem veto_endcap_retention (p : Params) :
    (∀ i j : ℤ, -rdim p ≤ i → i ≤ rdim p → -rdim p ≤ j → j ≤ rdim p →
      ((i, j) ∈ topbot_veto p ↔
        veto_space p * Real.sqrt ((i * i + j * j : ℤ)) ≤ pmt_radius p - pmt_space p / 2)) ∧
    (topbot_veto p).Nodup ∧
    (∀ k, k < (topbot_veto p).length →
      (-rdim p ≤ ((topbot_veto p).getD k (0, 0)).1 ∧
        ((topbot_veto p).getD k (0, 0)).1 ≤ rdim p) ∧
      (-rdim p ≤ ((topbot_veto p).getD k (0, 0)).2 ∧
        ((topbot_veto p).getD k (0, 0)).2 ≤ rdim p) ∧
      (pmtinfoTable p).x (num_pmts p + veto_rows p * veto_cols p + k * 2) =
        veto_space p * (((topbot_veto p).getD k (0, 0)).1 : ℝ) ∧
      (pmtinfoTable p).y (num_pmts p + veto_rows p * veto_cols p + k * 2) =
        veto_space p * (((topbot_veto p).getD k (0, 0)).2 : ℝ) ∧
      (pmtinfoTable p).x (num_pmts p + veto_rows p * veto_cols p + k * 2 + 1) =
        veto_space p * (((topbot_veto p).getD k (0, 0)).1 : ℝ) ∧
      (pmtinfoTable p).y (num_pmts p + veto_rows p * veto_cols p + k * 2 + 1) =
        veto_space p * (((topbot_veto p).getD k (0, 0)).2 : ℝ) ∧
      Real.sqrt ((pmtinfoTable p).x (num_pmts p + veto_rows p * veto_cols p + k * 2) *
            (pmtinfoTable p).x (num_pmts p + veto_rows p * veto_cols p + k * 2) +
          (pmtinfoTable p).y (num_pmts p + veto_rows p * veto_cols p + k * 2) *
            (pmtinfoTable p).y (num_pmts p + veto_rows p * veto_cols p + k * 2)) ≤
        pmt_radius p - pmt_space p / 2 ∧
      Real.sqrt ((pmtinfoTable p).x (num_pmts p + veto_rows p * veto_cols p + k * 2 + 1) *
            (pmtinfoTable p).x (num_pmts p + veto_rows p * veto_cols p + k * 2 + 1) +
          (pmtinfoTable p).y (num_pmts p + veto_rows p * veto_cols p + k * 2 + 1) *
            (pmtinfoTable p).y (num_pmts p + veto_rows p * veto_cols p + k * 2 + 1)) ≤
        pmt_radius p - pmt_space p / 2) ∧
    (0 < pmt_space p → pmt_radius p - pmt_space p / 2 < pmt_radius p) := by
  refine ⟨?_, topbot_veto_nodup p, ?_, ?_⟩
  · intro i j h1 h2 h3 h4
    rw [mem_topbot_veto, mem_lattice]
    simp only [topbotVetoTest]
    constructor
    · intro h
      exact h.2
    · intro h
      exact ⟨⟨⟨h1, h2⟩, ⟨h3, h4⟩⟩, h⟩
  · intro k hk
    have hmem := (mem_topbot_veto p _).1 (getD_mem (topbot_veto p) (0, 0) k hk)
    have hwin := (mem_lattice _ _).1 hmem.1
    have htest := hmem.2
    unfold topbotVetoTest at htest
    have ht := vetoCap_top_row p k hk
    have hb := vetoCap_bottom_row p k hk
    have htx := congrArg Entry.x ht
    have hty := congrArg Entry.y ht
    have hbx := congrArg Entry.x hb
    have hby := congrArg Entry.y hb
    simp only [PMTInfo.entry] at htx hty hbx hby
    refine ⟨hwin.1, hwin.2, htx, hty, hbx, hby, ?_, ?_⟩
    · rw [htx, hty, lattice_point_distance (veto_space_nonneg p)]
      exact htest
    · rw [hbx, hby, lattice_point_distance (veto_space_nonneg p)]
      exact htest
  · intro h
    linarith

/-- In the scenario the veto array retains a lattice point, the sensor spacing is
positive, and the first veto end-cap unit is within `pmt_radius - pmt_space / 2` of
the axis. -/
theorem veto_endcap_retention_witness :
    0 < (topbot_veto scenario).length ∧ 0 < pmt_space scenario ∧
    Real.sqrt
        ((pmtinfoTable scenario).x
              (num_pmts scenario + veto_rows scenario * veto_cols scenario + 0 * 2) *
            (pmtinfoTable scenario).x
              (num_pmts scenario + veto_rows scenario * veto_cols scenario + 0 * 2) +
          (pmtinfoTable scenario).y
              (num_pmts scenario + veto_rows scenario * veto_cols scenario + 0 * 2) *
            (pmtinfoTable scenario).y
              (num_pmts scenario + veto_rows scenario * veto_cols scenario + 0 * 2)) ≤
      pmt_radius scenario - pmt_space scenario / 2 ∧
    pmt_radius scenario - pmt_space scenario / 2 < pmt_radius scenario :=
  ⟨scenario_topbot_veto_length, scenario_pmt_space.1,
    ((veto_endcap_retention scenario).2.2.1 0 scenario_topbot_veto_length).2.2.2.2.2.2.1,
    (veto_endcap_retention scenario).2.2.2 scenario_pmt_space.1⟩

/-- C9, as stated, fails: with the sensor coverage fraction -0.4 (and the scenario's
positive areas) `DefineDetector` computes the required count
`ceil(-240 - 2^-45) = -240`, not 0; the spacing is then the square root of a negative
number, NaN, and the number of columns is the undefined conversion of NaN to
`size_t`, not 0. -/
theorem zero_count_guard_counterexample :
    negativeCoverage.photocathode_coverage ≤ 0 ∧ 0 < surface_area negativeCoverage ∧
    0 < photocathode_area negativeCoverage ∧
    required_pmts negativeCoverage = -240 ∧ required_pmts negativeCoverage ≠ 0 ∧
    required_pmtsD negativeCoverage = .fin (-240) ∧ pmt_spaceD negativeCoverage = .nan ∧
    colsD negativeCoverage = none := by
  refine ⟨negativeCoverage_coverage_nonpos, negativeCoverage_surface_area_pos,
    negativeCoverage_photocathode_area_pos, negativeCoverage_required_pmts, ?_,
    negativeCoverage_required_pmtsD⟩
  rw [negativeCoverage_required_pmts]
  norm_num

/-- C9, amended: with a positive photocathode area, an array whose coverage fraction is
0 and whose instrumented area is positive gets the required count 0 and no units
(no columns, no rows, no retained end-cap point), but not without a division by zero:
the quotient `area / 0` is `+inf` and so is the spacing. No guard replaces the count:
with a negative coverage fraction the count is the ceiling of a negative quotient,
which is 0 only when the quotient is above -1 (and then the negative zero), with an
instrumented area of 0 the count is a zero, and in both cases the spacing is NaN, so
that the numbers of columns and rows and the unit count are undefined conversions. The
areas are positive (or 0) both as the doubles that enter the count and as the real
numbers that enter the spacing. -/
theorem required_count_unguarded (p : Params) (hu : 0 < photocathode_area64 p) :
    (p.photocathode_coverage = 0 → 0 < surface_area64 p → 0 < surface_area p →
      required_pmtsD p = .fin 0 ∧
      Dbl.div (.fin (surface_area p)) (required_pmtsD p) = .posInf ∧
      pmt_spaceD p = .posInf ∧ colsD p = some 0 ∧ rowsD p = some 0 ∧ rdimD p = some 0 ∧
      topbotD p = some [] ∧ num_pmtsD p = some 0) ∧
    (p.veto_coverage = 0 → 0 < veto_surface_area64 p → 0 < veto_surface_area p →
      required_vetosD p = .fin 0 ∧
      Dbl.div (.fin (veto_surface_area p)) (required_vetosD p) = .posInf ∧
      veto_spaceD p = .posInf ∧ veto_colsD p = some 0 ∧ veto_rowsD p = some 0 ∧
      (∀ ij, ¬ topbotVetoTestD p ij) ∧
      (∀ r, rdimD p = some r → topbot_vetoD p = some [] ∧ num_vetosD p = some 0)) ∧
    (p.photocathode_coverage < 0 → 0 < surface_area64 p → 0 < surface_area p →
      (required_pmtsD p).val = required_pmts p ∧ required_pmts p ≤ 0 ∧
      (required_pmts p = 0 ↔ -1 < quotient_pmts p) ∧
      pmt_spaceD p = .nan ∧ colsD p = none ∧ rowsD p = none ∧ rdimD p = none ∧
      num_pmtsD p = none) ∧
    (p.veto_coverage < 0 → 0 < veto_surface_area64 p → 0 < veto_surface_area p →
      (required_vetosD p).val = required_vetos p ∧ required_vetos p ≤ 0 ∧
      (required_vetos p = 0 ↔ -1 < quotient_vetos p) ∧
      veto_spaceD p = .nan ∧ veto_colsD p = none ∧ veto_rowsD p = none ∧
      num_vetosD p = none) ∧
    (surface_area64 p = 0 → surface_area p = 0 →
      (required_pmtsD p = .fin 0 ∨ required_pmtsD p = .negZero) ∧
      pmt_spaceD p = .nan ∧ colsD p = none ∧ rowsD p = none ∧ rdimD p = none ∧
      num_pmtsD p = none) ∧
    (veto_surface_area64 p = 0 → veto_surface_area p = 0 →
      (required_vetosD p = .fin 0 ∨ required_vetosD p = .negZero) ∧
      veto_spaceD p = .nan ∧ veto_colsD p = none ∧ veto_rowsD p = none ∧
      num_vetosD p = none) := by
  refine ⟨?_, ?_, ?_, ?_, ?_, ?_⟩
  · intro hc hA64 hA
    obtain ⟨e1, e2, e3, e4, e5, _, e7, e8⟩ := zero_coverage_inner p hc hA64 hA hu
    refine ⟨e1, ?_, e2, e3, e4, e5, e7, e8⟩
    rw [e1]
    exact Dbl.div_pos_zero hA
  · intro hc hA64 hA
    obtain ⟨e1, e2, e3, e4, e6, e7⟩ := zero_coverage_veto p hc hA64 hA hu
    refine ⟨e1, ?_, e2, e3, e4, e6, e7⟩
    rw [e1]
    exact Dbl.div_pos_zero hA
  · intro hc hA64 hA
    have hc2 : fl p.photocathode_coverage < 0 := fl_neg_of_neg hc
    have hcA : fl p.photocathode_coverage * surface_area64 p < 0 :=
      mul_neg_of_neg_of_pos hc2 hA64
    have hq : quotient_pmts p < 0 :=
      fl_neg_of_neg (div_neg_of_neg_of_pos (fl_neg_of_neg hcA) hu)
    have hs : pmt_spaceD p = .nan := space_nan_of_neg hc2 hA64 hu hA
    obtain ⟨n1, n2, n3, _, n5⟩ := nan_spacing_inner p hs
    obtain ⟨k1, k2⟩ := @ceil_of_nonpos (quotient_pmts p) (le_of_lt hq)
    exact ⟨count_val (ne_of_lt hcA) (ne_of_gt hu), k1, k2, hs, n1, n2, n3, n5⟩
  · intro hc hA64 hA
    have hc2 : fl p.veto_coverage < 0 := fl_neg_of_neg hc
    have hcA : fl p.veto_coverage * veto_surface_area64 p < 0 :=
      mul_neg_of_neg_of_pos hc2 hA64
    have hq : quotient_vetos p < 0 :=
      fl_neg_of_neg (div_neg_of_neg_of_pos (fl_neg_of_neg hcA) hu)
    have hs : veto_spaceD p = .nan := space_nan_of_neg hc2 hA64 hu hA
    obtain ⟨n1, n2, n3⟩ := nan_spacing_veto p hs
    obtain ⟨k1, k2⟩ := @ceil_of_nonpos (quotient_vetos p) (le_of_lt hq)
    exact ⟨count_val (ne_of_lt hcA) (ne_of_gt hu), k1, k2, hs, n1, n2, n3⟩
  · intro hA64 hA
    have hz : required_pmtsD p = .fin 0 ∨ required_pmtsD p = .negZero := by
      unfold required_pmtsD
      rw [hA64]
      exact count_zero_area hu
    have hs : pmt_spaceD p = .nan := by
      unfold pmt_spaceD required_pmtsD
      rw [hA64, hA]
      exact space_nan_of_zero_area hu
    obtain ⟨n1, n2, n3, _, n5⟩ := nan_spacing_inner p hs
    exact ⟨hz, hs, n1, n2, n3, n5⟩
  · intro hA64 hA
    have hz : required_vetosD p = .fin 0 ∨ required_vetosD p = .negZero := by
      unfold required_vetosD
      rw [hA64]
      exact count_zero_area hu
    have hs : veto_spaceD p = .nan := by
      unfold veto_spaceD required_vetosD
      rw [hA64, hA]
      exact space_nan_of_zero_area hu
    exact ⟨hz, hs, nan_spacing_veto p hs⟩

/-- The scenario with the sensor coverage fraction 0 has positive areas, and there the
inner array has the required count 0, the spacing `+inf` and no units. -/
theorem required_count_unguarded_witness :
    0 < photocathode_area64 zeroCoverage ∧ zeroCoverage.photocathode_coverage = 0 ∧
    0 < surface_area64 zeroCoverage ∧ 0 < surface_area zeroCoverage ∧
    required_pmtsD zeroCoverage = .fin 0 ∧ pmt_spaceD zeroCoverage = .posInf ∧
    num_pmtsD zeroCoverage = some 0 :=
  ⟨zeroCoverage_photocathode_area64_pos, zeroCoverage_coverage,
    zeroCoverage_surface_area64_pos, zeroCoverage_surface_area_pos,
    ((required_count_unguarded zeroCoverage zeroCoverage_photocathode_area64_pos).1
      zeroCoverage_coverage zeroCoverage_surface_area64_pos
      zeroCoverage_surface_area_pos).1,
    ((required_count_unguarded zeroCoverage zeroCoverage_photocathode_area64_pos).1
      zeroCoverage_coverage zeroCoverage_surface_area64_pos
      zeroCoverage_surface_area_pos).2.2.1,
    ((required_count_unguarded zeroCoverage zeroCoverage_photocathode_area64_pos).1
      zeroCoverage_coverage zeroCoverage_surface_area64_pos
      zeroCoverage_surface_area_pos).2.2.2.2.2.2.2⟩

/-- C10, as stated, fails: with the single sample `(10^200, 0, 0)` and the unit at the
origin the sample list is not empty and the Euclidean distance `10^200` is below
`DBL_MAX`, but its square overflows, `mag()` is `+inf`, the test `MinDist > +inf` does
not hold and the scan ends with `imin = -1`: the unit gets no correction. -/
theorem nearest_scan_counterexample :
    ([⟨10 ^ 200, 0, 0⟩] : List Vec3) ≠ [] ∧
    (Vec3.sub ⟨0, 0, 0⟩ ⟨10 ^ 200, 0, 0⟩).mag = 10 ^ 200 ∧ (10 : ℝ) ^ 200 < DBL_MAX ∧
    (Vec3.sub ⟨0, 0, 0⟩ ⟨10 ^ 200, 0, 0⟩).magD = .posInf ∧
    (nearestScan ⟨0, 0, 0⟩ [⟨10 ^ 200, 0, 0⟩]).2 = -1 ∧
    (∀ (CorrBEpsiInput : Bool) (BEffiModel : String) (deltas : ℕ → ℝ × ℝ),
      unitCorrection CorrBEpsiInput BEffiModel deltas ⟨0, 0, 0⟩ [⟨10 ^ 200, 0, 0⟩] = none) := by
  have e : Vec3.sub ⟨0, 0, 0⟩ ⟨10 ^ 200, 0, 0⟩ = ⟨-10 ^ 200, 0, 0⟩ := by
    simp [Vec3.sub]
  have hfar : overflowBound ≤ (Vec3.sub ⟨0, 0, 0⟩
      (([⟨10 ^ 200, 0, 0⟩] : List Vec3).getD 0 ⟨0, 0, 0⟩)).mag2 := by
    have e2 : Vec3.sub ⟨0, 0, 0⟩ (([⟨10 ^ 200, 0, 0⟩] : List Vec3).getD 0 ⟨0, 0, 0⟩) =
        ⟨-10 ^ 200, 0, 0⟩ := by
      simp [Vec3.sub]
    rw [e2, mag2_on_x_axis]
    unfold overflowBound
    norm_num
  have hl : ([⟨10 ^ 200, 0, 0⟩] : List Vec3).length = 0 + 1 := rfl
  have h2 : (nearestScan ⟨0, 0, 0⟩ [⟨10 ^ 200, 0, 0⟩]).2 = -1 := by
    rw [nearestScan, hl, loop_succ, loop_zero, nearestStep_far _ _ _ _ hfar]
  refine ⟨by simp, ?_, ?_, ?_, h2, ?_⟩
  · rw [e, mag_on_x_axis, abs_neg, abs_of_pos (by positivity)]
  · unfold DBL_MAX
    norm_num
  · apply magD_far
    rw [e, mag2_on_x_axis]
    unfold overflowBound
    norm_num
  · intro c m d
    rw [unitCorrection, h2, if_pos (by norm_num)]

/-- C10, amended: for an empty sample list the scan ends with `imin = -1` and the unit
gets no correction; for a sample list with a sample whose squared distance to the unit
position does not overflow (it is below `2^1024 - 2^970`; the distance is then below
`2^512`) it ends with a valid index `imin` such that no sample is closer than sample
`imin` and every earlier sample is strictly farther; if the squared distance of every
sample overflows it ends with `imin = -1` and the unit gets no correction. Samples
`(0,0,0)`, `(100,0,0)` and position `(80,0,0)` give `imin = 1`. -/
theorem nearest_sample_scan (pmtpos : Vec3) (Bpos : List Vec3) :
    (Bpos = [] → (nearestScan pmtpos Bpos).2 = -1 ∧
      ∀ (CorrBEpsiInput : Bool) (BEffiModel : String) (deltas : ℕ → ℝ × ℝ),
        unitCorrection CorrBEpsiInput BEffiModel deltas pmtpos Bpos = none) ∧
    ((∃ b, b ∈ Bpos ∧ (pmtpos.sub b).mag2 < overflowBound) →
      ∃ i : ℕ, i < Bpos.length ∧ (nearestScan pmtpos Bpos).2 = (i : ℤ) ∧
        (nearestScan pmtpos Bpos).1 = (pmtpos.sub (Bpos.getD i ⟨0, 0, 0⟩)).mag ∧
        (pmtpos.sub (Bpos.getD i ⟨0, 0, 0⟩)).mag2 < overflowBound ∧
        (∀ j, j < Bpos.length → (pmtpos.sub (Bpos.getD i ⟨0, 0, 0⟩)).mag ≤
          (pmtpos.sub (Bpos.getD j ⟨0, 0, 0⟩)).mag) ∧
        (∀ j, j < i → (pmtpos.sub (Bpos.getD i ⟨0, 0, 0⟩)).mag <
          (pmtpos.sub (Bpos.getD j ⟨0, 0, 0⟩)).mag)) ∧
    ((∀ b, b ∈ Bpos → overflowBound ≤ (pmtpos.sub b).mag2) →
      (nearestScan pmtpos Bpos).2 = -1 ∧
      ∀ (CorrBEpsiInput : Bool) (BEffiModel : String) (deltas : ℕ → ℝ × ℝ),
        unitCorrection CorrBEpsiInput BEffiModel deltas pmtpos Bpos = none) ∧
    (∀ a : Vec3, a.mag2 < overflowBound → a.mag < 2 ^ 512 ∧ a.mag < DBL_MAX) ∧
    (nearestScan ⟨80, 0, 0⟩ [⟨0, 0, 0⟩, ⟨100, 0, 0⟩]).2 = 1 := by
  refine ⟨?_, ?_, ?_, mag_lt_of_mag2_lt, ?_⟩
  · intro h
    subst h
    have h1 : (nearestScan pmtpos []).2 = -1 := rfl
    refine ⟨h1, ?_⟩
    intro c m d
    rw [unitCorrection, h1, if_pos (by norm_num)]
  · rintro ⟨b, hb, hlt⟩
    rcases nearest_invariant pmtpos Bpos Bpos.length with
      ⟨_, _, hall⟩ | ⟨i, hi, h2, h1, hnear, hmin, hfirst⟩
    · exfalso
      obtain ⟨k, hk, rfl⟩ := List.getElem_of_mem hb
      have := hall k hk
      rw [List.getD_eq_getElem Bpos _ hk] at this
      linarith
    · exact ⟨i, hi, h2, h1, hnear, hmin, hfirst⟩
  · intro hall
    have h2 : (nearestScan pmtpos Bpos).2 = -1 := by
      rcases nearest_invariant pmtpos Bpos Bpos.length with
        ⟨h2, _, _⟩ | ⟨i, hi, _, _, hlt, _, _⟩
      · exact h2
      · exfalso
        have := hall _ (getD_mem Bpos ⟨0, 0, 0⟩ i hi)
        linarith
    refine ⟨h2, ?_⟩
    intro c m d
    rw [unitCorrection, h2, if_pos (by norm_num)]
  · have e0 : Vec3.sub ⟨80, 0, 0⟩ (([⟨0, 0, 0⟩, ⟨100, 0, 0⟩] : List Vec3).getD 0 ⟨0, 0, 0⟩) =
        ⟨80, 0, 0⟩ := by
      simp [Vec3.sub]
    have e1 : Vec3.sub ⟨80, 0, 0⟩ (([⟨0, 0, 0⟩, ⟨100, 0, 0⟩] : List Vec3).getD 1 ⟨0, 0, 0⟩) =
        ⟨-20, 0, 0⟩ := by
      simp [Vec3.sub]
      norm_num
    have n0 : (Vec3.sub ⟨80, 0, 0⟩
        (([⟨0, 0, 0⟩, ⟨100, 0, 0⟩] : List Vec3).getD 0 ⟨0, 0, 0⟩)).mag2 < overflowBound := by
      rw [e0, mag2_on_x_axis]
      unfold overflowBound
      norm_num
    have n1 : (Vec3.sub ⟨80, 0, 0⟩
        (([⟨0, 0, 0⟩, ⟨100, 0, 0⟩] : List Vec3).getD 1 ⟨0, 0, 0⟩)).mag2 < overflowBound := by
      rw [e1, mag2_on_x_axis]
      unfold overflowBound
      norm_num
    have h0 : (Vec3.sub ⟨80, 0, 0⟩
        (([⟨0, 0, 0⟩, ⟨100, 0, 0⟩] : List Vec3).getD 0 ⟨0, 0, 0⟩)).mag = 80 := by
      rw [e0, mag_on_x_axis]
      norm_num
    have h1 : (Vec3.sub ⟨80, 0, 0⟩
        (([⟨0, 0, 0⟩, ⟨100, 0, 0⟩] : List Vec3).getD 1 ⟨0, 0, 0⟩)).mag = 20 := by
      rw [e1, mag_on_x_axis]
      norm_num
    have hl : ([⟨0, 0, 0⟩, ⟨100, 0, 0⟩] : List Vec3).length = 0 + 1 + 1 := rfl
    have hbig : DBL_MAX > 80 := by
      unfold DBL_MAX
      norm_num
    rw [nearestScan, hl, loop_succ, loop_succ, loop_zero]
    rw [nearestStep_near _ _ _ _ n1, nearestStep_near _ _ _ _ n0, h0, h1]
    simp only [if_pos hbig]
    rw [if_pos (by norm_num)]
    norm_num

/-- With the single sample `(0, 0, 0)` and the unit at `(80, 0, 0)` the squared
distance of a sample does not overflow, and the scan returns a valid index. -/
theorem nearest_sample_scan_witness :
    (∃ b, b ∈ ([⟨0, 0, 0⟩] : List Vec3) ∧ (Vec3.sub ⟨80, 0, 0⟩ b).mag2 < overflowBound) ∧
    ∃ i : ℕ, i < ([⟨0, 0, 0⟩] : List Vec3).length ∧
      (nearestScan ⟨80, 0, 0⟩ [⟨0, 0, 0⟩]).2 = (i : ℤ) :=
  have hex : ∃ b, b ∈ ([⟨0, 0, 0⟩] : List Vec3) ∧
      (Vec3.sub ⟨80, 0, 0⟩ b).mag2 < overflowBound :=
    ⟨⟨0, 0, 0⟩, List.mem_singleton.2 rfl, by
      have e : Vec3.sub ⟨80, 0, 0⟩ ⟨0, 0, 0⟩ = ⟨80, 0, 0⟩ := by simp [Vec3.sub]
      rw [e, mag2_on_x_axis]
      unfold overflowBound
      norm_num⟩
  ⟨hex, by
    obtain ⟨i, hi, h2, _⟩ := (nearest_sample_scan ⟨80, 0, 0⟩ [⟨0, 0, 0⟩]).2.1 hex
    exact ⟨i, hi, h2⟩⟩

/-- C11: the raw correction `BeffiComp` is `dx * dy` under the model `multiplicative`
and `dx + dy - 1` under the model `additive`; for `dx = 0.9`, `dy = 0.95` it is
`0.855` and `0.85`. -/
theorem raw_correction (dx dy : ℝ) :
    BeffiComp "multiplicative" dx dy = some (dx * dy) ∧
    BeffiComp "additive" dx dy = some (dx + dy - 1) ∧
    BeffiComp "multiplicative" 0.9 0.95 = some 0.855 ∧
    BeffiComp "additive" 0.9 0.95 = some 0.85 := by
  refine ⟨by simp [BeffiComp], by simp [BeffiComp], ?_, ?_⟩
  · simp only [BeffiComp, if_true, Option.some.injEq]
    norm_num
  · have h : ¬ ("additive" = "multiplicative") := by decide
    simp only [BeffiComp, if_neg h, if_true, Option.some.injEq]
    norm_num

/-- C12: when the model gives the raw value `v`, the value pushed for the unit is
`min v 1` if the key `no_b_efficiency_table_correction` is absent or 0 (so it is at
most 1, and it is `v` itself when `v <= 1`), and it is `v` unchanged if the key is
non-zero. -/
theorem clamp_behaviour (BEffiModel : String) (dx dy v : ℝ) (nocorr : Option ℤ)
    (h : BeffiComp BEffiModel dx dy = some v) :
    ((nocorr = none ∨ nocorr = some 0) →
      efficiencyEntry (CorrBEpsiInput nocorr) BEffiModel dx dy = some (min v 1) ∧
      min v 1 ≤ 1 ∧ (v ≤ 1 → min v 1 = v)) ∧
    (∀ n : ℤ, n ≠ 0 → nocorr = some n →
      efficiencyEntry (CorrBEpsiInput nocorr) BEffiModel dx dy = some v) := by
  constructor
  · intro hn
    have hc : CorrBEpsiInput nocorr = true := by
      rcases hn with hn | hn <;> simp [CorrBEpsiInput, hn]
    refine ⟨?_, min_le_right _ _, fun hv => min_eq_left hv⟩
    rw [efficiencyEntry_eq, h, hc]
    simp only [Option.map_some', true_and, Option.some.injEq]
    by_cases hv : v > 1
    · rw [if_pos hv, min_eq_right (le_of_lt hv)]
    · rw [if_neg hv, min_eq_left (not_lt.1 hv)]
  · intro n hn0 hn
    have hc : CorrBEpsiInput nocorr = false := by
      simp [CorrBEpsiInput, hn, hn0]
    rw [efficiencyEntry_eq, h, hc]
    simp

/-- Under the multiplicative model the deltas 2 and 1 give the raw value 2, which is
clamped to 1 when the key is absent. -/
theorem clamp_behaviour_witness :
    BeffiComp "multiplicative" 2 1 = some 2 ∧
    efficiencyEntry (CorrBEpsiInput none) "multiplicative" 2 1 = some (min 2 1) :=
  have h : BeffiComp "multiplicative" 2 1 = some 2 := by
    simp [BeffiComp]
  ⟨h, ((clamp_behaviour "multiplicative" 2 1 2 none h).1 (Or.inl rfl)).1⟩

/-- C13, as stated, fails: with `orientation = manual`, `flip = 0`, no
`rescale_radius` and `use_parent_coordinates = 1` the stored direction `(0, 0, 2)` is
placed with direction `(0, 0, 1)`. -/
theorem manual_pose_counterexample :
    readOptions manualTable 1 = some manualOptions ∧
    placeDir manualOptions ⟨0, 0, 0⟩ ⟨0, 0, 2⟩ = ⟨0, 0, 1⟩ ∧
    placeDir manualOptions ⟨0, 0, 0⟩ ⟨0, 0, 2⟩ ≠ ⟨0, 0, 2⟩ := by
  have hd : placeDir manualOptions ⟨0, 0, 0⟩ ⟨0, 0, 2⟩ = ⟨0, 0, 1⟩ := by
    have hs : Real.sqrt 4 = 2 := by
      rw [show (4 : ℝ) = 2 ^ 2 by norm_num, Real.sqrt_sq (by norm_num)]
    simp only [placeDir, manualOptions, Vec3.unit, Vec3.mag2, Vec3.smul]
    norm_num [hs]
  refine ⟨?_, hd, ?_⟩
  · simp [readOptions, readOrientation, readOrientPoint, manualTable, manualOptions]
  · rw [hd]
    intro h
    have := congrArg Vec3.z h
    norm_num at this

/-- C13, amended: with `orientation = manual`, `flip = 0`, no `rescale_radius` and
`use_parent_coordinates = 1` the options are read without error, the placed position
is the stored position `p`, and the placed direction is the stored direction `d`
normalised by `unit()`; it is `d` itself when `d` has length 1. -/
theorem manual_pose (table : GeoTable) (npos : ℕ) (offset p d : Vec3)
    (h1 : table.orientation = some "manual") (h2 : table.flip = some 0)
    (h3 : table.rescale_radius = none) (h4 : table.use_parent_coordinates = some 1) :
    ∃ o, readOptions table npos = some o ∧ placePos o offset p = p ∧
      placeDir o (placePos o offset p) d = d.unit ∧
      (d.mag2 = 1 → placeDir o (placePos o offset p) d = d) := by
  refine ⟨_, readOptions_manual table npos h1, ?_, ?_, ?_⟩
  · simp [placePos, h3, h4]
  · simp [placeDir, h2]
  · intro hd
    simp [placeDir, h2, Vec3.unit_of_mag2_one d hd]

/-- The table `manualTable` has the four settings; the unit direction `(0, 0, 1)`
stored at `(1, 2, 3)` is placed unchanged. -/
theorem manual_pose_witness :
    manualTable.orientation = some "manual" ∧ manualTable.flip = some 0 ∧
    manualTable.rescale_radius = none ∧ manualTable.use_parent_coordinates = some 1 ∧
    ∃ o, readOptions manualTable 1 = some o ∧ placePos o ⟨5, 5, 5⟩ ⟨1, 2, 3⟩ = ⟨1, 2, 3⟩ ∧
      placeDir o (placePos o ⟨5, 5, 5⟩ ⟨1, 2, 3⟩) ⟨0, 0, 1⟩ = Vec3.unit ⟨0, 0, 1⟩ ∧
      (Vec3.mag2 ⟨0, 0, 1⟩ = 1 →
        placeDir o (placePos o ⟨5, 5, 5⟩ ⟨1, 2, 3⟩) ⟨0, 0, 1⟩ = ⟨0, 0, 1⟩) :=
  ⟨rfl, rfl, rfl, rfl, manual_pose manualTable 1 ⟨5, 5, 5⟩ ⟨1, 2, 3⟩ ⟨0, 0, 1⟩ rfl rfl rfl rfl⟩

/-- C14: for a direction `d` of length 1 the two angles computed by the placement,
`angle_y = -atan2(d.x, d.z)` and `angle_x = atan2(d.y, sqrt(d.x^2 + d.z^2))`, give the
direction back: `d = (-sin(angle_y) cos(angle_x), sin(angle_x),
cos(angle_y) cos(angle_x))`. -/
theorem angles_reconstruct (d : Vec3) (h : d.mag = 1) :
    angle_y d = -atan2 d.x d.z ∧
    angle_x d = atan2 d.y (Real.sqrt (d.x ^ 2 + d.z ^ 2)) ∧
    d.x = -Real.sin (angle_y d) * Real.cos (angle_x d) ∧
    d.y = Real.sin (angle_x d) ∧
    d.z = Real.cos (angle_y d) * Real.cos (angle_x d) := by
  have h1 := (mag_eq_one_iff d).1 h
  have hxz : 0 ≤ d.x * d.x + d.z * d.z := by
    nlinarith [mul_self_nonneg d.x, mul_self_nonneg d.z]
  have hsq := Real.mul_self_sqrt hxz
  have hone : Real.sqrt (Real.sqrt (d.x * d.x + d.z * d.z) * Real.sqrt (d.x * d.x + d.z * d.z) +
      d.y * d.y) = 1 := by
    rw [hsq, show d.x * d.x + d.z * d.z + d.y * d.y = 1 by linarith, Real.sqrt_one]
  have hsx : Real.sin (angle_x d) = d.y := by
    rw [angle_x, sin_atan2, hone, div_one]
  have hcx : Real.cos (angle_x d) = Real.sqrt (d.x * d.x + d.z * d.z) := by
    rw [angle_x, cos_atan2 _ _ (by rw [hone]; norm_num), hone, div_one]
  have hay : angle_y d = -atan2 d.x d.z := by
    rw [angle_y]
    ring
  have hcomm : d.z * d.z + d.x * d.x = d.x * d.x + d.z * d.z := by ring
  refine ⟨hay, ?_, ?_, hsx.symm, ?_⟩
  · rw [angle_x, show d.x ^ 2 + d.z ^ 2 = d.x * d.x + d.z * d.z by ring]
  · rw [hay, Real.sin_neg, sin_atan2, hcx, hcomm]
    by_cases h0 : Real.sqrt (d.x * d.x + d.z * d.z) = 0
    · have hz : d.x * d.x + d.z * d.z = 0 := by
        rw [← hsq, h0, mul_zero]
      have : d.x = 0 := by nlinarith [mul_self_nonneg d.x, mul_self_nonneg d.z]
      rw [h0, this]
      simp
    · field_simp
  · rw [hay, Real.cos_neg, hcx]
    by_cases h0 : Real.sqrt (d.x * d.x + d.z * d.z) = 0
    · have hz : d.x * d.x + d.z * d.z = 0 := by
        rw [← hsq, h0, mul_zero]
      have : d.z = 0 := by nlinarith [mul_self_nonneg d.x, mul_self_nonneg d.z]
      rw [h0, this]
      simp
    · rw [cos_atan2 _ _ (by rw [hcomm]; exact h0), hcomm]
      field_simp

/-- The direction `(0, 0, 1)` has length 1 and is given back by its two angles. -/
theorem angles_reconstruct_witness :
    Vec3.mag ⟨0, 0, 1⟩ = 1 ∧
    (1 : ℝ) = Real.cos (angle_y ⟨0, 0, 1⟩) * Real.cos (angle_x ⟨0, 0, 1⟩) :=
  have h : Vec3.mag ⟨0, 0, 1⟩ = 1 := by
    simp [Vec3.mag]
  ⟨h, (angles_reconstruct ⟨0, 0, 1⟩ h).2.2.2.2⟩

/-- C15: with `flip = 1` the placed direction is the opposite of the one placed with
`flip = 0`, all other options equal; with `flip = 0` it is the normalised direction,
not negated; an absent `flip` key is read as 0; with `flip = 1` the manual direction
`(0, 0, 1)` is placed as `(0, 0, -1)`. -/
theorem flip_negates (o : PlaceOptions) (pmtpos d : Vec3) :
    placeDir { o with flip := 1 } pmtpos d = (placeDir { o with flip := 0 } pmtpos d).neg ∧
    placeDir { o with flip := 0 } pmtpos d =
      (if o.orient_manual = true then d else o.orient_point.sub pmtpos).unit ∧
    (∀ (table : GeoTable) (npos : ℕ) (o2 : PlaceOptions), readOptions table npos = some o2 →
      (table.flip = none → o2.flip = 0) ∧ (∀ f, table.flip = some f → o2.flip = f)) ∧
    placeDir { manualOptions with flip := 1 } ⟨0, 0, 0⟩ ⟨0, 0, 1⟩ = ⟨0, 0, -1⟩ := by
  refine ⟨by simp [placeDir], by simp [placeDir], ?_, ?_⟩
  · intro table npos o2 h
    have hf := readOptions_flip table npos o2 h
    constructor
    · intro hn
      rw [hf, hn]
      rfl
    · intro f hn
      rw [hf, hn]
      rfl
  · have hu : Vec3.unit ⟨0, 0, 1⟩ = ⟨0, 0, 1⟩ :=
      Vec3.unit_of_mag2_one _ (by simp [Vec3.mag2])
    simp [placeDir, manualOptions, hu, Vec3.neg]

/-- The table `manualTable` is read without error and its `flip = 0` is passed on. -/
theorem flip_negates_witness :
    readOptions manualTable 1 = some manualOptions ∧
    (∀ f, manualTable.flip = some f → manualOptions.flip = f) :=
  have h : readOptions manualTable 1 = some manualOptions := by
    simp [readOptions, readOrientation, readOrientPoint, manualTable, manualOptions]
  ⟨h, ((flip_negates manualOptions ⟨0, 0, 0⟩ ⟨0, 0, 1⟩).2.2.1 manualTable 1 manualOptions h).2⟩

/-- C16: a placement call entered with running count `c` (the length of `pmtinfo`)
and a range with `start_idx <= end_idx` makes `end_idx - start_idx + 1` passes, adds
that many units, leaves the running count at `c + (end_idx - start_idx + 1)`, and the
unit built from table index `idx` gets the id `c + (idx - start_idx)`. The ids of a
following call start where those of this call end, so no id is used twice, and from
an empty `pmtinfo` the ids of two calls in sequence are `0, 1, 2, ...` without gap. -/
theorem running_ids (o : PlaceOptions) (offset : Vec3) (a : PosArrays) (st : PlaceState)
    (h : o.start_idx ≤ o.end_idx) :
    (((o.end_idx - o.start_idx + 1).toNat : ℕ) : ℤ) = o.end_idx - o.start_idx + 1 ∧
    (placeLoop o offset a st).pmtinfo.length =
      st.pmtinfo.length + (o.end_idx - o.start_idx + 1).toNat ∧
    (∃ new : List Placed,
      (placeLoop o offset a st).placed = st.placed ++ new ∧
      new.length = (o.end_idx - o.start_idx + 1).toNat ∧
      new.map (fun u => (u.idx, u.id)) =
        (List.range (o.end_idx - o.start_idx + 1).toNat).map
          (fun (k : ℕ) => (o.start_idx + (k : ℤ), (st.pmtinfo.length : ℤ) + (k : ℤ))) ∧
      (∀ u, u ∈ new → o.start_idx ≤ u.idx ∧ u.idx ≤ o.end_idx ∧
        u.id = (st.pmtinfo.length : ℤ) + (u.idx - o.start_idx))) ∧
    (∀ (o2 : PlaceOptions) (offset2 : Vec3) (a2 : PosArrays),
      ∃ new1 new2 : List Placed,
        (placeLoop o2 offset2 a2 (placeLoop o offset a st)).placed = st.placed ++ new1 ++ new2 ∧
        new1.map Placed.id = (List.range (o.end_idx - o.start_idx + 1).toNat).map
          (fun (k : ℕ) => (st.pmtinfo.length : ℤ) + (k : ℤ)) ∧
        new2.map Placed.id = (List.range (o2.end_idx - o2.start_idx + 1).toNat).map
          (fun (k : ℕ) => (st.pmtinfo.length : ℤ) + ((o.end_idx - o.start_idx + 1).toNat : ℤ) +
            (k : ℤ)) ∧
        (∀ u v, u ∈ new1 → v ∈ new2 → u.id ≠ v.id) ∧
        (st.pmtinfo = [] → (new1 ++ new2).map Placed.id =
          (List.range ((o.end_idx - o.start_idx + 1).toNat +
            (o2.end_idx - o2.start_idx + 1).toNat)).map (fun (k : ℕ) => (k : ℤ)))) := by
  have hn : (((o.end_idx - o.start_idx + 1).toNat : ℕ) : ℤ) = o.end_idx - o.start_idx + 1 :=
    Int.toNat_of_nonneg (by omega)
  obtain ⟨hlen, new, hnew, hmap⟩ := placeLoop_passes o offset a (st.pmtinfo.length : ℤ) st
    (o.end_idx - o.start_idx + 1).toNat
  have hids : new.map Placed.id = (List.range (o.end_idx - o.start_idx + 1).toNat).map
      (fun (k : ℕ) => (st.pmtinfo.length : ℤ) + (k : ℤ)) := by
    have := congrArg (List.map Prod.snd) hmap
    simpa [List.map_map, Function.comp_def] using this
  refine ⟨hn, hlen, ⟨new, hnew, ?_, hmap, ?_⟩, ?_⟩
  · have := congrArg List.length hmap
    simpa using this
  · intro u hu
    have hmem : (u.idx, u.id) ∈ new.map (fun u => (u.idx, u.id)) :=
      List.mem_map.2 ⟨u, hu, rfl⟩
    rw [hmap] at hmem
    obtain ⟨k, hk, e⟩ := List.mem_map.1 hmem
    have hk2 := List.mem_range.1 hk
    simp only [Prod.mk.injEq] at e
    omega
  · intro o2 offset2 a2
    obtain ⟨_, new2, hnew2, hmap2⟩ := placeLoop_passes o2 offset2 a2
      ((placeLoop o offset a st).pmtinfo.length : ℤ) (placeLoop o offset a st)
      (o2.end_idx - o2.start_idx + 1).toNat
    have hlen2 : (placeLoop o offset a st).pmtinfo.length =
        st.pmtinfo.length + (o.end_idx - o.start_idx + 1).toNat := hlen
    have hids2 : new2.map Placed.id = (List.range (o2.end_idx - o2.start_idx + 1).toNat).map
        (fun (k : ℕ) => (st.pmtinfo.length : ℤ) + ((o.end_idx - o.start_idx + 1).toNat : ℤ) +
          (k : ℤ)) := by
      have := congrArg (List.map Prod.snd) hmap2
      rw [hlen2] at this
      simpa [List.map_map, Function.comp_def] using this
    refine ⟨new, new2, ?_, hids, hids2, ?_, ?_⟩
    · have e : (placeLoop o2 offset2 a2 (placeLoop o offset a st)).placed =
          (placeLoop o offset a st).placed ++ new2 := hnew2
      have e1 : (placeLoop o offset a st).placed = st.placed ++ new := hnew
      rw [e, e1]
    · intro u v hu hv
      have hu2 : u.id ∈ new.map Placed.id := List.mem_map.2 ⟨u, hu, rfl⟩
      have hv2 : v.id ∈ new2.map Placed.id := List.mem_map.2 ⟨v, hv, rfl⟩
      rw [hids] at hu2
      rw [hids2] at hv2
      obtain ⟨k, hk, e⟩ := List.mem_map.1 hu2
      obtain ⟨k2, hk2, e2⟩ := List.mem_map.1 hv2
      have := List.mem_range.1 hk
      try dsimp only at e e2
      omega
    · intro hempty
      rw [List.map_append, hids, hids2, hempty, List.range_add, List.map_append, List.map_map]
      simp [Function.comp_def]

/-- A call with the range `[0, 2]`: three passes. -/
theorem running_ids_witness :
    ({ manualOptions with start_idx := 0, end_idx := 2 } : PlaceOptions).start_idx ≤
      ({ manualOptions with start_idx := 0, end_idx := 2 } : PlaceOptions).end_idx ∧
    (placeLoop { manualOptions with start_idx := 0, end_idx := 2 } ⟨0, 0, 0⟩
        ⟨[], [], [], [], [], [], []⟩ ⟨[], []⟩).pmtinfo.length = 0 + 3 :=
  ⟨by decide,
    (running_ids { manualOptions with start_idx := 0, end_idx := 2 } ⟨0, 0, 0⟩
      ⟨[], [], [], [], [], [], []⟩ ⟨[], []⟩ (by decide)).2.1⟩

/-- C17: for a non-empty profile `rho_edge` the photocathode radius is an entry of
`rho_edge`, no entry is larger, and the photocathode area is `pi` times the square of
that radius. -/
theorem photocathode_radius_max (p : Params) (h : p.rho_edge ≠ []) :
    photocathode_radius p ∈ p.rho_edge ∧
    (∀ e, e ∈ p.rho_edge → e ≤ photocathode_radius p) ∧
    photocathode_area p = Real.pi * photocathode_radius p ^ 2 := by
  have harea : photocathode_area p = Real.pi * photocathode_radius p ^ 2 := by
    unfold photocathode_area
    ring
  unfold photocathode_radius
  cases hl : p.rho_edge with
  | nil => exact absurd hl h
  | cons r l =>
    simp only [List.drop_succ_cons, List.drop_zero, List.headD_cons]
    have hm := running_max l r
    refine ⟨hm.1, hm.2, ?_⟩
    rw [harea]
    simp only [photocathode_radius, hl, List.drop_succ_cons, List.drop_zero, List.headD_cons]

/-- The scenario's profile `[100]` is not empty and its radius is an entry. -/
theorem photocathode_radius_max_witness :
    scenario.rho_edge ≠ [] ∧ photocathode_radius scenario ∈ scenario.rho_edge :=
  have h : scenario.rho_edge ≠ [] := by
    simp [scenario]
  ⟨h, (photocathode_radius_max scenario h).1⟩

/-- C18, as stated, fails: in the scenario (coverage 0.4, `pmt_radius = 1000`,
`topbot_offset = 1000`, unit area `pi * 100^2`) the computed `surface_area` is not
`2 pi 1000 1000 + 2 * 2000 * 2 pi 1000`. -/
theorem scenario_area_counterexample :
    scenario.photocathode_coverage = 0.4 ∧ pmt_radius scenario = 1000 ∧
    topbot_offset scenario = 1000 ∧ photocathode_area scenario = Real.pi * 100 ^ 2 ∧
    surface_area scenario ≠ 2 * Real.pi * 1000 * 1000 + 2 * 2000 * 2 * Real.pi * 1000 := by
  refine ⟨scenario_coverage, scenario_pmt_radius, scenario_topbot_offset, ?_, ?_⟩
  · rw [scenario_photocathode_area]
    norm_num
  · rw [scenario_surface_area]
    intro h
    have := Real.pi_pos
    linarith

/-- C18, amended: with `pmt_radius = 1000` and half height `topbot_offset = 1000` the
computed `surface_area` (two end caps plus the cylindrical side) is
`2 pi 1000 1000 + 2 * 1000 * 2 pi 1000`, that is `6000000 pi`. -/
theorem scenario_area (p : Params) (hr : pmt_radius p = 1000) (hz : topbot_offset p = 1000) :
    surface_area p = 2 * Real.pi * 1000 * 1000 + 2 * 1000 * 2 * Real.pi * 1000 ∧
    surface_area p = 6000000 * Real.pi := by
  rw [surface_area, hr, hz]
  constructor <;> ring

/-- The scenario has radius 1000 and half height 1000, and its area is
`6000000 pi`. -/
theorem scenario_area_witness :
    pmt_radius scenario = 1000 ∧ topbot_offset scenario = 1000 ∧
    surface_area scenario = 6000000 * Real.pi :=
  ⟨scenario_pmt_radius, scenario_topbot_offset,
    (scenario_area scenario scenario_pmt_radius scenario_topbot_offset).2⟩

/-- C19, as stated, fails: in the scenario the generated inner unit count, 212, differs
from the required count `n = 241` by more than `max(cols, rows) = 22`. -/
theorem scenario_count_counterexample :
    ¬ (|((cols scenario * rows scenario + 2 * (topbot scenario).length : ℕ) : ℝ) -
          required_pmts scenario| ≤
        ((max (cols scenario) (rows scenario) : ℕ) : ℝ)) := by
  rw [scenario_cols, scenario_rows, scenario_topbot_count, scenario_required_pmts]
  norm_num

/-- C19, amended: in the scenario the exact quotient is 240, the double quotient is
`240 + 2^-45` and the generator computes `n = 241`,
`spacing = sqrt(6000000 pi / 241)` (between 279.6 and 279.7), `cols = 22`, `rows = 7`,
`rdim = 4` and retains 29 end-cap points, so the generated inner unit count is
`22 * 7 + 2 * 29 = 212`; it differs from `n` by 29, which is within two columns of
units (`2 * max(cols, rows) = 44`). -/
theorem scenario_count :
    scenario.photocathode_coverage * surface_area scenario / photocathode_area scenario =
      240 ∧
    quotient_pmts scenario = 240 + 1 / 2 ^ 45 ∧
    required_pmts scenario = 241 ∧
    pmt_space scenario = Real.sqrt (surface_area scenario / required_pmts scenario) ∧
    pmt_space scenario = Real.sqrt (6000000 * Real.pi / 241) ∧
    279.6 < pmt_space scenario ∧ pmt_space scenario < 279.7 ∧
    cols scenario = 22 ∧ rows scenario = 7 ∧ rdim scenario = 4 ∧
    (topbot scenario).length = 29 ∧
    num_pmts scenario = cols scenario * rows scenario + 2 * (topbot scenario).length ∧
    num_pmts scenario = 212 ∧
    |((cols scenario * rows scenario + 2 * (topbot scenario).length : ℕ) : ℝ) -
        required_pmts scenario| = 29 ∧
    |((cols scenario * rows scenario + 2 * (topbot scenario).length : ℕ) : ℝ) -
        required_pmts scenario| ≤ 2 * ((max (cols scenario) (rows scenario) : ℕ) : ℝ) := by
  have habs : |((cols scenario * rows scenario + 2 * (topbot scenario).length : ℕ) : ℝ) -
      required_pmts scenario| = 29 := by
    rw [scenario_cols, scenario_rows, scenario_topbot_count, scenario_required_pmts]
    norm_num
  have hex : scenario.photocathode_coverage * surface_area scenario /
      photocathode_area scenario = 240 := by
    rw [scenario_coverage, scenario_surface_area, scenario_photocathode_area]
    have := Real.pi_ne_zero
    field_simp
    ring
  refine ⟨hex, scenario_quotient_pmts_eq, scenario_required_pmts, rfl, scenario_pmt_space_eq,
    scenario_pmt_space_bounds.1, scenario_pmt_space_bounds.2, scenario_cols, scenario_rows,
    scenario_rdim, scenario_topbot_count, rfl, scenario_num_pmts, habs, ?_⟩
  rw [habs, scenario_cols, scenario_rows]
  norm_num

/-- C20, the code at the scenario: the veto side wall has a unit at column 0, row 0;
its `z` is `veto_space / 2 - 1000`, computed from the sensor half height
`topbot_offset = 1000`, and not `veto_space / 2 - 1700`, the value of the claim's
formula with the veto half height `topbot_veto_offset = 1700`. -/
theorem scenario_veto_z :
    0 < veto_cols scenario ∧ 0 < veto_rows scenario ∧
    topbot_offset scenario = 1000 ∧ topbot_veto_offset scenario = 1700 ∧
    (pmtinfoTable scenario).z (num_pmts scenario + 0 + 0 * veto_rows scenario) =
      ((0 : ℕ) : ℝ) * 2 * topbot_offset scenario / (veto_rows scenario : ℝ) +
        veto_space scenario / 2 - topbot_offset scenario ∧
    (pmtinfoTable scenario).z (num_pmts scenario + 0 + 0 * veto_rows scenario) ≠
      ((0 : ℕ) : ℝ) * 2 * topbot_veto_offset scenario / (veto_rows scenario : ℝ) +
        veto_space scenario / 2 - topbot_veto_offset scenario := by
  refine ⟨scenario_veto_cols_pos, scenario_veto_rows_pos, scenario_topbot_offset,
    scenario_topbot_veto_offset, ?_, ?_⟩
  · rw [scenario_veto_side_z, scenario_topbot_offset]
    simp
  · rw [scenario_veto_side_z, scenario_topbot_veto_offset]
    intro h
    simp at h

/-- C21: with `topbot_offset > 0` and `pmt_space > 0`, for every inner side-wall unit
(so `rows >= 1`) the stored `z` is
`row * 2 * topbot_offset / rows + pmt_space / 2 - topbot_offset`, consecutive rows are
`2 * topbot_offset / rows` apart, and `-topbot_offset < z <= topbot_offset`. -/
theorem inner_side_z (p : Params) (col row : ℕ) (hh : 0 < topbot_offset p)
    (hs : 0 < pmt_space p) (hcol : col < cols p) (hrow : row < rows p) :
    (pmtinfoTable p).z (row + col * rows p) =
      (row : ℝ) * 2 * topbot_offset p / (rows p : ℝ) + pmt_space p / 2 - topbot_offset p ∧
    (row + 1 < rows p →
      (pmtinfoTable p).z (row + 1 + col * rows p) - (pmtinfoTable p).z (row + col * rows p) =
        2 * topbot_offset p / (rows p : ℝ)) ∧
    -topbot_offset p < (pmtinfoTable p).z (row + col * rows p) ∧
    (pmtinfoTable p).z (row + col * rows p) ≤ topbot_offset p := by
  have hz : ∀ r, r < rows p → (pmtinfoTable p).z (r + col * rows p) =
      (r : ℝ) * 2 * topbot_offset p / (rows p : ℝ) + pmt_space p / 2 - topbot_offset p := by
    intro r hr
    have h := congrArg Entry.z (innerSide_row p col r hcol hr)
    simpa only [PMTInfo.entry] using h
  have hrows_pos : (0 : ℝ) < (rows p : ℝ) := by
    have : 0 < rows p := by omega
    exact_mod_cast this
  have hrows_le : (rows p : ℝ) ≤ 2 * topbot_offset p / pmt_space p + 1 / 2 := by
    have hc1 : 0 < cround (2 * topbot_offset p / pmt_space p) := by
      have : 0 < rows p := by omega
      unfold rows at this
      omega
    have hx : 0 ≤ 2 * topbot_offset p / pmt_space p := by positivity
    have hfl : ((cround (2 * topbot_offset p / pmt_space p) : ℤ) : ℝ) ≤
        2 * topbot_offset p / pmt_space p + 1 / 2 := by
      rw [cround, if_pos hx]
      exact Int.floor_le _
    have hcast : (rows p : ℝ) = ((cround (2 * topbot_offset p / pmt_space p) : ℤ) : ℝ) := by
      have h1 : ((rows p : ℕ) : ℤ) = cround (2 * topbot_offset p / pmt_space p) := by
        unfold rows
        exact Int.toNat_of_nonneg (le_of_lt hc1)
      exact_mod_cast congrArg (fun z : ℤ => (z : ℝ)) h1
    rw [hcast]
    exact hfl
  have hone : (1 : ℝ) ≤ (rows p : ℝ) := by
    have : 1 ≤ rows p := by omega
    exact_mod_cast this
  have hx_half : 1 / 2 ≤ 2 * topbot_offset p / pmt_space p := by linarith
  have hrs : (rows p : ℝ) * pmt_space p ≤ 4 * topbot_offset p := by
    have h1 : (rows p : ℝ) ≤ 2 * (2 * topbot_offset p / pmt_space p) := by linarith
    have h2 : 2 * (2 * topbot_offset p / pmt_space p) * pmt_space p = 4 * topbot_offset p := by
      field_simp
      ring
    calc (rows p : ℝ) * pmt_space p ≤ 2 * (2 * topbot_offset p / pmt_space p) * pmt_space p :=
          mul_le_mul_of_nonneg_right h1 (le_of_lt hs)
      _ = 4 * topbot_offset p := h2
  have hrow_le : (row : ℝ) + 1 ≤ (rows p : ℝ) := by
    have : row + 1 ≤ rows p := by omega
    exact_mod_cast this
  refine ⟨hz row hrow, ?_, ?_, ?_⟩
  · intro h1
    rw [hz row hrow, hz (row + 1) h1]
    push_cast
    field_simp
    ring
  · rw [hz row hrow]
    have : 0 ≤ (row : ℝ) * 2 * topbot_offset p / (rows p : ℝ) := by positivity
    linarith
  · rw [hz row hrow]
    have hpitch : (row : ℝ) * 2 * topbot_offset p / (rows p : ℝ) ≤
        2 * topbot_offset p - 2 * topbot_offset p / (rows p : ℝ) := by
      rw [div_le_iff₀ hrows_pos]
      have e : (2 * topbot_offset p - 2 * topbot_offset p / (rows p : ℝ)) * (rows p : ℝ) =
          2 * topbot_offset p * (rows p : ℝ) - 2 * topbot_offset p := by
        field_simp
      rw [e]
      nlinarith
    have hhalf : pmt_space p / 2 ≤ 2 * topbot_offset p / (rows p : ℝ) := by
      rw [le_div_iff₀ hrows_pos]
      nlinarith
    linarith

/-- In the scenario the half height and the spacing are positive, the cell `(0, 0)` is
an inner side-wall unit and its `z` is inside the cylinder. -/
theorem inner_side_z_witness :
    0 < topbot_offset scenario ∧ 0 < pmt_space scenario ∧ 0 < cols scenario ∧
    0 < rows scenario ∧
    -topbot_offset scenario < (pmtinfoTable scenario).z (0 + 0 * rows scenario) ∧
    (pmtinfoTable scenario).z (0 + 0 * rows scenario) ≤ topbot_offset scenario :=
  have hh : 0 < topbot_offset scenario := by
    rw [scenario_topbot_offset]
    norm_num
  ⟨hh, scenario_pmt_space.1, scenario_cols_pos, scenario_rows_pos,
    (inner_side_z scenario 0 0 hh scenario_pmt_space.1 scenario_cols_pos
      scenario_rows_pos).2.2.1,
    (inner_side_z scenario 0 0 hh scenario_pmt_space.1 scenario_cols_pos
      scenario_rows_pos).2.2.2⟩

/-- C22: the end-cap records of the `i`-th retained point have direction `(0, 0, -1)`
(inner top), `(0, 0, 1)` (inner bottom), `(0, 0, 1)` (veto top) and `(0, 0, -1)`
(veto bottom); `dir_y` of a bottom record, which no statement assigns, is the `0` of
the allocation. -/
theorem endcap_directions (p : Params) (i : ℕ) :
    (i < (topbot p).length →
      ((pmtinfoTable p).dir_x (rows p * cols p + i * 2) = 0 ∧
        (pmtinfoTable p).dir_y (rows p * cols p + i * 2) = 0 ∧
        (pmtinfoTable p).dir_z (rows p * cols p + i * 2) = -1) ∧
      ((pmtinfoTable p).dir_x (rows p * cols p + i * 2 + 1) = 0 ∧
        (pmtinfoTable p).dir_y (rows p * cols p + i * 2 + 1) = 0 ∧
        (pmtinfoTable p).dir_z (rows p * cols p + i * 2 + 1) = 1)) ∧
    (i < (topbot_veto p).length →
      ((pmtinfoTable p).dir_x (num_pmts p + veto_rows p * veto_cols p + i * 2) = 0 ∧
        (pmtinfoTable p).dir_y (num_pmts p + veto_rows p * veto_cols p + i * 2) = 0 ∧
        (pmtinfoTable p).dir_z (num_pmts p + veto_rows p * veto_cols p + i * 2) = 1) ∧
      ((pmtinfoTable p).dir_x (num_pmts p + veto_rows p * veto_cols p + i * 2 + 1) = 0 ∧
        (pmtinfoTable p).dir_y (num_pmts p + veto_rows p * veto_cols p + i * 2 + 1) = 0 ∧
        (pmtinfoTable p).dir_z (num_pmts p + veto_rows p * veto_cols p + i * 2 + 1) = -1)) ∧
    (∀ (t : PMTInfo) (k : ℕ), k ≠ rows p * cols p + i * 2 →
      (innerCapBody p i t).dir_y k = t.dir_y k) ∧
    (∀ (t : PMTInfo) (k : ℕ), k ≠ num_pmts p + veto_rows p * veto_cols p + i * 2 →
      (vetoCapBody p i t).dir_y k = t.dir_y k) := by
  refine ⟨?_, ?_, ?_, ?_⟩
  · intro hi
    have ht := innerCap_top_row p i hi
    have hb := innerCap_bottom_row p i hi
    exact ⟨⟨congrArg Entry.dir_x ht, congrArg Entry.dir_y ht, congrArg Entry.dir_z ht⟩,
      ⟨congrArg Entry.dir_x hb, congrArg Entry.dir_y hb, congrArg Entry.dir_z hb⟩⟩
  · intro hi
    have ht := vetoCap_top_row p i hi
    have hb := vetoCap_bottom_row p i hi
    exact ⟨⟨congrArg Entry.dir_x ht, congrArg Entry.dir_y ht, congrArg Entry.dir_z ht⟩,
      ⟨congrArg Entry.dir_x hb, congrArg Entry.dir_y hb, congrArg Entry.dir_z hb⟩⟩
  · intro t k hk
    simp [innerCapBody, PMTInfo.setX, PMTInfo.setY, PMTInfo.setZ, PMTInfo.setDirX,
      PMTInfo.setDirY, PMTInfo.setDirZ, PMTInfo.setType, Function.update_apply, hk]
  · intro t k hk
    simp [vetoCapBody, PMTInfo.setX, PMTInfo.setY, PMTInfo.setZ, PMTInfo.setDirX,
      PMTInfo.setDirY, PMTInfo.setDirZ, PMTInfo.setType, Function.update_apply, hk]

/-- In the scenario both arrays retain a lattice point, and the first bottom records
have `dir_y = 0`. -/
theorem endcap_directions_witness :
    0 < (topbot scenario).length ∧ 0 < (topbot_veto scenario).length ∧
    (pmtinfoTable scenario).dir_y (rows scenario * cols scenario + 0 * 2 + 1) = 0 ∧
    (pmtinfoTable scenario).dir_y
      (num_pmts scenario + veto_rows scenario * veto_cols scenario + 0 * 2 + 1) = 0 :=
  ⟨scenario_topbot_length, scenario_topbot_veto_length,
    ((endcap_directions scenario 0).1 scenario_topbot_length).2.2.1,
    ((endcap_directions scenario 0).2.1 scenario_topbot_veto_length).2.2.1⟩

/-- C23, the code with two loaded sheets: the draw `0.7` of `[0, 1)` selects
`sheetno = 2`, which is not an index below the number of sheets; whatever the number
of sheets above 1, the draws are cut at `1/3` and `2/3`. -/
theorem sheet_choice_two_sheets :
    (0 : ℝ) ≤ 0.7 ∧ (0.7 : ℝ) < 1 ∧ sheetno 2 0.7 = 2 ∧ ¬ (sheetno 2 0.7 < ((2 : ℕ) : ℤ)) ∧
    (∀ (size : ℕ) (u : ℝ), 1 < size →
      (u < 1 / 3 → sheetno size u = 0) ∧
      (1 / 3 ≤ u → u < 2 / 3 → sheetno size u = 1) ∧
      (2 / 3 ≤ u → sheetno size u = 2)) := by
  have h : sheetno 2 0.7 = 2 := by
    unfold sheetno
    rw [if_pos (by norm_num), if_neg (by norm_num), if_neg (by norm_num)]
  refine ⟨by norm_num, by norm_num, h, ?_, ?_⟩
  · rw [h]
    norm_num
  · intro size u hs
    unfold sheetno
    rw [if_pos hs]
    refine ⟨?_, ?_, ?_⟩
    · intro h1
      rw [if_pos h1]
    · intro h1 h2
      rw [if_neg (not_lt.2 h1), if_pos h2]
    · intro h2
      rw [if_neg (not_lt.2 (by linarith)), if_neg (not_lt.2 h2)]

/-- C24, as stated, fails: for the field `(-1, 0, 0)`, the placement direction
`(0, 0, 1)` and the dynode axis `(1, 0, 0)` the value looked up in the x curve is
`-1`, not the magnitude `|B.d| = 1`. -/
theorem lookup_magnitude_counterexample :
    (lookupArgs ⟨-1, 0, 0⟩ ⟨0, 0, 1⟩ ⟨1, 0, 0⟩).1 = -1 ∧
    |Vec3.dot ⟨-1, 0, 0⟩ ⟨1, 0, 0⟩| = 1 ∧
    (lookupArgs ⟨-1, 0, 0⟩ ⟨0, 0, 1⟩ ⟨1, 0, 0⟩).1 ≠ |Vec3.dot ⟨-1, 0, 0⟩ ⟨1, 0, 0⟩| := by
  have hu : Vec3.unit ⟨1, 0, 0⟩ = ⟨1, 0, 0⟩ :=
    Vec3.unit_of_mag2_one _ (by simp [Vec3.mag2])
  have h1 : (lookupArgs ⟨-1, 0, 0⟩ ⟨0, 0, 1⟩ ⟨1, 0, 0⟩).1 = -1 := by
    simp [lookupArgs, hu, Vec3.perpPart, Vec3.project, Vec3.mag2, Vec3.dot, Vec3.sub, Vec3.smul]
  have h2 : |Vec3.dot ⟨-1, 0, 0⟩ ⟨1, 0, 0⟩| = 1 := by
    simp [Vec3.dot]
  refine ⟨h1, h2, ?_⟩
  rw [h1, h2]
  norm_num

/-- C24, amended: for a placement direction `p` and a dynode axis `d` of length 1 the
value looked up in the x curve is the signed projection on `d` of the part of the
field perpendicular to `p`, `B.d - (B.p)(p.d)`, which is `B.d` when `d` is
perpendicular to `p`; the value looked up in the y curve is the signed projection
`B.(p x d).unit()` of the field. No absolute value is taken. -/
theorem lookup_projections (B p d : Vec3) (hp : p.mag2 = 1) (hd : d.mag2 = 1) :
    (lookupArgs B p d).1 = B.dot d - B.dot p * p.dot d ∧
    (p.dot d = 0 → (lookupArgs B p d).1 = B.dot d) ∧
    (lookupArgs B p d).2 = B.dot (p.cross d).unit := by
  have hu : d.unit = d := Vec3.unit_of_mag2_one d hd
  have hperp : B.perpPart p = B.sub (p.smul (B.dot p)) := by
    unfold Vec3.perpPart Vec3.project
    rw [if_neg (by rw [hp]; norm_num), hp, div_one]
  have h1 : (lookupArgs B p d).1 = B.dot d - B.dot p * p.dot d := by
    simp only [lookupArgs, hu, hperp, Vec3.dot, Vec3.sub, Vec3.smul]
    ring
  refine ⟨h1, ?_, ?_⟩
  · intro h0
    rw [h1, h0, mul_zero, sub_zero]
  · have hz := Vec3.dot_unit_cross p d
    simp only [lookupArgs, hu, hperp]
    simp only [Vec3.dot, Vec3.sub, Vec3.smul] at hz ⊢
    linear_combination (-(B.x * p.x + B.y * p.y + B.z * p.z)) * hz

/-- The direction `(0, 0, 1)` and the axis `(1, 0, 0)` have length 1 and are
perpendicular; the x curve is looked up at `B.d`. -/
theorem lookup_projections_witness :
    Vec3.mag2 ⟨0, 0, 1⟩ = 1 ∧ Vec3.mag2 ⟨1, 0, 0⟩ = 1 ∧
    (Vec3.dot ⟨0, 0, 1⟩ ⟨1, 0, 0⟩ = 0 →
      (lookupArgs ⟨-1, 0, 0⟩ ⟨0, 0, 1⟩ ⟨1, 0, 0⟩).1 = Vec3.dot ⟨-1, 0, 0⟩ ⟨1, 0, 0⟩) :=
  have h1 : Vec3.mag2 ⟨0, 0, 1⟩ = 1 := by simp [Vec3.mag2]
  have h2 : Vec3.mag2 ⟨1, 0, 0⟩ = 1 := by simp [Vec3.mag2]
  ⟨h1, h2, (lookup_projections ⟨-1, 0, 0⟩ ⟨0, 0, 1⟩ ⟨1, 0, 0⟩ h1 h2).2.1⟩

/-- C25: the placed position is the stored position `p` when `use_parent_coordinates`
is non-zero and `p + offset` when it is 0 or absent; with `rescale_radius = R` and
that vector not of length 0 the placed position is that vector times `R / length`,
of length `|R|`, which is `R` for `R >= 0`; without `rescale_radius` it is that
vector. -/
theorem global_position (table : GeoTable) (npos : ℕ) (o : PlaceOptions) (offset p : Vec3)
    (h : readOptions table npos = some o) :
    (∀ n : ℤ, n ≠ 0 → table.use_parent_coordinates = some n →
      (table.rescale_radius = none → placePos o offset p = p) ∧
      (∀ R, table.rescale_radius = some R → p.mag ≠ 0 →
        placePos o offset p = p.smul (R / p.mag) ∧ (placePos o offset p).mag = |R| ∧
        (0 ≤ R → (placePos o offset p).mag = R))) ∧
    ((table.use_parent_coordinates = none ∨ table.use_parent_coordinates = some 0) →
      (table.rescale_radius = none → placePos o offset p = p.add offset) ∧
      (∀ R, table.rescale_radius = some R → (p.add offset).mag ≠ 0 →
        placePos o offset p = (p.add offset).smul (R / (p.add offset).mag) ∧
        (placePos o offset p).mag = |R| ∧
        (0 ≤ R → (placePos o offset p).mag = R))) := by
  obtain ⟨hpc, hrr, hnr⟩ := readOptions_position table npos o h
  have hscale : ∀ (v : Vec3) (R : ℝ), v.mag ≠ 0 → (v.smul (R / v.mag)).mag = |R| := by
    intro v R hv
    have hpos : 0 < v.mag := lt_of_le_of_ne (Real.sqrt_nonneg _) (Ne.symm hv)
    rw [Vec3.mag_smul, abs_div, abs_of_pos hpos]
    field_simp
  constructor
  · intro n hn hu
    have hparent : o.parent_coord = true := by
      rw [hpc, hu]
      simpa using hn
    constructor
    · intro hr
      have : o.rescale_radius = false := by rw [hrr, hr]; rfl
      simp [placePos, hparent, this]
    · intro R hr hv
      have h1 : o.rescale_radius = true := by rw [hrr, hr]; rfl
      have h2 : o.new_radius = R := by rw [hnr, hr]; rfl
      have e : placePos o offset p = p.smul (R / p.mag) := by
        simp [placePos, hparent, h1, h2, Vec3.setMag, hv]
      refine ⟨e, ?_, ?_⟩
      · rw [e, hscale p R hv]
      · intro hR
        rw [e, hscale p R hv, abs_of_nonneg hR]
  · intro hu
    have hparent : o.parent_coord = false := by
      rw [hpc]
      rcases hu with hu | hu <;> simp [hu]
    constructor
    · intro hr
      have : o.rescale_radius = false := by rw [hrr, hr]; rfl
      simp [placePos, hparent, this]
    · intro R hr hv
      have h1 : o.rescale_radius = true := by rw [hrr, hr]; rfl
      have h2 : o.new_radius = R := by rw [hnr, hr]; rfl
      have e : placePos o offset p = (p.add offset).smul (R / (p.add offset).mag) := by
        simp [placePos, hparent, h1, h2, Vec3.setMag, hv]
      refine ⟨e, ?_, ?_⟩
      · rw [e, hscale _ R hv]
      · intro hR
        rw [e, hscale _ R hv, abs_of_nonneg hR]

/-- The table `pointTable` is read without error; it has no `use_parent_coordinates`
and `rescale_radius = 5`, and the position `(3, 0, 0)` with offset `(0, 4, 0)` is
placed at distance 5 from the origin. -/
theorem global_position_witness :
    readOptions pointTable 1 = some pointOptions ∧
    pointTable.use_parent_coordinates = none ∧ pointTable.rescale_radius = some 5 ∧
    (Vec3.add ⟨3, 0, 0⟩ ⟨0, 4, 0⟩).mag ≠ 0 ∧
    (placePos pointOptions ⟨0, 4, 0⟩ ⟨3, 0, 0⟩).mag = 5 :=
  have hv : (Vec3.add ⟨3, 0, 0⟩ ⟨0, 4, 0⟩).mag ≠ 0 := by
    have e : (Vec3.add ⟨3, 0, 0⟩ ⟨0, 4, 0⟩).mag = Real.sqrt (5 ^ 2) := by
      simp only [Vec3.mag, Vec3.add]
      norm_num
    rw [e, Real.sqrt_sq (by norm_num)]
    norm_num
  ⟨readOptions_pointTable, rfl, rfl, hv,
    ((((global_position pointTable 1 pointOptions ⟨0, 4, 0⟩ ⟨3, 0, 0⟩
      readOptions_pointTable).2 (Or.inl rfl)).2 5 rfl hv).2.2) (by norm_num)⟩

/-- C26: with `orientation = point` or no `orientation` key the options carry the
three-component target point `t`; for a unit at global position `g` other than `t`
the direction before the flip is `(t - g) / |t - g|`, the placed direction is that
vector or, with `flip = 1`, its opposite, and neither depends on the stored
direction; the whole placement loop gives the same result for any direction arrays. -/
theorem point_orientation (table : GeoTable) (npos : ℕ) (o : PlaceOptions)
    (h : readOptions table npos = some o)
    (ho : table.orientation = some "point" ∨ table.orientation = none) :
    o.orient_manual = false ∧
    (∃ a b c, table.orient_point = some [a, b, c] ∧ o.orient_point = ⟨a, b, c⟩) ∧
    (∀ g d : Vec3, g ≠ o.orient_point →
      placeDir { o with flip := 0 } g d =
        (o.orient_point.sub g).smul (1 / (o.orient_point.sub g).mag) ∧
      (placeDir { o with flip := 0 } g d).mag = 1 ∧
      placeDir o g d = (if o.flip = 1 then (placeDir { o with flip := 0 } g d).neg
        else placeDir { o with flip := 0 } g d)) ∧
    (∀ g d d2 : Vec3, placeDir o g d = placeDir o g d2) ∧
    (∀ (offset : Vec3) (a : PosArrays) (st : PlaceState) (l1 l2 l3 : List ℝ),
      placeLoop o offset { a with dir_x := l1, dir_y := l2, dir_z := l3 } st =
        placeLoop o offset a st) := by
  obtain ⟨hm, hpt⟩ := readOptions_point table npos o h ho
  have hindep : ∀ g d d2 : Vec3, placeDir o g d = placeDir o g d2 := by
    intro g d d2
    simp [placeDir, hm]
  refine ⟨hm, hpt, ?_, hindep, ?_⟩
  · intro g d hg
    have hpos := Vec3.mag2_pos_of_ne g o.orient_point hg
    have e : placeDir { o with flip := 0 } g d =
        (o.orient_point.sub g).smul (1 / (o.orient_point.sub g).mag) := by
      simp only [placeDir, hm, Bool.false_eq_true, if_false]
      rw [if_neg (by norm_num), Vec3.unit, if_pos hpos]
      rfl
    refine ⟨e, ?_, ?_⟩
    · have hmag : 0 < (o.orient_point.sub g).mag := Real.sqrt_pos.2 hpos
      rw [e, Vec3.mag_smul, abs_of_pos (by positivity)]
      field_simp
    · simp only [placeDir]
      by_cases hf : o.flip = 1
      · simp [hf]
      · simp [hf]
  · intro offset a st l1 l2 l3
    unfold placeLoop
    congr 1
    funext k s
    simp only [placeBody]
    rw [hindep _ _ ⟨a.dir_x.getD (o.start_idx + (k : ℤ)).toNat 0,
      a.dir_y.getD (o.start_idx + (k : ℤ)).toNat 0, a.dir_z.getD (o.start_idx + (k : ℤ)).toNat 0⟩]

/-- The table `pointTable` is in point mode with target `(0, 0, 0)`; a unit at
`(0, 0, 2)` is directed along `(0, 0, -2) / 2`. -/
theorem point_orientation_witness :
    readOptions pointTable 1 = some pointOptions ∧
    pointTable.orientation = some "point" ∧
    (⟨0, 0, 2⟩ : Vec3) ≠ pointOptions.orient_point ∧
    (placeDir { pointOptions with flip := 0 } ⟨0, 0, 2⟩ ⟨9999, 9999, 9999⟩).mag = 1 :=
  have hne : (⟨0, 0, 2⟩ : Vec3) ≠ pointOptions.orient_point := by
    intro h
    have := congrArg Vec3.z h
    simp [pointOptions] at this
  ⟨readOptions_pointTable, rfl, hne,
    ((point_orientation pointTable 1 pointOptions readOptions_pointTable (Or.inl rfl)).2.2.1
      ⟨0, 0, 2⟩ ⟨9999, 9999, 9999⟩ hne).2.1⟩

/-- C27, the code on two stored frames with the same base parameters (`frameParams`:
the clearance `detector_size_z / 2 - (topbot_offset + 202.5)` is 200): a frame stored
with `size[2] = 200` is written back as it was, `size[2] = 200` and
`position[2] = -5`, while a frame stored with `size[2] = 100` is written back with
`size[2] = 100`, half the clearance, and `position[2] = -1900`. -/
theorem frame_writeback_stale :
    ((adjustFrame frameParams ⟨[10, 10, 200], [0, 0, -5]⟩).size.getD 2 0 = 200 ∧
      (adjustFrame frameParams ⟨[10, 10, 200], [0, 0, -5]⟩).position.getD 2 0 = -5) ∧
    ((adjustFrame frameParams ⟨[10, 10, 100], [0, 0, -5]⟩).size.getD 2 0 = 100 ∧
      (adjustFrame frameParams ⟨[10, 10, 100], [0, 0, -5]⟩).position.getD 2 0 = -1900) ∧
    (adjustFrame frameParams ⟨[10, 10, 200], [0, 0, -5]⟩).size.getD 2 0 ≠
      (adjustFrame frameParams ⟨[10, 10, 100], [0, 0, -5]⟩).size.getD 2 0 := by
  have hA : adjustFrame frameParams ⟨[10, 10, 200], [0, 0, -5]⟩ = ⟨[10, 10, 200], [0, 0, -5]⟩ := by
    unfold adjustFrame
    rw [frameParams_target, if_neg (by simp)]
  have hB : adjustFrame frameParams ⟨[10, 10, 100], [0, 0, -5]⟩ =
      ⟨[10, 10, 100], [0, 0, -1900]⟩ := by
    unfold adjustFrame
    rw [frameParams_target, frameParams_position, if_pos (by norm_num)]
    norm_num
  rw [hA, hB]
  norm_num

/-- C28, the code on a file whose data lines all end with a newline: the loader
pushes one sample per data line, in file order, and then one more, a repetition of the
last line (of the uninitialised variables when there is no data line); both vectors
have `n + 1` entries. For the single data line `0 0 0 1 2 3` two samples are
loaded. -/
theorem field_file_samples (init : FieldLine) (lines : List FieldLine) :
    (loadField init lines).1 =
      lines.map (fun l => (⟨l.x, l.y, l.z⟩ : Vec3)) ++
        [⟨(lines.getLastD init).x, (lines.getLastD init).y, (lines.getLastD init).z⟩] ∧
    (loadField init lines).2 =
      lines.map (fun l => (⟨l.bx, l.byy, l.bz⟩ : Vec3)) ++
        [⟨(lines.getLastD init).bx, (lines.getLastD init).byy, (lines.getLastD init).bz⟩] ∧
    (loadField init lines).1.length = lines.length + 1 ∧
    (loadField init lines).2.length = lines.length + 1 ∧
    (loadField init [⟨0, 0, 0, 1, 2, 3⟩]).1 = [⟨0, 0, 0⟩, ⟨0, 0, 0⟩] ∧
    (loadField init [⟨0, 0, 0, 1, 2, 3⟩]).2 = [⟨1, 2, 3⟩, ⟨1, 2, 3⟩] := by
  have h := loadLoop_spec lines init ([], [])
  have h1 : (loadField init lines).1 =
      lines.map (fun l => (⟨l.x, l.y, l.z⟩ : Vec3)) ++
        [⟨(lines.getLastD init).x, (lines.getLastD init).y, (lines.getLastD init).z⟩] := by
    rw [loadField, h.1]
    simp
  have h2 : (loadField init lines).2 =
      lines.map (fun l => (⟨l.bx, l.byy, l.bz⟩ : Vec3)) ++
        [⟨(lines.getLastD init).bx, (lines.getLastD init).byy, (lines.getLastD init).bz⟩] := by
    rw [loadField, h.2]
    simp
  refine ⟨h1, h2, ?_, ?_, rfl, rfl⟩
  · rw [h1]
    simp
  · rw [h2]
    simp

/-- C29: with a positive sensor spacing every integer pair `(i, j)` that passes the
test `pmt_space * sqrt(i^2 + j^2) <= pmt_radius - pmt_space / 2` has `|i| <= rdim` and
`|j| <= rdim`, so it is scanned, and `topbot` holds exactly the integer pairs that
pass the test. -/
theorem scan_window_complete (p : Params) (hs : 0 < pmt_space p) (i j : ℤ) :
    (topbotTest p (i, j) → |i| ≤ rdim p ∧ |j| ≤ rdim p) ∧
    ((i, j) ∈ topbot p ↔ topbotTest p (i, j)) ∧
    (topbotTest p (i, j) ↔
      pmt_space p * Real.sqrt ((i * i + j * j : ℤ)) ≤ pmt_radius p - pmt_space p / 2) := by
  have hb : topbotTest p (i, j) → |i| ≤ rdim p ∧ |j| ≤ rdim p := by
    intro ht
    refine ⟨window_bound p hs i j ht, window_bound p hs j i ?_⟩
    unfold topbotTest at ht ⊢
    simp only at ht ⊢
    rw [show j * j + i * i = i * i + j * j by ring]
    exact ht
  refine ⟨hb, ?_, Iff.rfl⟩
  rw [mem_topbot, mem_lattice]
  constructor
  · intro h
    exact h.2
  · intro ht
    obtain ⟨h1, h2⟩ := hb ht
    rw [abs_le] at h1 h2
    exact ⟨⟨h1, h2⟩, ht⟩

/-- In the scenario the spacing is positive and the origin is retained. -/
theorem scan_window_complete_witness :
    0 < pmt_space scenario ∧
    (((0, 0) : ℤ × ℤ) ∈ topbot scenario ↔ topbotTest scenario (0, 0)) :=
  ⟨scenario_pmt_space.1, (scan_window_complete scenario scenario_pmt_space.1 0 0).2.1⟩

/-- C30: when both arrays have a unit, every index of the two ranges written back,
`[inner start_idx, inner end_idx]` and `[veto start_idx, veto end_idx]`, is at least 0
and below `total_pmts`, and the placement of the inner array followed by the
placement of the veto array reads the table indices `0, 1, ..., total_pmts - 1`, each
once. -/
theorem placement_in_bounds (p : Params) (h1 : 1 ≤ num_pmts p) (h2 : 1 ≤ num_vetos p)
    (o1 o2 : PlaceOptions) (hs1 : o1.start_idx = (inner_start_idx p : ℤ))
    (he1 : o1.end_idx = (inner_end_idx p : ℤ)) (hs2 : o2.start_idx = (veto_start_idx p : ℤ))
    (he2 : o2.end_idx = (veto_end_idx p : ℤ)) (offset1 offset2 : Vec3) (a : PosArrays)
    (st : PlaceState) :
    (∀ idx : ℤ, o1.start_idx ≤ idx → idx ≤ o1.end_idx → 0 ≤ idx ∧ idx < (total_pmts p : ℤ)) ∧
    (∀ idx : ℤ, o2.start_idx ≤ idx → idx ≤ o2.end_idx → 0 ≤ idx ∧ idx < (total_pmts p : ℤ)) ∧
    ∃ new1 new2 : List Placed,
      (placeLoop o2 offset2 a (placeLoop o1 offset1 a st)).placed = st.placed ++ new1 ++ new2 ∧
      new1.map Placed.idx = (List.range (num_pmts p)).map (fun (k : ℕ) => (k : ℤ)) ∧
      new2.map Placed.idx =
        (List.range (num_vetos p)).map (fun (k : ℕ) => ((num_pmts p + k : ℕ) : ℤ)) ∧
      (new1 ++ new2).map Placed.idx =
        (List.range (total_pmts p)).map (fun (k : ℕ) => (k : ℤ)) := by
  have hi : inner_end_idx p = num_pmts p - 1 := by
    unfold inner_end_idx sizePred
    rw [if_neg (by omega)]
  have ht : total_pmts p = num_pmts p + num_vetos p := rfl
  have hv : veto_end_idx p = total_pmts p - 1 := by
    unfold veto_end_idx sizePred
    rw [if_neg (by omega)]
  have hvs : veto_start_idx p = num_pmts p := rfl
  have h0 : inner_start_idx p = 0 := rfl
  have hn1 : (o1.end_idx - o1.start_idx + 1).toNat = num_pmts p := by
    rw [hs1, he1, hi, h0]
    omega
  have hn2 : (o2.end_idx - o2.start_idx + 1).toNat = num_vetos p := by
    rw [hs2, he2, hv, hvs, ht]
    omega
  refine ⟨?_, ?_, ?_⟩
  · intro idx ha hb
    rw [hs1, h0] at ha
    rw [he1, hi] at hb
    omega
  · intro idx ha hb
    rw [hs2, hvs] at ha
    rw [he2, hv] at hb
    omega
  · obtain ⟨_, new1, hnew1, hmap1⟩ := placeLoop_passes o1 offset1 a (st.pmtinfo.length : ℤ) st
      (o1.end_idx - o1.start_idx + 1).toNat
    obtain ⟨_, new2, hnew2, hmap2⟩ := placeLoop_passes o2 offset2 a
      ((placeLoop o1 offset1 a st).pmtinfo.length : ℤ) (placeLoop o1 offset1 a st)
      (o2.end_idx - o2.start_idx + 1).toNat
    have hidx1 : new1.map Placed.idx = (List.range (num_pmts p)).map (fun (k : ℕ) => (k : ℤ)) := by
      have := congrArg (List.map Prod.fst) hmap1
      rw [hn1, hs1, h0] at this
      simpa [List.map_map, Function.comp_def] using this
    have hidx2 : new2.map Placed.idx =
        (List.range (num_vetos p)).map (fun (k : ℕ) => ((num_pmts p + k : ℕ) : ℤ)) := by
      have := congrArg (List.map Prod.fst) hmap2
      rw [hn2, hs2, hvs] at this
      simpa [List.map_map, Function.comp_def] using this
    refine ⟨new1, new2, ?_, hidx1, hidx2, ?_⟩
    · have e : (placeLoop o2 offset2 a (placeLoop o1 offset1 a st)).placed =
          (placeLoop o1 offset1 a st).placed ++ new2 := hnew2
      have e1 : (placeLoop o1 offset1 a st).placed = st.placed ++ new1 := hnew1
      rw [e, e1]
    · rw [List.map_append, hidx1, hidx2, ht, List.range_add, List.map_append, List.map_map]
      rfl

/-- In the scenario both arrays have a unit; options with the written index ranges
read only indices below `total_pmts`. -/
theorem placement_in_bounds_witness :
    1 ≤ num_pmts scenario ∧ 1 ≤ num_vetos scenario ∧
    (∀ idx : ℤ, ((inner_start_idx scenario : ℕ) : ℤ) ≤ idx →
      idx ≤ ((inner_end_idx scenario : ℕ) : ℤ) → 0 ≤ idx ∧ idx < (total_pmts scenario : ℤ)) :=
  have h2 : 1 ≤ num_vetos scenario := by
    have := scenario_topbot_veto_length
    unfold num_vetos
    omega
  ⟨scenario_num_pmts_pos, h2,
    (placement_in_bounds scenario scenario_num_pmts_pos h2
      { manualOptions with start_idx := (inner_start_idx scenario : ℤ),
                           end_idx := (inner_end_idx scenario : ℤ) }
      { manualOptions with start_idx := (veto_start_idx scenario : ℤ),
                           end_idx := (veto_end_idx scenario : ℤ) }
      rfl rfl rfl rfl ⟨0, 0, 0⟩ ⟨0, 0, 0⟩ ⟨[], [], [], [], [], [], []⟩ ⟨[], []⟩).1⟩

end BUTTON
